import Mathlib

/-!
# Asteroids: a shallow embedding of the simulation core

The definitions below follow `src/main.go` and `src/types.go`.

Modelling conventions.

* `float64` values are elements of an arbitrary linearly ordered field `R`
  (exact arithmetic; rounding, infinities and NaN are not modelled).
  Instantiating `R` with the rationals makes every definition executable.
* The functions of Go's `math` package that the code calls are a parameter
  `M : MathOps R`.
* The process-wide random source is an explicit value `Rng R` that is threaded
  through every function that draws from it.
* `time.Time` is an integer number of nanoseconds; the zero `time.Time` is `0`
  and `time.Since t` is `now - t` for the clock value `now` of the step.
* Go's `int` is modelled by the unbounded `Int`.
* A slice of pointers to records is a `List` of records; the in-place update
  of element `i` is `List.set` and `append(s[:i], s[i+1:]...)` is
  `List.eraseIdx`.
-/

namespace Asteroids

/-! ## External collaborators -/

/-- The functions and constants of Go's `math` package used by the simulation. -/
structure MathOps (R : Type) where
  cos : R → R
  sin : R → R
  hypot : R → R → R
  atan2 : R → R → R
  pi : R

/-- The random source: `Intn n` at draw number `k` is `ints k % n`,
`Float64` at draw number `k` is `floats k`; `pos` counts the draws made. -/
structure Rng (R : Type) where
  ints : Nat → Nat
  floats : Nat → R
  pos : Nat

/-- Go's `rand.Intn n`. -/
def Rng.Intn {R : Type} (r : Rng R) (n : Nat) : Nat × Rng R :=
  (r.ints r.pos % n, { r with pos := r.pos + 1 })

/-- Go's `rand.Float64`. -/
def Rng.Float64 {R : Type} (r : Rng R) : R × Rng R :=
  (r.floats r.pos, { r with pos := r.pos + 1 })

/-- The level-triggered key state polled by `Update` (`ebiten.IsKeyPressed`). -/
structure Input where
  left : Bool
  right : Bool
  up : Bool
  space : Bool
  enter : Bool

/-! ## Data model (`types.go`) -/

/-- Go `Vector2D`. -/
structure Vector2D (R : Type) where
  X : R
  Y : R
deriving DecidableEq

/-- Go `Ship`. -/
structure Ship (R : Type) where
  Position : Vector2D R
  Velocity : Vector2D R
  Rotation : R
  IsThrusting : Bool
  IsInvincible : Bool
  InvincibleTimer : R

/-- Go `Asteroid`. -/
structure Asteroid (R : Type) where
  Position : Vector2D R
  Velocity : Vector2D R
  Rotation : R
  RotationSpeed : R
  Shape : List (Vector2D R)
  Size : Int
  Radius : R

/-- Go `Bullet`. -/
structure Bullet (R : Type) where
  Position : Vector2D R
  Velocity : Vector2D R
  Lifespan : R

/-- Go `UFO`. -/
structure UFO (R : Type) where
  Position : Vector2D R
  Velocity : Vector2D R
  Radius : R
  Size : Int
  LastShot : Int
  ScoreValue : Int

/-- Go `UFOBullet`. -/
structure UFOBullet (R : Type) where
  Position : Vector2D R
  Velocity : Vector2D R
  Lifespan : R

/-- Modelled from the spec: the record type `Particle`, which `main.go` uses
(`spawnExplosion`, `Update`, `Draw`) but `types.go` does not declare. The fields are the
ones `main.go` reads and writes, as listed in the data model of the spec
(position, velocity, rotation, rotation speed, remaining lifespan, visual length). -/
structure Particle (R : Type) where
  Position : Vector2D R
  Velocity : Vector2D R
  Rotation : R
  RotationSpeed : R
  Lifespan : R
  Length : R

/-- Modelled from the spec: the last two fields, `Particles` and `RespawnTimer`, which
`main.go` reads and writes but the declaration of `Game` in `types.go` does not have; the
data model of the spec lists them (collection of particles, respawn countdown timer) and
their types are the ones their uses force (`[]*Particle`, `float64`). The other fields
are those of Go `Game` in `types.go`. -/
structure Game (R : Type) where
  Ship : Option (Ship R)
  Asteroids : List (Asteroid R)
  Bullets : List (Bullet R)
  UFOs : List (UFO R)
  UFOBullets : List (UFOBullet R)
  Score : Int
  Lives : Int
  Level : Int
  ScreenWidth : Int
  ScreenHeight : Int
  GameState : Int
  LastShot : Int
  LastUFOSpawn : Int
  NextExtraLifeScore : Int
  Particles : List (Particle R)
  RespawnTimer : R

/-! ## Constants (`main.go`, lines 15-30) -/

/-- `ScreenWidth`. -/
def screenWidth : Int := 800
/-- `ScreenHeight`. -/
def screenHeight : Int := 600
/-- `UFOSpawnInterval = 10 * time.Second`, in nanoseconds. -/
def UFOSpawnInterval : Int := 10000000000
/-- `BigUFOScore`. -/
def BigUFOScore : Int := 200
/-- `SmallUFOScore`. -/
def SmallUFOScore : Int := 1000

section Model

variable {R : Type} [LinearOrderedField R]

/-- `ThrustForce`. -/
def ThrustForce : R := 0.1
/-- `BulletSpeed`. -/
def BulletSpeed : R := 4.0
/-- `BulletLifespan`. -/
def BulletLifespan : R := 1.0
/-- `BigUFORadius`. -/
def BigUFORadius : R := 20.0
/-- `SmallUFORadius`. -/
def SmallUFORadius : R := 15.0
/-- `BigUFOSpeed`. -/
def BigUFOSpeed : R := 0.5
/-- `SmallUFOSpeed`. -/
def SmallUFOSpeed : R := 1.0

/-- `Vector2D.Rotate`. -/
def Vector2D.Rotate (M : MathOps R) (v : Vector2D R) (angle : R) : Vector2D R :=
  ⟨v.X * M.cos angle - v.Y * M.sin angle, v.X * M.sin angle + v.Y * M.cos angle⟩

/-- `Vector2D.Subtract`. -/
def Vector2D.Subtract (v other : Vector2D R) : Vector2D R :=
  ⟨v.X - other.X, v.Y - other.Y⟩

/-- `Game.wrap` (lines 169-182). -/
def Game.wrap (g : Game R) (pos : Vector2D R) : Vector2D R :=
  let w : R := (g.ScreenWidth : R)
  let h : R := (g.ScreenHeight : R)
  let x : R := if pos.X < 0 then w else if pos.X > w then 0 else pos.X
  let y : R := if pos.Y < 0 then h else if pos.Y > h then 0 else pos.Y
  ⟨x, y⟩

/-- The shape loop (lines 80-87 and 120-127, the same text in both places):
`k` vertices remain to be generated, the next one has index `j`. -/
def genShape (M : MathOps R) (radius : R) (points : Nat) :
    Nat → Nat → Rng R → List (Vector2D R) × Rng R
  | 0, _, r => ([], r)
  | k + 1, j, r =>
    let angle : R := ((j : R) / (points : R)) * 2 * M.pi
    let d := r.Float64
    let rad : R := radius * (0.8 + d.1 * 0.4)
    let rest := genShape M radius points k (j + 1) d.2
    (⟨M.cos angle * rad, M.sin angle * rad⟩ :: rest.1, rest.2)

/-- One iteration of the loop of `spawnAsteroids` (lines 56-97). -/
def spawnAsteroid (M : MathOps R) (size : Int) (g : Game R) (r : Rng R) : Game R × Rng R :=
  let c1 := r.Intn 2
  let f1 := c1.2.Float64
  let c2 := f1.2.Intn 2
  let pos : Vector2D R :=
    if c1.1 = 0 then
      ⟨f1.1 * (g.ScreenWidth : R), if c2.1 = 0 then 0 else (g.ScreenHeight : R)⟩
    else
      ⟨if c2.1 = 0 then 0 else (g.ScreenWidth : R), f1.1 * (g.ScreenHeight : R)⟩
  let f2 := c2.2.Float64
  let speed : R := f2.1 + 0.5
  let f3 := f2.2.Float64
  let angle : R := f3.1 * 2 * M.pi
  let vel : Vector2D R := ⟨M.cos angle * speed, M.sin angle * speed⟩
  let radius : R := ((size * 15 : Int) : R)
  let c3 := f3.2.Intn 4
  let points : Nat := 8 + c3.1
  let shape := genShape M radius points points 0 c3.2
  let f4 := shape.2.Float64
  let f5 := f4.2.Float64
  ({ g with Asteroids := g.Asteroids ++ [{
        Position := pos
        Velocity := vel
        Rotation := f4.1 * 2 * M.pi
        RotationSpeed := (f5.1 - 0.5) * 0.05
        Shape := shape.1
        Size := size
        Radius := radius }] }, f5.2)

/-- The loop of `spawnAsteroids` with `n` iterations left. -/
def spawnAsteroidsLoop (M : MathOps R) (size : Int) : Nat → Game R → Rng R → Game R × Rng R
  | 0, g, r => (g, r)
  | n + 1, g, r =>
    let s := spawnAsteroid M size g r
    spawnAsteroidsLoop M size n s.1 s.2

/-- `Game.spawnAsteroids` (lines 54-99); a non-positive `count` runs no iteration. -/
def Game.spawnAsteroids (M : MathOps R) (g : Game R) (count size : Int) (r : Rng R) :
    Game R × Rng R :=
  spawnAsteroidsLoop M size count.toNat g r

/-- One iteration of the fragment loop of `splitAsteroid` (lines 109-137) for the removed
asteroid `a`. -/
def spawnFragment (M : MathOps R) (a : Asteroid R) (g : Game R) (r : Rng R) :
    Game R × Rng R :=
  let newSize : Int := a.Size - 1
  let f1 := r.Float64
  let angle : R := f1.1 * 2 * M.pi
  let speed : R := M.hypot a.Velocity.X a.Velocity.Y * 1.5
  let vel : Vector2D R := ⟨M.cos angle * speed, M.sin angle * speed⟩
  let radius : R := ((newSize * 15 : Int) : R)
  let c1 := f1.2.Intn 4
  let points : Nat := 8 + c1.1
  let shape := genShape M radius points points 0 c1.2
  let f2 := shape.2.Float64
  let f3 := f2.2.Float64
  ({ g with Asteroids := g.Asteroids ++ [{
        Position := a.Position
        Velocity := vel
        Rotation := f2.1 * 2 * M.pi
        RotationSpeed := (f3.1 - 0.5) * 0.05
        Shape := shape.1
        Size := newSize
        Radius := radius }] }, f3.2)

/-- `Game.splitAsteroid` (lines 101-140). An index outside the slice makes the Go code
panic; `Update` only calls it with a valid index, and the model returns the session
unchanged there. -/
def Game.splitAsteroid (M : MathOps R) (g : Game R) (index : Nat) (r : Rng R) :
    Game R × Rng R :=
  match g.Asteroids[index]? with
  | none => (g, r)
  | some a =>
    let g1 : Game R := { g with Asteroids := g.Asteroids.eraseIdx index }
    if a.Size > 1 then
      let s1 := spawnFragment M a g1 r
      spawnFragment M a s1.1 s1.2
    else (g1, r)

/-- One iteration of the loop of `spawnExplosion` (lines 144-155). -/
def spawnParticle (M : MathOps R) (pos : Vector2D R) (g : Game R) (r : Rng R) :
    Game R × Rng R :=
  let f1 := r.Float64
  let angle : R := f1.1 * 2 * M.pi
  let f2 := f1.2.Float64
  let speed : R := f2.1 * 2.0
  let vel : Vector2D R := ⟨M.cos angle * speed, M.sin angle * speed⟩
  let f3 := f2.2.Float64
  let f4 := f3.2.Float64
  let f5 := f4.2.Float64
  let f6 := f5.2.Float64
  ({ g with Particles := g.Particles ++ [{
        Position := pos
        Velocity := vel
        Rotation := f3.1 * 2 * M.pi
        RotationSpeed := (f4.1 - 0.5) * 0.2
        Lifespan := 1.0 + f5.1
        Length := 5.0 + f6.1 * 10.0 }] }, f6.2)

/-- The loop of `spawnExplosion` with `n` iterations left. -/
def spawnExplosionLoop (M : MathOps R) (pos : Vector2D R) :
    Nat → Game R → Rng R → Game R × Rng R
  | 0, g, r => (g, r)
  | n + 1, g, r =>
    let s := spawnParticle M pos g r
    spawnExplosionLoop M pos n s.1 s.2

/-- `Game.spawnExplosion` (lines 142-157). -/
def Game.spawnExplosion (M : MathOps R) (g : Game R) (pos : Vector2D R) (r : Rng R) :
    Game R × Rng R :=
  spawnExplosionLoop M pos 10 g r

/-- `Game.killShip` (lines 159-167). -/
def Game.killShip (M : MathOps R) (g : Game R) (r : Rng R) : Game R × Rng R :=
  match g.Ship with
  | none => (g, r)
  | some s =>
    let e := g.spawnExplosion M s.Position r
    ({ e.1 with Ship := none, Lives := e.1.Lives - 1, RespawnTimer := 2.0 }, e.2)

/-- `NewGame` (lines 32-52); `now` is the value of `time.Now()`. -/
def NewGame (M : MathOps R) (now : Int) (r : Rng R) : Game R × Rng R :=
  let c := r.Intn 3
  let g : Game R := {
    Ship := some {
      Position := ⟨(screenWidth : R) / 2, (screenHeight : R) / 2⟩
      Velocity := ⟨0, 0⟩
      Rotation := -M.pi / 2
      IsThrusting := false
      IsInvincible := false
      InvincibleTimer := 0 }
    Asteroids := []
    Bullets := []
    UFOs := []
    UFOBullets := []
    Score := 0
    Lives := 3 + (c.1 : Int)
    Level := 1
    ScreenWidth := screenWidth
    ScreenHeight := screenHeight
    GameState := 0
    LastShot := 0
    LastUFOSpawn := now
    NextExtraLifeScore := 10000
    Particles := []
    RespawnTimer := 0 }
  g.spawnAsteroids M 4 3 c.2

/-! ## The simulation step (`Game.Update`, lines 184-490) -/

/-- The literal `1.0 / 60.0`, the duration of a tick in seconds. -/
def tick : R := 1.0 / 60.0

/-- Body of the particle loop (lines 196-203) at index `i`, where `p` is `g.Particles[i]`. -/
def updateParticle (i : Nat) (p : Particle R) (g : Game R) : Game R :=
  let p1 : Particle R := { p with
    Position := ⟨p.Position.X + p.Velocity.X, p.Position.Y + p.Velocity.Y⟩
    Rotation := p.Rotation + p.RotationSpeed
    Lifespan := p.Lifespan - tick }
  let g1 : Game R := { g with Particles := g.Particles.set i p1 }
  if p1.Lifespan ≤ 0 then { g1 with Particles := g1.Particles.eraseIdx i } else g1

/-- The particle loop (lines 195-204), about to run the indices `i - 1, ..., 0`. -/
def updateParticlesFrom : Nat → Game R → Game R
  | 0, g => g
  | i + 1, g =>
    match g.Particles[i]? with
    | none => g
    | some p => updateParticlesFrom i (updateParticle i p g)

/-- The respawn timer (lines 207-222). -/
def respawnStep (M : MathOps R) (g : Game R) : Game R :=
  if g.RespawnTimer > 0 then
    let g1 : Game R := { g with RespawnTimer := g.RespawnTimer - tick }
    if g1.RespawnTimer ≤ 0 then
      if g1.Lives > 0 then
        { g1 with Ship := some {
            Position := ⟨(screenWidth : R) / 2, (screenHeight : R) / 2⟩
            Velocity := ⟨0, 0⟩
            Rotation := -M.pi / 2
            IsThrusting := false
            IsInvincible := true
            InvincibleTimer := 3.0 } }
      else { g1 with GameState := 1 }
    else g1
  else g

/-- The invincibility countdown of the ship (lines 226-231). -/
def decayInvincibility (s : Ship R) : Ship R :=
  if s.IsInvincible = true then
    let s1 : Ship R := { s with InvincibleTimer := s.InvincibleTimer - tick }
    if s1.InvincibleTimer ≤ 0 then { s1 with IsInvincible := false } else s1
  else s

/-- Rotation, thrust, motion and wrap of the ship (lines 233-251). -/
def steerShip (M : MathOps R) (g : Game R) (inp : Input) (s : Ship R) : Ship R :=
  let s1 : Ship R := if inp.left = true then { s with Rotation := s.Rotation - 0.05 } else s
  let s2 : Ship R := if inp.right = true then { s1 with Rotation := s1.Rotation + 0.05 } else s1
  let s3 : Ship R := { s2 with IsThrusting := false }
  let s4 : Ship R :=
    if inp.up = true then
      { s3 with
        IsThrusting := true
        Velocity := ⟨s3.Velocity.X + M.cos s3.Rotation * ThrustForce,
                     s3.Velocity.Y + M.sin s3.Rotation * ThrustForce⟩ }
    else s3
  { s4 with Position := g.wrap ⟨s4.Position.X + s4.Velocity.X, s4.Position.Y + s4.Velocity.Y⟩ }

/-- The bullet fired from the nose of the ship `s` (lines 255-269). -/
def shipBullet (M : MathOps R) (s : Ship R) : Bullet R :=
  let noseOffset := Vector2D.Rotate M ⟨15, 0⟩ s.Rotation
  let dir := Vector2D.Rotate M ⟨1, 0⟩ s.Rotation
  { Position := ⟨s.Position.X + noseOffset.X, s.Position.Y + noseOffset.Y⟩
    Velocity := ⟨s.Velocity.X + dir.X * BulletSpeed, s.Velocity.Y + dir.Y * BulletSpeed⟩
    Lifespan := BulletLifespan }

/-- Phase 1, the ship (lines 225-274); `200 * time.Millisecond` is in nanoseconds. -/
def updateShip (M : MathOps R) (g : Game R) (inp : Input) (now : Int) : Game R :=
  match g.Ship with
  | none => g
  | some s =>
    let s1 := steerShip M g inp (decayInvincibility s)
    let g1 : Game R := { g with Ship := some s1 }
    if inp.space = true then
      if now - g1.LastShot > 200000000 then
        { g1 with Bullets := g1.Bullets ++ [shipBullet M s1], LastShot := now }
      else g1
    else g1

/-- The effect of a bullet hit on the asteroid at index `j` (lines 291-292):
`g.splitAsteroid(j)` and `g.Score += 100`. -/
def bulletHit (M : MathOps R) (g : Game R) (j : Nat) (r : Rng R) : Game R × Rng R :=
  let s := g.splitAsteroid M j r
  ({ s.1 with Score := s.1.Score + 100 }, s.2)

/-- The asteroid scan of a bullet (lines 286-296), about to test the indices
`j - 1, ..., 0`; the last component is the flag `hit`. -/
def hitAsteroidFrom (M : MathOps R) (b : Bullet R) :
    Nat → Game R → Rng R → Game R × Rng R × Bool
  | 0, g, r => (g, r, false)
  | j + 1, g, r =>
    match g.Asteroids[j]? with
    | none => (g, r, false)
    | some a =>
      if M.hypot (b.Position.X - a.Position.X) (b.Position.Y - a.Position.Y) < a.Radius then
        let s := bulletHit M g j r
        (s.1, s.2, true)
      else hitAsteroidFrom M b j g r

/-- The UFO scan of a bullet (lines 300-309), about to test the indices `j - 1, ..., 0`. -/
def hitUFOFrom (M : MathOps R) (b : Bullet R) : Nat → Game R → Game R × Bool
  | 0, g => (g, false)
  | j + 1, g =>
    match g.UFOs[j]? with
    | none => (g, false)
    | some ufo =>
      if M.hypot (b.Position.X - ufo.Position.X) (b.Position.Y - ufo.Position.Y) < ufo.Radius then
        ({ g with Score := g.Score + ufo.ScoreValue, UFOs := g.UFOs.eraseIdx j }, true)
      else hitUFOFrom M b j g

/-- The motion of a bullet (lines 279-283). -/
def moveBullet (g : Game R) (b : Bullet R) : Bullet R :=
  { b with
    Position := g.wrap ⟨b.Position.X + b.Velocity.X, b.Position.Y + b.Velocity.Y⟩
    Lifespan := b.Lifespan - tick }

/-- Body of the bullet loop (lines 278-314) at index `i`, where `b0` is `g.Bullets[i]`. -/
def updateBullet (M : MathOps R) (i : Nat) (b0 : Bullet R) (g : Game R) (r : Rng R) :
    Game R × Rng R :=
  let b := moveBullet g b0
  let g1 : Game R := { g with Bullets := g.Bullets.set i b }
  let h1 := hitAsteroidFrom M b g1.Asteroids.length g1 r
  let h2 : Game R × Bool :=
    if h1.2.2 = false then hitUFOFrom M b h1.1.UFOs.length h1.1 else (h1.1, true)
  if h2.2 = true ∨ b.Lifespan ≤ 0 then
    ({ h2.1 with Bullets := h2.1.Bullets.eraseIdx i }, h1.2.1)
  else (h2.1, h1.2.1)

/-- Phase 2, the bullet loop (lines 277-315), about to run the indices `i - 1, ..., 0`. -/
def updateBulletsFrom (M : MathOps R) : Nat → Game R → Rng R → Game R × Rng R
  | 0, g, r => (g, r)
  | i + 1, g, r =>
    match g.Bullets[i]? with
    | none => (g, r)
    | some b0 =>
      let s := updateBullet M i b0 g r
      updateBulletsFrom M i s.1 s.2

/-- The collision test of the ship against a circle (lines 326-331, 400-405): the guard
`g.Ship != nil && !g.Ship.IsInvincible && g.GameState == 0`, then the distance of the ship
to the centre `c` against `rad`, then `killShip`. -/
def collideShip (M : MathOps R) (c : Vector2D R) (rad : R) (g : Game R) (r : Rng R) :
    Game R × Rng R :=
  match g.Ship with
  | none => (g, r)
  | some s =>
    if s.IsInvincible = false ∧ g.GameState = 0 then
      if M.hypot (s.Position.X - c.X) (s.Position.Y - c.Y) < rad then g.killShip M r
      else (g, r)
    else (g, r)

/-- Body of the asteroid loop (lines 319-331) at index `i`, where `a0` is
`g.Asteroids[i]`. -/
def updateAsteroid (M : MathOps R) (i : Nat) (a0 : Asteroid R) (g : Game R) (r : Rng R) :
    Game R × Rng R :=
  let a : Asteroid R := { a0 with
    Position := g.wrap ⟨a0.Position.X + a0.Velocity.X, a0.Position.Y + a0.Velocity.Y⟩
    Rotation := a0.Rotation + a0.RotationSpeed }
  let g1 : Game R := { g with Asteroids := g.Asteroids.set i a }
  collideShip M a.Position (a.Radius + 10) g1 r

/-- Phase 3, the asteroid loop (lines 318-332), about to run the indices
`i - 1, ..., 0`. -/
def updateAsteroidsFrom (M : MathOps R) : Nat → Game R → Rng R → Game R × Rng R
  | 0, g, r => (g, r)
  | i + 1, g, r =>
    match g.Asteroids[i]? with
    | none => (g, r)
    | some a0 =>
      let s := updateAsteroid M i a0 g r
      updateAsteroidsFrom M i s.1 s.2

/-- The extra life (lines 335-338). -/
def grantExtraLife (g : Game R) : Game R :=
  if g.Score ≥ g.NextExtraLifeScore then
    { g with Lives := g.Lives + 1, NextExtraLifeScore := g.NextExtraLifeScore + 10000 }
  else g

/-- The UFO spawn (lines 341-384). The components of `kind` are `ufoSize`, `ufoRadius`,
`ufoSpeed` and `ufoScore`. -/
def spawnUFO (g : Game R) (now : Int) (r : Rng R) : Game R × Rng R :=
  if now - g.LastUFOSpawn > UFOSpawnInterval ∧ g.UFOs.length = 0 then
    let big : Int × R × R × Int := (1, BigUFORadius, BigUFOSpeed, BigUFOScore)
    let small : Int × R × R × Int := (0, SmallUFORadius, SmallUFOSpeed, SmallUFOScore)
    let k : (Int × R × R × Int) × Rng R :=
      if g.Score ≥ 40000 then (small, r)
      else
        let c := r.Intn 2
        if c.1 = 0 then (big, c.2) else (small, c.2)
    let kind := k.1
    let c2 := k.2.Intn 2
    let startX : R := if c2.1 = 0 then (g.ScreenWidth : R) else 0.0
    let velX : R := if c2.1 = 0 then -kind.2.2.1 else kind.2.2.1
    let f := c2.2.Float64
    let startY : R := f.1 * (g.ScreenHeight : R)
    ({ g with
       UFOs := g.UFOs ++ [{
         Position := ⟨startX, startY⟩
         Velocity := ⟨velX, 0⟩
         Radius := kind.2.1
         Size := kind.1
         LastShot := now
         ScoreValue := kind.2.2.2 }]
       LastUFOSpawn := now }, f.2)
  else (g, r)

/-- The velocity of the bullet a UFO is about to fire (lines 417-436); the zero vector
when no target is set. -/
def ufoBulletVel (M : MathOps R) (ufo : UFO R) (g : Game R) (r : Rng R) :
    Vector2D R × Rng R :=
  if ufo.Size = 1 then
    let f := r.Float64
    let angle : R := f.1 * 2 * M.pi
    (⟨M.cos angle * BulletSpeed, M.sin angle * BulletSpeed⟩, f.2)
  else
    match g.Ship with
    | none => (⟨0, 0⟩, r)
    | some s =>
      let diff := s.Position.Subtract ufo.Position
      let angle0 : R := M.atan2 diff.Y diff.X
      let accuracy : R :=
        if g.Score < 60000 then M.pi / 4 * (1 - (g.Score : R) / 60000) else 0.0
      let f := r.Float64
      let angle : R := angle0 + (f.1 * 2 - 1) * accuracy
      (⟨M.cos angle * BulletSpeed, M.sin angle * BulletSpeed⟩, f.2)

/-- The firing of the UFO `ufo`, which is `g.UFOs[i]` (lines 408-446); the fire rates
`2 * time.Second` and `1 * time.Second` are in nanoseconds. -/
def fireUFO (M : MathOps R) (i : Nat) (ufo : UFO R) (now : Int) (g : Game R) (r : Rng R) :
    Game R × Rng R :=
  let fireRate : Int := if ufo.Size = 1 then 2000000000 else 1000000000
  if now - ufo.LastShot > fireRate then
    let v := ufoBulletVel M ufo g r
    if v.1 ≠ ⟨0, 0⟩ then
      ({ g with
         UFOBullets := g.UFOBullets ++ [{
           Position := ufo.Position
           Velocity := v.1
           Lifespan := BulletLifespan }]
         UFOs := g.UFOs.set i { ufo with LastShot := now } }, v.2)
    else (g, v.2)
  else (g, r)

/-- Body of the UFO loop (lines 387-446) at index `i`, where `u0` is `g.UFOs[i]`. -/
def updateUFO (M : MathOps R) (i : Nat) (u0 : UFO R) (now : Int) (g : Game R) (r : Rng R) :
    Game R × Rng R :=
  let ufo : UFO R := { u0 with
    Position := g.wrap ⟨u0.Position.X + u0.Velocity.X, u0.Position.Y + u0.Velocity.Y⟩ }
  let g1 : Game R := { g with UFOs := g.UFOs.set i ufo }
  if (ufo.Velocity.X > 0 ∧ ufo.Position.X > (g1.ScreenWidth : R) + ufo.Radius) ∨
      (ufo.Velocity.X < 0 ∧ ufo.Position.X < -ufo.Radius) then
    ({ g1 with UFOs := g1.UFOs.eraseIdx i }, r)
  else
    let s := collideShip M ufo.Position (ufo.Radius + 10) g1 r
    fireUFO M i ufo now s.1 s.2

/-- The UFO loop (lines 386-447), about to run the indices `i - 1, ..., 0`. -/
def updateUFOsFrom (M : MathOps R) (now : Int) : Nat → Game R → Rng R → Game R × Rng R
  | 0, g, r => (g, r)
  | i + 1, g, r =>
    match g.UFOs[i]? with
    | none => (g, r)
    | some u0 =>
      let s := updateUFO M i u0 now g r
      updateUFOsFrom M now i s.1 s.2

/-- Body of the UFO-bullet loop (lines 451-470) at index `i`, where `b0` is
`g.UFOBullets[i]`. -/
def updateUFOBullet (M : MathOps R) (i : Nat) (b0 : UFOBullet R) (g : Game R) (r : Rng R) :
    Game R × Rng R :=
  let b : UFOBullet R := { b0 with
    Position := g.wrap ⟨b0.Position.X + b0.Velocity.X, b0.Position.Y + b0.Velocity.Y⟩
    Lifespan := b0.Lifespan - tick }
  let g1 : Game R := { g with UFOBullets := g.UFOBullets.set i b }
  let expire : Game R × Rng R :=
    if b.Lifespan ≤ 0 then ({ g1 with UFOBullets := g1.UFOBullets.eraseIdx i }, r)
    else (g1, r)
  match g1.Ship with
  | none => expire
  | some s =>
    if s.IsInvincible = false ∧ g1.GameState = 0 then
      if M.hypot (b.Position.X - s.Position.X) (b.Position.Y - s.Position.Y) < 10 then
        let k := g1.killShip M r
        ({ k.1 with UFOBullets := k.1.UFOBullets.eraseIdx i }, k.2)
      else expire
    else expire

/-- The UFO-bullet loop (lines 450-471), about to run the indices `i - 1, ..., 0`. -/
def updateUFOBulletsFrom (M : MathOps R) : Nat → Game R → Rng R → Game R × Rng R
  | 0, g, r => (g, r)
  | i + 1, g, r =>
    match g.UFOBullets[i]? with
    | none => (g, r)
    | some b0 =>
      let s := updateUFOBullet M i b0 g r
      updateUFOBulletsFrom M i s.1 s.2

/-- Phase 5, level progression (lines 475-487). -/
def levelProgression (M : MathOps R) (g : Game R) (r : Rng R) : Game R × Rng R :=
  if g.Asteroids.length = 0 ∧ g.UFOs.length = 0 then
    let g1 : Game R := { g with Level := g.Level + 1, UFOBullets := [] }
    let numAsteroids : Int :=
      if g1.Score ≥ 40000 ∧ g1.Score < 60000 then 7
      else if g1.Score ≥ 60000 then 8
      else g1.Level + 3
    g1.spawnAsteroids M numAsteroids 3 r
  else (g, r)

/-- The session after the particle, respawn, ship, bullet and asteroid phases of a step
(lines 194-332). -/
def stepToAsteroids (M : MathOps R) (g : Game R) (inp : Input) (now : Int) (r : Rng R) :
    Game R × Rng R :=
  let g1 := updateParticlesFrom g.Particles.length g
  let g2 := respawnStep M g1
  let g3 := updateShip M g2 inp now
  let s4 := updateBulletsFrom M g3.Bullets.length g3 r
  updateAsteroidsFrom M s4.1.Asteroids.length s4.1 s4.2

/-- The rest of a step after the extra-life check: UFO spawn, UFOs, UFO bullets and
level progression (lines 340-487). -/
def stepFromUFOs (M : MathOps R) (g : Game R) (now : Int) (r : Rng R) : Game R × Rng R :=
  let s1 := spawnUFO g now r
  let s2 := updateUFOsFrom M now s1.1.UFOs.length s1.1 s1.2
  let s3 := updateUFOBulletsFrom M s2.1.UFOBullets.length s2.1 s2.2
  levelProgression M s3.1 s3.2

/-- A step in the Playing state (lines 194-489). -/
def playStep (M : MathOps R) (g : Game R) (inp : Input) (now : Int) (r : Rng R) :
    Game R × Rng R :=
  let s := stepToAsteroids M g inp now r
  stepFromUFOs M (grantExtraLife s.1) now s.2

/-- `Game.Update` (lines 184-490): `inp` is the key state, `now` the clock value and `r`
the random source of the step. -/
def Game.Update (M : MathOps R) (g : Game R) (inp : Input) (now : Int) (r : Rng R) :
    Game R × Rng R :=
  if g.GameState = 1 then
    if inp.enter = true then NewGame M now r else (g, r)
  else playStep M g inp now r

/-- The sessions a run can reach: a new session, then any number of steps, each with its
own key state, clock value and random source. -/
inductive Reachable (M : MathOps R) : Game R → Prop
  | init (now : Int) (r : Rng R) : Reachable M (NewGame M now r).1
  | step (g : Game R) (inp : Input) (now : Int) (r : Rng R) :
      Reachable M g → Reachable M (g.Update M inp now r).1

/-- The session after the particle, respawn and ship phases of a step (lines 194-274),
with the ship as the collision checks of the step find it; `stepToAsteroids` runs the
bullet loop and the asteroid loop on it. -/
def stepToShip (M : MathOps R) (g : Game R) (inp : Input) (now : Int) : Game R :=
  updateShip M (respawnStep M (updateParticlesFrom g.Particles.length g)) inp now

/-- A run of Update steps, one for each entry of `steps`: the key state, the clock value
and the random source of the step. -/
def run (M : MathOps R) : Game R → List (Input × Int × Rng R) → Game R
  | g, [] => g
  | g, s :: rest => run M (g.Update M s.1 s.2.1 s.2.2).1 rest

end Model

/-! ## Concrete sessions over the rationals -/

/-- A rational stand-in for the `math` package: every angle has cosine `1` and sine `0`,
and `hypot` is the sum of the absolute values. -/
def ratMath : MathOps ℚ :=
  ⟨fun _ => 1, fun _ => 0, fun x y => |x| + |y|, fun _ _ => 0, 3⟩

/-- The random source whose every draw is `0`. -/
def zeroRng (R : Type) [Zero R] : Rng R := ⟨fun _ => 0, fun _ => 0, 0⟩

/-- An asteroid of tier `size` at `pos` with velocity `vel`. -/
def rock {R : Type} [LinearOrderedField R] (size : Int) (pos vel : Vector2D R) : Asteroid R :=
  { Position := pos, Velocity := vel, Rotation := 0, RotationSpeed := 0, Shape := []
    Size := size, Radius := ((size * 15 : Int) : R) }

/-- A Playing session on the 800 x 600 screen with the given ship and asteroids and
nothing else. -/
def arena {R : Type} [LinearOrderedField R] (ship : Option (Ship R))
    (rocks : List (Asteroid R)) : Game R :=
  { Ship := ship, Asteroids := rocks, Bullets := [], UFOs := [], UFOBullets := []
    Score := 0, Lives := 3, Level := 1, ScreenWidth := screenWidth
    ScreenHeight := screenHeight, GameState := 0, LastShot := 0, LastUFOSpawn := 0
    NextExtraLifeScore := 10000, Particles := [], RespawnTimer := 0 }

/-- No key held. -/
def idle : Input := ⟨false, false, false, false, false⟩

/-- The new session built from `ratMath` and `zeroRng` at clock value `0`. -/
def startGame : Game ℚ := (NewGame ratMath 0 (zeroRng ℚ)).1

/-- A ship at rest at the centre of the 800 x 600 screen, not invincible. -/
def centreShip : Ship ℚ :=
  { Position := ⟨400, 300⟩, Velocity := ⟨0, 0⟩, Rotation := 0, IsThrusting := false
    IsInvincible := false, InvincibleTimer := 0 }

/-- The Playing session `arena`, at level 1 with 40000 points, with a ship at the centre
and no asteroid and no UFO. -/
def lateArena : Game ℚ :=
  { arena (some centreShip) [] with Score := 40000, NextExtraLifeScore := 50000 }

/-- A Playing session whose ship is absent and whose respawn countdown ends with the next
tick, three lives left. -/
def respawning : Game ℚ :=
  { arena none [rock 3 ⟨0, 0⟩ ⟨0, 0⟩] with RespawnTimer := 1 / 60 }

/-- The session `arena` after the game is over: no ship, no life, game state 1. -/
def overArena : Game ℚ :=
  { arena none [rock 3 ⟨0, 0⟩ ⟨0, 0⟩] with Lives := 0, GameState := 1 }

/-- Only the restart key held. -/
def restart : Input := ⟨false, false, false, false, true⟩

/-- A Playing session whose ship is absent and whose respawn countdown ends with the next
tick, with a large asteroid at rest on the centre of the screen, where the ship is
created. -/
def ambush : Game ℚ :=
  { arena none [rock 3 ⟨400, 300⟩ ⟨0, 0⟩] with RespawnTimer := 1 / 60 }

/-- A bullet at rest at `(100, 100)` with a full lifespan. -/
def slug : Bullet ℚ :=
  { Position := ⟨100, 100⟩, Velocity := ⟨0, 0⟩, Lifespan := 1 }

/-- A small UFO of radius 15 at rest at `(100, 100)`, worth 1000 points. -/
def saucer : UFO ℚ :=
  { Position := ⟨100, 100⟩, Velocity := ⟨0, 0⟩, Radius := 15, Size := 0, LastShot := 0
    ScoreValue := 1000 }

/-- The Playing session `arena` with the bullet `slug` inside both a large asteroid and
the UFO `saucer`. -/
def crossfire : Game ℚ :=
  { arena (some centreShip) [rock 3 ⟨100, 100⟩ ⟨0, 0⟩] with
    Bullets := [slug], UFOs := [saucer] }

/-- The Playing session `arena` with the bullet `slug` inside the UFO `saucer` and far
from the only asteroid. -/
def saucerShot : Game ℚ :=
  { arena (some centreShip) [rock 3 ⟨500, 500⟩ ⟨0, 0⟩] with
    Bullets := [slug], UFOs := [saucer] }


/-- A bullet at `(90, 100)` moving right at speed 5, half of its lifespan left. -/
def tracer : Bullet ℚ :=
  { Position := ⟨90, 100⟩, Velocity := ⟨5, 0⟩, Lifespan := 1 / 2 }

/-- A Playing session 100 points short of the first extra life: 9900 points, threshold
10000, three lives, a ship at the centre, a large asteroid at `(100, 100)` and the bullet
`tracer` about to hit it. -/
def lastHundred : Game ℚ :=
  { arena (some centreShip) [rock 3 ⟨100, 100⟩ ⟨0, 0⟩] with
    Bullets := [tracer], Score := 9900 }


/-! ## Specification predicates -/

section Predicates

variable {R : Type} [LinearOrderedField R]

/-- The remaining lifespans of the player's bullets, oldest first. -/
def lifespans (g : Game R) : List R :=
  g.Bullets.map (fun b => b.Lifespan)

/-- A list of lifespans, oldest first, lies below a staircase: an entry followed by `n`
younger ones is at most `c` minus `n + 1` ticks. -/
def AgeOK (c : R) : List R → Prop
  | [] => True
  | x :: xs => x ≤ c - ((xs.length : R) + 1) * tick ∧ AgeOK c xs

/-- The session `g2` comes from `g1` by changes to the entity lists and the particles and
by at most one destruction of a vulnerable ship. -/
structure LateFrame (g1 g2 : Game R) : Prop where
  score : g2.Score = g1.Score
  next : g2.NextExtraLifeScore = g1.NextExtraLifeScore
  bullets : g2.Bullets = g1.Bullets
  state : g2.GameState = g1.GameState
  level : g2.Level = g1.Level
  width : g2.ScreenWidth = g1.ScreenWidth
  height : g2.ScreenHeight = g1.ScreenHeight
  lastShot : g2.LastShot = g1.LastShot
  lastSpawn : g2.LastUFOSpawn = g1.LastUFOSpawn
  ship : (g2.Ship = g1.Ship ∧ g2.Lives = g1.Lives ∧ g2.RespawnTimer = g1.RespawnTimer) ∨
    (∃ s, g1.Ship = some s ∧ s.IsInvincible = false ∧ g1.GameState = 0 ∧
      g2.Ship = none ∧ g2.Lives = g1.Lives - 1 ∧ g2.RespawnTimer = 2)

/-- At most one UFO, and every UFO is worth between 0 and 1000 points. -/
def UFOsOK (g : Game R) : Prop :=
  g.UFOs.length ≤ 1 ∧ ∀ u ∈ g.UFOs, 0 ≤ u.ScoreValue ∧ u.ScoreValue ≤ 1000

/-- Every asteroid has radius 15 times its tier. -/
def RadiiOK (g : Game R) : Prop :=
  ∀ a ∈ g.Asteroids, a.Radius = 15 * (a.Size : R)

/-- The ship, the lives and the respawn countdown agree at the end of a step: a present
ship has no countdown running and a life left; an absent ship has either a running
countdown that outlasts every bullet by a tick, or no life left in a finished game. -/
def ShipOK (g : Game R) : Prop :=
  (∀ s, g.Ship = some s → g.RespawnTimer ≤ 0 ∧ 0 < g.Lives) ∧
  (g.Ship = none →
    (0 < g.RespawnTimer ∧ ∀ b ∈ g.Bullets, b.Lifespan + tick ≤ g.RespawnTimer) ∨
    (g.Lives ≤ 0 ∧ g.GameState = 1))

/-- The agreement of ship, lives and countdown between the respawn phase and the bullet
phase of a step. -/
def ShipMid (g : Game R) : Prop :=
  (∀ s, g.Ship = some s → g.RespawnTimer ≤ 0 ∧ 0 < g.Lives) ∧
  (g.Ship = none →
    (0 < g.RespawnTimer ∧ ∀ b ∈ g.Bullets, b.Lifespan ≤ g.RespawnTimer) ∨
    (g.Lives ≤ 0 ∧ g.GameState = 1 ∧ g.Bullets = []))

/-- The agreement of ship, lives and countdown from the bullet phase of a step on. -/
def ShipLate (g : Game R) : Prop :=
  AgeOK 1 (lifespans g) ∧
  (∀ s, g.Ship = some s → g.RespawnTimer ≤ 0 ∧ 0 < g.Lives) ∧
  (g.Ship = none →
    (0 < g.RespawnTimer ∧ ∀ b ∈ g.Bullets, b.Lifespan + tick ≤ g.RespawnTimer) ∨
    (g.Lives ≤ 0 ∧ g.GameState = 1 ∧ g.Score < g.NextExtraLifeScore))

/-- The invariant of the sessions a run can reach. -/
def Inv (g : Game R) : Prop :=
  0 ≤ g.Score ∧ g.Score < g.NextExtraLifeScore ∧ UFOsOK g ∧ RadiiOK g ∧
  AgeOK 1 (lifespans g) ∧ (∀ b ∈ g.Bullets, 0 < b.Lifespan) ∧ ShipOK g

/-- The ship is present with its invincibility flag set and `t` seconds of invincibility
left, no respawn countdown is running and the game is in the Playing state. -/
def Shielded (t : R) (g : Game R) : Prop :=
  ∃ s, g.Ship = some s ∧ s.IsInvincible = true ∧ s.InvincibleTimer = t ∧
    g.RespawnTimer ≤ 0 ∧ g.GameState = 0

/-- The hit test of the collision scans (lines 289-290, 302-303): the point `p` is
closer to the centre `c` than `rad`. -/
def Within (M : MathOps R) (p c : Vector2D R) (rad : R) : Prop :=
  M.hypot (p.X - c.X) (p.Y - c.Y) < rad


/-- The function `f` of a session and a random source neither reads the particle list
for anything but the particle list: run on a session with another particle list, it
returns the same random source and the same session up to its particle list. -/
def Blind (f : Game R → Rng R → Game R × Rng R) : Prop :=
  ∀ (g : Game R) (ps : List (Particle R)) (r : Rng R),
    ∃ ps2 : List (Particle R),
      f { g with Particles := ps } r = ({ (f g r).1 with Particles := ps2 }, (f g r).2)


end Predicates

/-! ## Theorems -/

section Proofs

set_option linter.unusedSectionVars false

variable {R : Type} [LinearOrderedField R]

/-! ### `wrap` -/

/-- C1. On a screen of non-negative width and height, `wrap` snaps each coordinate
independently: a negative `x` becomes the width, an `x` beyond the width becomes `0`, an
`x` in `[0, width]` is unchanged; likewise `y` with the height. -/
theorem wrap_snaps_to_edge (g : Game R) (pos : Vector2D R)
    (hw : 0 ≤ g.ScreenWidth) (hh : 0 ≤ g.ScreenHeight) :
    ((pos.X < 0 → (g.wrap pos).X = (g.ScreenWidth : R)) ∧
      (pos.X > (g.ScreenWidth : R) → (g.wrap pos).X = 0) ∧
      (0 ≤ pos.X → pos.X ≤ (g.ScreenWidth : R) → (g.wrap pos).X = pos.X)) ∧
    ((pos.Y < 0 → (g.wrap pos).Y = (g.ScreenHeight : R)) ∧
      (pos.Y > (g.ScreenHeight : R) → (g.wrap pos).Y = 0) ∧
      (0 ≤ pos.Y → pos.Y ≤ (g.ScreenHeight : R) → (g.wrap pos).Y = pos.Y)) := by
  have hw' : (0 : R) ≤ (g.ScreenWidth : R) := by exact_mod_cast hw
  have hh' : (0 : R) ≤ (g.ScreenHeight : R) := by exact_mod_cast hh
  refine ⟨⟨?_, ?_, ?_⟩, ⟨?_, ?_, ?_⟩⟩
  · intro h
    simp [Game.wrap, h]
  · intro h
    have h0 : ¬ pos.X < 0 := not_lt.mpr (le_trans hw' (le_of_lt h))
    simp [Game.wrap, h0, h]
  · intro h0 h1
    simp [Game.wrap, not_lt.mpr h0, not_lt.mpr h1]
  · intro h
    simp [Game.wrap, h]
  · intro h
    have h0 : ¬ pos.Y < 0 := not_lt.mpr (le_trans hh' (le_of_lt h))
    simp [Game.wrap, h0, h]
  · intro h0 h1
    simp [Game.wrap, not_lt.mpr h0, not_lt.mpr h1]

/-- Witness of C1 on the 800 x 600 screen at the position `(-1, 700)`. -/
theorem wrap_snaps_to_edge_witness :
    (0 : Int) ≤ (arena (R := ℚ) none []).ScreenWidth ∧
    (0 : Int) ≤ (arena (R := ℚ) none []).ScreenHeight ∧
    ((((⟨-1, 700⟩ : Vector2D ℚ).X < 0 →
        ((arena none []).wrap (⟨-1, 700⟩ : Vector2D ℚ)).X
          = ((arena (R := ℚ) none []).ScreenWidth : ℚ)) ∧
      ((⟨-1, 700⟩ : Vector2D ℚ).X > ((arena (R := ℚ) none []).ScreenWidth : ℚ) →
        ((arena none []).wrap (⟨-1, 700⟩ : Vector2D ℚ)).X = 0) ∧
      (0 ≤ (⟨-1, 700⟩ : Vector2D ℚ).X →
        (⟨-1, 700⟩ : Vector2D ℚ).X ≤ ((arena (R := ℚ) none []).ScreenWidth : ℚ) →
        ((arena none []).wrap (⟨-1, 700⟩ : Vector2D ℚ)).X = (⟨-1, 700⟩ : Vector2D ℚ).X)) ∧
     (((⟨-1, 700⟩ : Vector2D ℚ).Y < 0 →
        ((arena none []).wrap (⟨-1, 700⟩ : Vector2D ℚ)).Y
          = ((arena (R := ℚ) none []).ScreenHeight : ℚ)) ∧
      ((⟨-1, 700⟩ : Vector2D ℚ).Y > ((arena (R := ℚ) none []).ScreenHeight : ℚ) →
        ((arena none []).wrap (⟨-1, 700⟩ : Vector2D ℚ)).Y = 0) ∧
      (0 ≤ (⟨-1, 700⟩ : Vector2D ℚ).Y →
        (⟨-1, 700⟩ : Vector2D ℚ).Y ≤ ((arena (R := ℚ) none []).ScreenHeight : ℚ) →
        ((arena none []).wrap (⟨-1, 700⟩ : Vector2D ℚ)).Y = (⟨-1, 700⟩ : Vector2D ℚ).Y))) :=
  ⟨by decide, by decide,
    wrap_snaps_to_edge (arena none []) ⟨-1, 700⟩ (by decide) (by decide)⟩

/-! ### `splitAsteroid` -/

/-- The fragment that `spawnFragment` appends for the parent `a` when the random source
is `r`. -/
theorem spawnFragment_spec (M : MathOps R) (a : Asteroid R) (g : Game R) (r : Rng R) :
    ∃ f : Asteroid R,
      (spawnFragment M a g r).1 = { g with Asteroids := g.Asteroids ++ [f] } ∧
      f.Size = a.Size - 1 ∧ f.Position = a.Position ∧
      f.Radius = (((a.Size - 1) * 15 : Int) : R) ∧
      f.Velocity =
        ⟨M.cos (r.floats r.pos * 2 * M.pi) * (M.hypot a.Velocity.X a.Velocity.Y * 1.5),
         M.sin (r.floats r.pos * 2 * M.pi) * (M.hypot a.Velocity.X a.Velocity.Y * 1.5)⟩ :=
  ⟨_, rfl, rfl, rfl, rfl, rfl⟩

/-- The random source after `spawnFragment` keeps its two streams. -/
theorem spawnFragment_rng (M : MathOps R) (a : Asteroid R) (g : Game R) (r : Rng R) :
    (spawnFragment M a g r).2.ints = r.ints ∧ (spawnFragment M a g r).2.floats = r.floats := by
  have key : ∀ (rad : R) (p k j : Nat) (q : Rng R),
      (genShape M rad p k j q).2.ints = q.ints ∧ (genShape M rad p k j q).2.floats = q.floats := by
    intro rad p k
    induction k with
    | zero => intro j q; exact ⟨rfl, rfl⟩
    | succ k ih =>
      intro j q
      simp only [genShape]
      exact ih (j + 1) _
  simp only [spawnFragment]
  exact key _ _ _ _ _

/-- `splitAsteroid` at a valid index whose asteroid has tier at most 1 only removes. -/
theorem splitAsteroid_small (M : MathOps R) (g : Game R) (i : Nat) (r : Rng R)
    (a : Asteroid R) (hi : g.Asteroids[i]? = some a) (hs : ¬ a.Size > 1) :
    g.splitAsteroid M i r = ({ g with Asteroids := g.Asteroids.eraseIdx i }, r) := by
  simp [Game.splitAsteroid, hi, hs]

/-- `splitAsteroid` at a valid index whose asteroid has tier above 1 removes it and
appends two fragments. -/
theorem splitAsteroid_large (M : MathOps R) (g : Game R) (i : Nat) (r : Rng R)
    (a : Asteroid R) (hi : g.Asteroids[i]? = some a) (hs : a.Size > 1) :
    ∃ (f1 f2 : Asteroid R) (r1 : Rng R),
      (g.splitAsteroid M i r).1 = { g with Asteroids := g.Asteroids.eraseIdx i ++ [f1, f2] } ∧
      f1.Size = a.Size - 1 ∧ f1.Position = a.Position ∧
      f1.Radius = (((a.Size - 1) * 15 : Int) : R) ∧
      f1.Velocity =
        ⟨M.cos (r.floats r.pos * 2 * M.pi) * (M.hypot a.Velocity.X a.Velocity.Y * 1.5),
         M.sin (r.floats r.pos * 2 * M.pi) * (M.hypot a.Velocity.X a.Velocity.Y * 1.5)⟩ ∧
      f2.Size = a.Size - 1 ∧ f2.Position = a.Position ∧
      f2.Radius = (((a.Size - 1) * 15 : Int) : R) ∧
      f2.Velocity =
        ⟨M.cos (r1.floats r1.pos * 2 * M.pi) * (M.hypot a.Velocity.X a.Velocity.Y * 1.5),
         M.sin (r1.floats r1.pos * 2 * M.pi) * (M.hypot a.Velocity.X a.Velocity.Y * 1.5)⟩ := by
  obtain ⟨f1, e1, s1, p1, r1, v1⟩ :=
    spawnFragment_spec M a { g with Asteroids := g.Asteroids.eraseIdx i } r
  obtain ⟨f2, e2, s2, p2, r2, v2⟩ :=
    spawnFragment_spec M a (spawnFragment M a { g with Asteroids := g.Asteroids.eraseIdx i } r).1
      (spawnFragment M a { g with Asteroids := g.Asteroids.eraseIdx i } r).2
  refine ⟨f1, f2, _, ?_, s1, p1, r1, v1, s2, p2, r2, v2⟩
  simp only [Game.splitAsteroid, hi, hs, if_true]
  rw [e2, e1]
  simp

/-- C2. For a valid index `i`, `splitAsteroid` removes the asteroid at `i`; a tier-1
asteroid leaves a list one shorter with nothing added; an asteroid of tier above 1 adds
exactly two asteroids (net length plus one), each of the next lower tier and at the
position of the parent. -/
theorem splitAsteroid_spec (M : MathOps R) (g : Game R) (i : Nat) (r : Rng R)
    (a : Asteroid R) (hi : g.Asteroids[i]? = some a) :
    (a.Size = 1 →
      (g.splitAsteroid M i r).1.Asteroids = g.Asteroids.eraseIdx i ∧
      (g.splitAsteroid M i r).1.Asteroids.length + 1 = g.Asteroids.length) ∧
    (a.Size > 1 →
      ∃ f1 f2 : Asteroid R,
        (g.splitAsteroid M i r).1.Asteroids = g.Asteroids.eraseIdx i ++ [f1, f2] ∧
        (g.splitAsteroid M i r).1.Asteroids.length = g.Asteroids.length + 1 ∧
        f1.Size = a.Size - 1 ∧ f1.Position = a.Position ∧
        f2.Size = a.Size - 1 ∧ f2.Position = a.Position) := by
  have hlt : i < g.Asteroids.length := by
    rcases List.getElem?_eq_some.mp hi with ⟨h, _⟩
    exact h
  have hlen : (g.Asteroids.eraseIdx i).length + 1 = g.Asteroids.length := by
    rw [List.length_eraseIdx, if_pos hlt]
    omega
  constructor
  · intro h1
    have hs : ¬ a.Size > 1 := by omega
    rw [splitAsteroid_small M g i r a hi hs]
    exact ⟨rfl, hlen⟩
  · intro hs
    obtain ⟨f1, f2, _, e, s1, p1, _, _, s2, p2, _, _⟩ := splitAsteroid_large M g i r a hi hs
    refine ⟨f1, f2, ?_, ?_, s1, p1, s2, p2⟩
    · rw [e]
    · rw [e]
      simp only [List.length_append, List.length_cons, List.length_nil]
      omega

/-- Witness of C2: the tier-3 asteroid at index 0 of a two-asteroid session. -/
theorem splitAsteroid_spec_witness :
    (arena (R := ℚ) none [rock 3 ⟨1, 2⟩ ⟨3, 4⟩, rock 1 ⟨5, 6⟩ ⟨0, 1⟩]).Asteroids[0]?
      = some (rock 3 ⟨1, 2⟩ ⟨3, 4⟩) ∧
    (((rock (R := ℚ) 3 ⟨1, 2⟩ ⟨3, 4⟩).Size = 1 →
      ((arena none [rock 3 ⟨1, 2⟩ ⟨3, 4⟩, rock 1 ⟨5, 6⟩ ⟨0, 1⟩]).splitAsteroid ratMath 0
          (zeroRng ℚ)).1.Asteroids
        = (arena (R := ℚ) none [rock 3 ⟨1, 2⟩ ⟨3, 4⟩, rock 1 ⟨5, 6⟩ ⟨0, 1⟩]).Asteroids.eraseIdx 0 ∧
      ((arena none [rock 3 ⟨1, 2⟩ ⟨3, 4⟩, rock 1 ⟨5, 6⟩ ⟨0, 1⟩]).splitAsteroid ratMath 0
          (zeroRng ℚ)).1.Asteroids.length + 1
        = (arena (R := ℚ) none [rock 3 ⟨1, 2⟩ ⟨3, 4⟩, rock 1 ⟨5, 6⟩ ⟨0, 1⟩]).Asteroids.length) ∧
     ((rock (R := ℚ) 3 ⟨1, 2⟩ ⟨3, 4⟩).Size > 1 →
      ∃ f1 f2 : Asteroid ℚ,
        ((arena none [rock 3 ⟨1, 2⟩ ⟨3, 4⟩, rock 1 ⟨5, 6⟩ ⟨0, 1⟩]).splitAsteroid ratMath 0
            (zeroRng ℚ)).1.Asteroids
          = (arena (R := ℚ) none
              [rock 3 ⟨1, 2⟩ ⟨3, 4⟩, rock 1 ⟨5, 6⟩ ⟨0, 1⟩]).Asteroids.eraseIdx 0 ++ [f1, f2] ∧
        ((arena none [rock 3 ⟨1, 2⟩ ⟨3, 4⟩, rock 1 ⟨5, 6⟩ ⟨0, 1⟩]).splitAsteroid ratMath 0
            (zeroRng ℚ)).1.Asteroids.length
          = (arena (R := ℚ) none
              [rock 3 ⟨1, 2⟩ ⟨3, 4⟩, rock 1 ⟨5, 6⟩ ⟨0, 1⟩]).Asteroids.length + 1 ∧
        f1.Size = (rock (R := ℚ) 3 ⟨1, 2⟩ ⟨3, 4⟩).Size - 1 ∧
        f1.Position = (rock (R := ℚ) 3 ⟨1, 2⟩ ⟨3, 4⟩).Position ∧
        f2.Size = (rock (R := ℚ) 3 ⟨1, 2⟩ ⟨3, 4⟩).Size - 1 ∧
        f2.Position = (rock (R := ℚ) 3 ⟨1, 2⟩ ⟨3, 4⟩).Position)) :=
  ⟨rfl, splitAsteroid_spec ratMath _ 0 (zeroRng ℚ) _ rfl⟩

/-- C3. Over the reals, with `cos` and `sin` on the unit circle and `hypot x y` the
square root of `x^2 + y^2`, each of the two fragments that `splitAsteroid` creates from an
asteroid of tier above 1 has velocity magnitude exactly 1.5 times that of the parent,
whatever the random source. -/
theorem fragment_speed (M : MathOps ℝ)
    (hcs : ∀ x : ℝ, M.cos x ^ 2 + M.sin x ^ 2 = 1)
    (hhyp : ∀ x y : ℝ, M.hypot x y = Real.sqrt (x ^ 2 + y ^ 2))
    (g : Game ℝ) (i : Nat) (r : Rng ℝ) (a : Asteroid ℝ)
    (hi : g.Asteroids[i]? = some a) (hs : a.Size > 1) :
    ∃ f1 f2 : Asteroid ℝ,
      (g.splitAsteroid M i r).1.Asteroids = g.Asteroids.eraseIdx i ++ [f1, f2] ∧
      Real.sqrt (f1.Velocity.X ^ 2 + f1.Velocity.Y ^ 2)
        = 1.5 * Real.sqrt (a.Velocity.X ^ 2 + a.Velocity.Y ^ 2) ∧
      Real.sqrt (f2.Velocity.X ^ 2 + f2.Velocity.Y ^ 2)
        = 1.5 * Real.sqrt (a.Velocity.X ^ 2 + a.Velocity.Y ^ 2) := by
  obtain ⟨f1, f2, r1, e, _, _, _, v1, _, _, _, v2⟩ := splitAsteroid_large M g i r a hi hs
  have mag : ∀ t : ℝ,
      Real.sqrt ((M.cos t * (M.hypot a.Velocity.X a.Velocity.Y * 1.5)) ^ 2
          + (M.sin t * (M.hypot a.Velocity.X a.Velocity.Y * 1.5)) ^ 2)
        = 1.5 * Real.sqrt (a.Velocity.X ^ 2 + a.Velocity.Y ^ 2) := by
    intro t
    have h0 : 0 ≤ M.hypot a.Velocity.X a.Velocity.Y * 1.5 := by
      rw [hhyp]
      exact mul_nonneg (Real.sqrt_nonneg _) (by norm_num)
    have h1 : (M.cos t * (M.hypot a.Velocity.X a.Velocity.Y * 1.5)) ^ 2
          + (M.sin t * (M.hypot a.Velocity.X a.Velocity.Y * 1.5)) ^ 2
        = (M.hypot a.Velocity.X a.Velocity.Y * 1.5) ^ 2 := by
      have := hcs t
      linear_combination (M.hypot a.Velocity.X a.Velocity.Y * 1.5) ^ 2 * this
    rw [h1, Real.sqrt_sq h0, hhyp]
    ring
  refine ⟨f1, f2, ?_, ?_, ?_⟩
  · rw [e]
  · rw [v1]
    exact mag _
  · rw [v2]
    exact mag _

/-- Witness of C3: a tier-3 asteroid of velocity `(3, 4)` split with the real `cos`,
`sin` and square root. -/
theorem fragment_speed_witness :
    (∀ x : ℝ, Real.cos x ^ 2 + Real.sin x ^ 2 = 1) ∧
    (arena (R := ℝ) none [rock 3 ⟨1, 2⟩ ⟨3, 4⟩]).Asteroids[0]? = some (rock 3 ⟨1, 2⟩ ⟨3, 4⟩) ∧
    (rock (R := ℝ) 3 ⟨1, 2⟩ ⟨3, 4⟩).Size > 1 ∧
    ∃ f1 f2 : Asteroid ℝ,
      ((arena none [rock 3 ⟨1, 2⟩ ⟨3, 4⟩]).splitAsteroid
          ⟨Real.cos, Real.sin, fun x y => Real.sqrt (x ^ 2 + y ^ 2), fun _ _ => 0, Real.pi⟩
          0 (zeroRng ℝ)).1.Asteroids
        = (arena (R := ℝ) none [rock 3 ⟨1, 2⟩ ⟨3, 4⟩]).Asteroids.eraseIdx 0 ++ [f1, f2] ∧
      Real.sqrt (f1.Velocity.X ^ 2 + f1.Velocity.Y ^ 2)
        = 1.5 * Real.sqrt ((rock (R := ℝ) 3 ⟨1, 2⟩ ⟨3, 4⟩).Velocity.X ^ 2
            + (rock (R := ℝ) 3 ⟨1, 2⟩ ⟨3, 4⟩).Velocity.Y ^ 2) ∧
      Real.sqrt (f2.Velocity.X ^ 2 + f2.Velocity.Y ^ 2)
        = 1.5 * Real.sqrt ((rock (R := ℝ) 3 ⟨1, 2⟩ ⟨3, 4⟩).Velocity.X ^ 2
            + (rock (R := ℝ) 3 ⟨1, 2⟩ ⟨3, 4⟩).Velocity.Y ^ 2) :=
  ⟨Real.cos_sq_add_sin_sq, rfl, by decide,
    fragment_speed
      ⟨Real.cos, Real.sin, fun x y => Real.sqrt (x ^ 2 + y ^ 2), fun _ _ => 0, Real.pi⟩
      Real.cos_sq_add_sin_sq (fun _ _ => rfl) _ 0 (zeroRng ℝ) _ rfl (by decide)⟩

/-! ### Three hits on one lineage -/

/-- The asteroid list and the score after `bulletHit` at a valid index. -/
theorem bulletHit_spec (M : MathOps R) (g : Game R) (j : Nat) (r : Rng R) (a : Asteroid R)
    (hj : g.Asteroids[j]? = some a) :
    (bulletHit M g j r).1.Score = g.Score + 100 ∧
    (¬ a.Size > 1 → (bulletHit M g j r).1.Asteroids = g.Asteroids.eraseIdx j) ∧
    (a.Size > 1 → ∃ f1 f2 : Asteroid R,
      (bulletHit M g j r).1.Asteroids = g.Asteroids.eraseIdx j ++ [f1, f2] ∧
      f1.Size = a.Size - 1 ∧ f2.Size = a.Size - 1) := by
  refine ⟨?_, ?_, ?_⟩
  · by_cases hs : a.Size > 1
    · obtain ⟨f1, f2, _, e, _⟩ := splitAsteroid_large M g j r a hj hs
      simp only [bulletHit]
      rw [e]
    · simp only [bulletHit]
      rw [splitAsteroid_small M g j r a hj hs]
  · intro hs
    simp only [bulletHit]
    rw [splitAsteroid_small M g j r a hj hs]
  · intro hs
    obtain ⟨f1, f2, _, e, s1, _, _, _, s2, _⟩ := splitAsteroid_large M g j r a hj hs
    refine ⟨f1, f2, ?_, s1, s2⟩
    simp only [bulletHit]
    rw [e]

/-- The last two entries of a list that ends in a pair. -/
theorem getElem?_append_pair {α : Type} (l : List α) (x y : α) :
    (l ++ [x, y])[l.length]? = some x ∧ (l ++ [x, y])[l.length + 1]? = some y := by
  constructor
  · rw [List.getElem?_append_right (le_refl _)]
    simp
  · rw [List.getElem?_append_right (Nat.le_succ _)]
    simp

/-- A hit on an asteroid of tier above 1 at a valid index: the score rises by 100, the
list grows by one, and its last two entries are fragments of the next lower tier. -/
theorem bulletHit_large (M : MathOps R) (g : Game R) (j : Nat) (r : Rng R) (a : Asteroid R)
    (hj : g.Asteroids[j]? = some a) (hs : a.Size > 1) :
    (bulletHit M g j r).1.Score = g.Score + 100 ∧
    (bulletHit M g j r).1.Asteroids.length = g.Asteroids.length + 1 ∧
    (∃ f, (bulletHit M g j r).1.Asteroids[g.Asteroids.length - 1]? = some f ∧
      f.Size = a.Size - 1) ∧
    (∃ f, (bulletHit M g j r).1.Asteroids[g.Asteroids.length]? = some f ∧
      f.Size = a.Size - 1) := by
  have hlt : j < g.Asteroids.length := (List.getElem?_eq_some.mp hj).1
  have hlen : (g.Asteroids.eraseIdx j).length = g.Asteroids.length - 1 := by
    rw [List.length_eraseIdx, if_pos hlt]
  have h1 : g.Asteroids.length - 1 + 1 = g.Asteroids.length :=
    Nat.sub_add_cancel (Nat.one_le_of_lt hlt)
  obtain ⟨hsc, _, hl⟩ := bulletHit_spec M g j r a hj
  obtain ⟨f1, f2, e, s1, s2⟩ := hl hs
  have hp := getElem?_append_pair (g.Asteroids.eraseIdx j) f1 f2
  rw [hlen, h1] at hp
  refine ⟨hsc, ?_, ⟨f1, ?_, s1⟩, ⟨f2, ?_, s2⟩⟩
  · rw [e]
    simp only [List.length_append, List.length_cons, List.length_nil, hlen]
    rw [← h1]
    rfl
  · rw [e]
    exact hp.1
  · rw [e]
    exact hp.2

/-- A hit on an asteroid of tier 1 at a valid index: the score rises by 100 and the list
shrinks by one. -/
theorem bulletHit_small (M : MathOps R) (g : Game R) (j : Nat) (r : Rng R) (a : Asteroid R)
    (hj : g.Asteroids[j]? = some a) (hs : a.Size = 1) :
    (bulletHit M g j r).1.Score = g.Score + 100 ∧
    (bulletHit M g j r).1.Asteroids.length + 1 = g.Asteroids.length := by
  have hlt : j < g.Asteroids.length := (List.getElem?_eq_some.mp hj).1
  obtain ⟨hsc, hl, _⟩ := bulletHit_spec M g j r a hj
  refine ⟨hsc, ?_⟩
  rw [hl (by omega), List.length_eraseIdx, if_pos hlt]
  omega

/-- C4, amended. From a session with four tier-3 asteroids, three successive bullet hits
(on a tier-3 asteroid at any index `j1`, then on one of its two tier-2 fragments, which
sit at the indices 3 and 4, then on one of that fragment's two tier-1 fragments, which sit
at the indices 4 and 5) give asteroid counts of 5, then 6, then 5, and each hit raises the
score by exactly 100. -/
theorem lineage_counts (M : MathOps R) (g0 : Game R) (j1 j2 j3 : Nat) (r1 r2 r3 : Rng R)
    (h4 : g0.Asteroids.length = 4) (h3 : ∀ a ∈ g0.Asteroids, a.Size = 3)
    (hj1 : j1 < 4) (hj2 : j2 = 3 ∨ j2 = 4) (hj3 : j3 = 4 ∨ j3 = 5) :
    (∃ a, g0.Asteroids[j1]? = some a ∧ a.Size = 3) ∧
    (bulletHit M g0 j1 r1).1.Asteroids.length = 5 ∧
    (bulletHit M g0 j1 r1).1.Score = g0.Score + 100 ∧
    (∃ a, (bulletHit M g0 j1 r1).1.Asteroids[j2]? = some a ∧ a.Size = 2) ∧
    (bulletHit M (bulletHit M g0 j1 r1).1 j2 r2).1.Asteroids.length = 6 ∧
    (bulletHit M (bulletHit M g0 j1 r1).1 j2 r2).1.Score = g0.Score + 200 ∧
    (∃ a, (bulletHit M (bulletHit M g0 j1 r1).1 j2 r2).1.Asteroids[j3]? = some a ∧
      a.Size = 1) ∧
    (bulletHit M (bulletHit M (bulletHit M g0 j1 r1).1 j2 r2).1 j3 r3).1.Asteroids.length = 5 ∧
    (bulletHit M (bulletHit M (bulletHit M g0 j1 r1).1 j2 r2).1 j3 r3).1.Score
      = g0.Score + 300 := by
  have hlt : j1 < g0.Asteroids.length := by omega
  have ha : g0.Asteroids[j1]? = some (g0.Asteroids.get ⟨j1, hlt⟩) :=
    List.getElem?_eq_getElem hlt
  have hsz : (g0.Asteroids.get ⟨j1, hlt⟩).Size = 3 := h3 _ (List.get_mem _ _ _)
  obtain ⟨sc1, len1, ⟨fa, hfa, sfa⟩, ⟨fb, hfb, sfb⟩⟩ :=
    bulletHit_large M g0 j1 r1 _ ha (by omega)
  rw [h4] at len1 hfa hfb
  rw [hsz] at sfa sfb
  have hb : ∃ b, (bulletHit M g0 j1 r1).1.Asteroids[j2]? = some b ∧ b.Size = 2 := by
    rcases hj2 with h | h
    · exact ⟨fa, by rw [h]; exact hfa, by omega⟩
    · exact ⟨fb, by rw [h]; exact hfb, by omega⟩
  obtain ⟨b, hb1, hb2⟩ := hb
  obtain ⟨sc2, len2, ⟨fc, hfc, sfc⟩, ⟨fd, hfd, sfd⟩⟩ :=
    bulletHit_large M (bulletHit M g0 j1 r1).1 j2 r2 b hb1 (by omega)
  rw [len1] at len2 hfc hfd
  rw [hb2] at sfc sfd
  have hc : ∃ c, (bulletHit M (bulletHit M g0 j1 r1).1 j2 r2).1.Asteroids[j3]? = some c ∧
      c.Size = 1 := by
    rcases hj3 with h | h
    · exact ⟨fc, by rw [h]; exact hfc, by omega⟩
    · exact ⟨fd, by rw [h]; exact hfd, by omega⟩
  obtain ⟨c, hc1, hc2⟩ := hc
  obtain ⟨sc3, len3⟩ :=
    bulletHit_small M (bulletHit M (bulletHit M g0 j1 r1).1 j2 r2).1 j3 r3 c hc1 hc2
  rw [len2] at len3
  refine ⟨⟨_, ha, hsz⟩, len1, sc1, ⟨b, hb1, hb2⟩, len2, ?_, ⟨c, hc1, hc2⟩, ?_, ?_⟩
  · rw [sc2, sc1]
    ring
  · omega
  · rw [sc3, sc2, sc1]
    ring

/-- Witness of C4, amended: the new session built from `ratMath` and `zeroRng`, hit at
the indices 0, 3 and 4. -/
theorem lineage_counts_witness :
    (NewGame ratMath 0 (zeroRng ℚ)).1.Asteroids.length = 4 ∧
    (∀ a ∈ (NewGame ratMath 0 (zeroRng ℚ)).1.Asteroids, a.Size = 3) ∧
    (∃ a, (NewGame ratMath 0 (zeroRng ℚ)).1.Asteroids[0]? = some a ∧ a.Size = 3) ∧
    (bulletHit ratMath (NewGame ratMath 0 (zeroRng ℚ)).1 0 (zeroRng ℚ)).1.Asteroids.length = 5 ∧
    (bulletHit ratMath (NewGame ratMath 0 (zeroRng ℚ)).1 0 (zeroRng ℚ)).1.Score
      = (NewGame ratMath 0 (zeroRng ℚ)).1.Score + 100 ∧
    (∃ a, (bulletHit ratMath (NewGame ratMath 0 (zeroRng ℚ)).1 0
        (zeroRng ℚ)).1.Asteroids[3]? = some a ∧ a.Size = 2) ∧
    (bulletHit ratMath (bulletHit ratMath (NewGame ratMath 0 (zeroRng ℚ)).1 0 (zeroRng ℚ)).1 3
      (zeroRng ℚ)).1.Asteroids.length = 6 ∧
    (bulletHit ratMath (bulletHit ratMath (NewGame ratMath 0 (zeroRng ℚ)).1 0 (zeroRng ℚ)).1 3
      (zeroRng ℚ)).1.Score = (NewGame ratMath 0 (zeroRng ℚ)).1.Score + 200 ∧
    (∃ a, (bulletHit ratMath (bulletHit ratMath (NewGame ratMath 0 (zeroRng ℚ)).1 0
        (zeroRng ℚ)).1 3 (zeroRng ℚ)).1.Asteroids[4]? = some a ∧ a.Size = 1) ∧
    (bulletHit ratMath (bulletHit ratMath (bulletHit ratMath (NewGame ratMath 0 (zeroRng ℚ)).1 0
      (zeroRng ℚ)).1 3 (zeroRng ℚ)).1 4 (zeroRng ℚ)).1.Asteroids.length = 5 ∧
    (bulletHit ratMath (bulletHit ratMath (bulletHit ratMath (NewGame ratMath 0 (zeroRng ℚ)).1 0
      (zeroRng ℚ)).1 3 (zeroRng ℚ)).1 4 (zeroRng ℚ)).1.Score
      = (NewGame ratMath 0 (zeroRng ℚ)).1.Score + 300 :=
  ⟨by decide, by decide,
    lineage_counts ratMath (NewGame ratMath 0 (zeroRng ℚ)).1 0 3 4 (zeroRng ℚ) (zeroRng ℚ)
      (zeroRng ℚ) (by decide) (by decide) (by decide) (by decide) (by decide)⟩

/-- Counterexample to C4 as stated: in the new session built from `ratMath` and `zeroRng`
(four tier-3 asteroids), a hit on the tier-3 asteroid at index 0, then on its tier-2
fragment at index 3, then on that fragment's tier-1 fragment at index 4 leaves 5, then 6,
then 5 asteroids: the last count is not 4. -/
theorem lineage_count_not_four :
    (NewGame ratMath 0 (zeroRng ℚ)).1.Asteroids.map (fun a => a.Size) = [3, 3, 3, 3] ∧
    (bulletHit ratMath (NewGame ratMath 0 (zeroRng ℚ)).1 0 (zeroRng ℚ)).1.Asteroids.map
      (fun a => a.Size) = [3, 3, 3, 2, 2] ∧
    (bulletHit ratMath (bulletHit ratMath (NewGame ratMath 0 (zeroRng ℚ)).1 0 (zeroRng ℚ)).1 3
      (zeroRng ℚ)).1.Asteroids.map (fun a => a.Size) = [3, 3, 3, 2, 1, 1] ∧
    (bulletHit ratMath (bulletHit ratMath (bulletHit ratMath (NewGame ratMath 0 (zeroRng ℚ)).1 0
      (zeroRng ℚ)).1 3 (zeroRng ℚ)).1 4 (zeroRng ℚ)).1.Asteroids.map (fun a => a.Size)
      = [3, 3, 3, 2, 1] ∧
    (bulletHit ratMath (bulletHit ratMath (bulletHit ratMath (NewGame ratMath 0 (zeroRng ℚ)).1 0
      (zeroRng ℚ)).1 3 (zeroRng ℚ)).1 4 (zeroRng ℚ)).1.Asteroids.length ≠ 4 := by
  decide

/-! ### Frames of the ship destruction -/

/-- The tick is a sixtieth. -/
theorem tick_eq : (tick : R) = 1 / 60 := by
  unfold tick
  norm_num

/-- The explosion only adds particles. -/
theorem spawnExplosionLoop_frame (M : MathOps R) (pos : Vector2D R) :
    ∀ (n : Nat) (g : Game R) (r : Rng R),
      (spawnExplosionLoop M pos n g r).1
        = { g with Particles := (spawnExplosionLoop M pos n g r).1.Particles } := by
  intro n
  induction n with
  | zero => intro g r; rfl
  | succ n ih =>
    intro g r
    simp only [spawnExplosionLoop]
    rw [ih]
    rfl

/-- `killShip` without a ship changes nothing. -/
theorem killShip_none (M : MathOps R) (g : Game R) (r : Rng R) (h : g.Ship = none) :
    g.killShip M r = (g, r) := by
  simp [Game.killShip, h]

/-- `killShip` with a ship: particles, ship, lives and respawn timer change. -/
theorem killShip_some (M : MathOps R) (g : Game R) (r : Rng R) (s : Ship R)
    (h : g.Ship = some s) :
    (g.killShip M r).1 = { g with
      Particles := (g.killShip M r).1.Particles
      Ship := none
      Lives := g.Lives - 1
      RespawnTimer := 2 } := by
  simp only [Game.killShip, h, Game.spawnExplosion]
  rw [spawnExplosionLoop_frame]
  congr 1
  norm_num

/-- Nothing changed is a late frame. -/
theorem LateFrame.refl (g : Game R) : LateFrame g g :=
  ⟨rfl, rfl, rfl, rfl, rfl, rfl, rfl, rfl, rfl, Or.inl ⟨rfl, rfl, rfl⟩⟩

/-- Late frames compose. -/
theorem LateFrame.trans {g1 g2 g3 : Game R} (h12 : LateFrame g1 g2) (h23 : LateFrame g2 g3) :
    LateFrame g1 g3 := by
  refine ⟨h23.score.trans h12.score, h23.next.trans h12.next, h23.bullets.trans h12.bullets,
    h23.state.trans h12.state, h23.level.trans h12.level, h23.width.trans h12.width,
    h23.height.trans h12.height, h23.lastShot.trans h12.lastShot,
    h23.lastSpawn.trans h12.lastSpawn, ?_⟩
  rcases h23.ship with ⟨a, b, c⟩ | ⟨s, a, b, c, d, e, f⟩
  · rcases h12.ship with ⟨a', b', c'⟩ | ⟨s', a', b', c', d', e', f'⟩
    · exact Or.inl ⟨a.trans a', b.trans b', c.trans c'⟩
    · exact Or.inr ⟨s', a', b', c', a.trans d', b.trans e', c.trans f'⟩
  · rcases h12.ship with ⟨a', b', c'⟩ | ⟨s', a', b', c', d', e', f'⟩
    · exact Or.inr ⟨s, a'.symm ▸ a, b, h12.state ▸ c, d, by rw [e, b'], f⟩
    · rw [d'] at a
      exact absurd a (by simp)

/-- The destruction of a vulnerable ship in the Playing state is a late frame. -/
theorem killShip_lateFrame (M : MathOps R) (g : Game R) (r : Rng R) (s : Ship R)
    (h : g.Ship = some s) (hv : s.IsInvincible = false) (h0 : g.GameState = 0) :
    LateFrame g (g.killShip M r).1 := by
  rw [killShip_some M g r s h]
  exact ⟨rfl, rfl, rfl, rfl, rfl, rfl, rfl, rfl, rfl, Or.inr ⟨s, h, hv, h0, rfl, rfl, rfl⟩⟩

/-- The entity lists after `killShip`. -/
theorem killShip_lists (M : MathOps R) (g : Game R) (r : Rng R) :
    (g.killShip M r).1.Asteroids = g.Asteroids ∧ (g.killShip M r).1.UFOs = g.UFOs ∧
    (g.killShip M r).1.UFOBullets = g.UFOBullets := by
  cases h : g.Ship with
  | none => rw [killShip_none M g r h]; exact ⟨rfl, rfl, rfl⟩
  | some s => rw [killShip_some M g r s h]; exact ⟨rfl, rfl, rfl⟩

/-- The ship collision test is a late frame. -/
theorem collideShip_lateFrame (M : MathOps R) (c : Vector2D R) (rad : R) (g : Game R)
    (r : Rng R) : LateFrame g (collideShip M c rad g r).1 := by
  unfold collideShip
  split
  · exact LateFrame.refl g
  · rename_i s hs
    split
    · rename_i hv
      split
      · exact killShip_lateFrame M g r s hs hv.1 hv.2
      · exact LateFrame.refl g
    · exact LateFrame.refl g

/-- The entity lists after the ship collision test. -/
theorem collideShip_lists (M : MathOps R) (c : Vector2D R) (rad : R) (g : Game R)
    (r : Rng R) :
    (collideShip M c rad g r).1.Asteroids = g.Asteroids ∧
    (collideShip M c rad g r).1.UFOs = g.UFOs ∧
    (collideShip M c rad g r).1.UFOBullets = g.UFOBullets := by
  unfold collideShip
  split
  · exact ⟨rfl, rfl, rfl⟩
  · split
    · split
      · exact killShip_lists M g r
      · exact ⟨rfl, rfl, rfl⟩
    · exact ⟨rfl, rfl, rfl⟩

/-! ### The asteroid loop -/

/-- Loop rule for the asteroid loop: what every iteration preserves, the loop preserves. -/
theorem updateAsteroidsFrom_induct (M : MathOps R) (P : Game R → Prop)
    (hbody : ∀ (i : Nat) (a : Asteroid R) (g : Game R) (r : Rng R),
      P g → g.Asteroids[i]? = some a → P (updateAsteroid M i a g r).1) :
    ∀ (i : Nat) (g : Game R) (r : Rng R), P g → P (updateAsteroidsFrom M i g r).1 := by
  intro i
  induction i with
  | zero => intro g r h; exact h
  | succ i ih =>
    intro g r h
    simp only [updateAsteroidsFrom]
    cases hi : g.Asteroids[i]? with
    | none => exact h
    | some a => exact ih _ _ (hbody i a g r h hi)

/-- One iteration of the asteroid loop is a late frame that keeps the UFOs and their
bullets and replaces the asteroid at `i` by the moved one. -/
theorem updateAsteroid_spec (M : MathOps R) (i : Nat) (a : Asteroid R) (g : Game R)
    (r : Rng R) :
    LateFrame g (updateAsteroid M i a g r).1 ∧
    (updateAsteroid M i a g r).1.UFOs = g.UFOs ∧
    (updateAsteroid M i a g r).1.UFOBullets = g.UFOBullets ∧
    (updateAsteroid M i a g r).1.Asteroids = g.Asteroids.set i { a with
      Position := g.wrap ⟨a.Position.X + a.Velocity.X, a.Position.Y + a.Velocity.Y⟩
      Rotation := a.Rotation + a.RotationSpeed } := by
  unfold updateAsteroid
  refine ⟨?_, ?_, ?_, ?_⟩
  · refine LateFrame.trans ?_ (collideShip_lateFrame M _ _ _ r)
    exact ⟨rfl, rfl, rfl, rfl, rfl, rfl, rfl, rfl, rfl, Or.inl ⟨rfl, rfl, rfl⟩⟩
  · exact (collideShip_lists M _ _ _ r).2.1
  · exact (collideShip_lists M _ _ _ r).2.2
  · exact (collideShip_lists M _ _ _ r).1

/-- The asteroid loop is a late frame that keeps the UFOs, their bullets, the number of
asteroids and the radius rule. -/
theorem updateAsteroidsFrom_spec (M : MathOps R) (i : Nat) (g : Game R) (r : Rng R) :
    LateFrame g (updateAsteroidsFrom M i g r).1 ∧
    (updateAsteroidsFrom M i g r).1.UFOs = g.UFOs ∧
    (updateAsteroidsFrom M i g r).1.UFOBullets = g.UFOBullets ∧
    (updateAsteroidsFrom M i g r).1.Asteroids.length = g.Asteroids.length ∧
    (RadiiOK g → RadiiOK (updateAsteroidsFrom M i g r).1) := by
  refine updateAsteroidsFrom_induct M
    (fun g2 => LateFrame g g2 ∧ g2.UFOs = g.UFOs ∧ g2.UFOBullets = g.UFOBullets ∧
      g2.Asteroids.length = g.Asteroids.length ∧ (RadiiOK g → RadiiOK g2))
    ?_ i g r ⟨LateFrame.refl g, rfl, rfl, rfl, fun h => h⟩
  intro j a g2 r2 ⟨hf, hu, hb, hl, hr⟩ hj
  obtain ⟨f, u, b, e⟩ := updateAsteroid_spec M j a g2 r2
  refine ⟨hf.trans f, u.trans hu, b.trans hb, ?_, ?_⟩
  · rw [e, List.length_set, hl]
  · intro h0 x hx
    rw [e] at hx
    rcases List.mem_or_eq_of_mem_set hx with hx | hx
    · exact hr h0 x hx
    · rw [hx]
      exact hr h0 a (List.getElem?_mem hj)

/-! ### The UFO loop and the UFO-bullet loop -/

/-- Loop rule for the UFO loop. -/
theorem updateUFOsFrom_induct (M : MathOps R) (now : Int) (P : Game R → Prop)
    (hbody : ∀ (i : Nat) (u : UFO R) (g : Game R) (r : Rng R),
      P g → g.UFOs[i]? = some u → P (updateUFO M i u now g r).1) :
    ∀ (i : Nat) (g : Game R) (r : Rng R), P g → P (updateUFOsFrom M now i g r).1 := by
  intro i
  induction i with
  | zero => intro g r h; exact h
  | succ i ih =>
    intro g r h
    simp only [updateUFOsFrom]
    cases hi : g.UFOs[i]? with
    | none => exact h
    | some u => exact ih _ _ (hbody i u g r h hi)

/-- Loop rule for the UFO-bullet loop. -/
theorem updateUFOBulletsFrom_induct (M : MathOps R) (P : Game R → Prop)
    (hbody : ∀ (i : Nat) (b : UFOBullet R) (g : Game R) (r : Rng R),
      P g → g.UFOBullets[i]? = some b → P (updateUFOBullet M i b g r).1) :
    ∀ (i : Nat) (g : Game R) (r : Rng R), P g → P (updateUFOBulletsFrom M i g r).1 := by
  intro i
  induction i with
  | zero => intro g r h; exact h
  | succ i ih =>
    intro g r h
    simp only [updateUFOBulletsFrom]
    cases hi : g.UFOBullets[i]? with
    | none => exact h
    | some b => exact ih _ _ (hbody i b g r h hi)

/-- The firing of a UFO keeps everything but the UFO bullets and the time stamp of the
UFO at `i`. -/
theorem fireUFO_spec (M : MathOps R) (i : Nat) (ufo : UFO R) (now : Int) (g : Game R)
    (r : Rng R) :
    LateFrame g (fireUFO M i ufo now g r).1 ∧
    (fireUFO M i ufo now g r).1.Asteroids = g.Asteroids ∧
    ((fireUFO M i ufo now g r).1.UFOs = g.UFOs ∨
      (fireUFO M i ufo now g r).1.UFOs = g.UFOs.set i { ufo with LastShot := now }) := by
  unfold fireUFO
  simp only
  split_ifs
  all_goals first
    | exact ⟨LateFrame.refl g, rfl, Or.inl rfl⟩
    | exact ⟨⟨rfl, rfl, rfl, rfl, rfl, rfl, rfl, rfl, rfl, Or.inl ⟨rfl, rfl, rfl⟩⟩, rfl,
        Or.inr rfl⟩

/-- One iteration of the UFO loop is a late frame that keeps the asteroids; every UFO
left is an old one up to position and time stamp, and none is added. -/
theorem updateUFO_spec (M : MathOps R) (i : Nat) (u : UFO R) (now : Int) (g : Game R)
    (r : Rng R) (hi : g.UFOs[i]? = some u) :
    LateFrame g (updateUFO M i u now g r).1 ∧
    (updateUFO M i u now g r).1.Asteroids = g.Asteroids ∧
    (updateUFO M i u now g r).1.UFOs.length ≤ g.UFOs.length ∧
    (∀ x ∈ (updateUFO M i u now g r).1.UFOs, ∃ y ∈ g.UFOs, x.ScoreValue = y.ScoreValue) := by
  have hu : u ∈ g.UFOs := List.getElem?_mem hi
  unfold updateUFO
  simp only
  split
  · refine ⟨⟨rfl, rfl, rfl, rfl, rfl, rfl, rfl, rfl, rfl, Or.inl ⟨rfl, rfl, rfl⟩⟩, rfl, ?_, ?_⟩
    · exact le_trans (List.length_eraseIdx_le _ _) (le_of_eq (List.length_set _ _ _))
    · intro x hx
      rcases List.mem_or_eq_of_mem_set (List.mem_of_mem_eraseIdx hx) with hx | hx
      · exact ⟨x, hx, rfl⟩
      · exact ⟨u, hu, by rw [hx]⟩
  · obtain ⟨f, fa, fu⟩ := fireUFO_spec M i
      { u with Position := g.wrap ⟨u.Position.X + u.Velocity.X, u.Position.Y + u.Velocity.Y⟩ }
      now
      (collideShip M
        (g.wrap ⟨u.Position.X + u.Velocity.X, u.Position.Y + u.Velocity.Y⟩) (u.Radius + 10)
        { g with UFOs := g.UFOs.set i { u with
          Position := g.wrap ⟨u.Position.X + u.Velocity.X, u.Position.Y + u.Velocity.Y⟩ } } r).1
      (collideShip M
        (g.wrap ⟨u.Position.X + u.Velocity.X, u.Position.Y + u.Velocity.Y⟩) (u.Radius + 10)
        { g with UFOs := g.UFOs.set i { u with
          Position := g.wrap ⟨u.Position.X + u.Velocity.X, u.Position.Y + u.Velocity.Y⟩ } } r).2
    have c := collideShip_lateFrame M
        (g.wrap ⟨u.Position.X + u.Velocity.X, u.Position.Y + u.Velocity.Y⟩) (u.Radius + 10)
        { g with UFOs := g.UFOs.set i { u with
          Position := g.wrap ⟨u.Position.X + u.Velocity.X, u.Position.Y + u.Velocity.Y⟩ } } r
    obtain ⟨ca, cu, _⟩ := collideShip_lists M
        (g.wrap ⟨u.Position.X + u.Velocity.X, u.Position.Y + u.Velocity.Y⟩) (u.Radius + 10)
        { g with UFOs := g.UFOs.set i { u with
          Position := g.wrap ⟨u.Position.X + u.Velocity.X, u.Position.Y + u.Velocity.Y⟩ } } r
    refine ⟨?_, ?_, ?_, ?_⟩
    · refine LateFrame.trans ?_ (LateFrame.trans c f)
      exact ⟨rfl, rfl, rfl, rfl, rfl, rfl, rfl, rfl, rfl, Or.inl ⟨rfl, rfl, rfl⟩⟩
    · rw [fa, ca]
    · rcases fu with fu | fu
      · rw [fu, cu]
        exact le_of_eq (List.length_set _ _ _)
      · rw [fu, cu]
        simp only [List.length_set]
        exact le_refl _
    · intro x hx
      rcases fu with fu | fu
      · rw [fu, cu] at hx
        rcases List.mem_or_eq_of_mem_set hx with hx | hx
        · exact ⟨x, hx, rfl⟩
        · exact ⟨u, hu, by rw [hx]⟩
      · rw [fu, cu] at hx
        rcases List.mem_or_eq_of_mem_set hx with hx | hx
        · rcases List.mem_or_eq_of_mem_set hx with hx | hx
          · exact ⟨x, hx, rfl⟩
          · exact ⟨u, hu, by rw [hx]⟩
        · exact ⟨u, hu, by rw [hx]⟩

/-- The UFO loop is a late frame that keeps the asteroids and the bound on the UFOs. -/
theorem updateUFOsFrom_spec (M : MathOps R) (now : Int) (i : Nat) (g : Game R) (r : Rng R) :
    LateFrame g (updateUFOsFrom M now i g r).1 ∧
    (updateUFOsFrom M now i g r).1.Asteroids = g.Asteroids ∧
    (updateUFOsFrom M now i g r).1.UFOs.length ≤ g.UFOs.length ∧
    (∀ x ∈ (updateUFOsFrom M now i g r).1.UFOs, ∃ y ∈ g.UFOs, x.ScoreValue = y.ScoreValue) := by
  refine updateUFOsFrom_induct M now
    (fun g2 => LateFrame g g2 ∧ g2.Asteroids = g.Asteroids ∧ g2.UFOs.length ≤ g.UFOs.length ∧
      (∀ x ∈ g2.UFOs, ∃ y ∈ g.UFOs, x.ScoreValue = y.ScoreValue))
    ?_ i g r ⟨LateFrame.refl g, rfl, le_refl _, fun x hx => ⟨x, hx, rfl⟩⟩
  intro j u g2 r2 ⟨hf, ha, hl, hs⟩ hj
  obtain ⟨f, a, l, s⟩ := updateUFO_spec M j u now g2 r2 hj
  refine ⟨hf.trans f, a.trans ha, le_trans l hl, ?_⟩
  intro x hx
  obtain ⟨y, hy, e⟩ := s x hx
  obtain ⟨z, hz, e2⟩ := hs y hy
  exact ⟨z, hz, e.trans e2⟩

/-- One iteration of the UFO-bullet loop is a late frame that keeps the asteroids and the
UFOs. -/
theorem updateUFOBullet_spec (M : MathOps R) (i : Nat) (b : UFOBullet R) (g : Game R)
    (r : Rng R) :
    LateFrame g (updateUFOBullet M i b g r).1 ∧
    (updateUFOBullet M i b g r).1.Asteroids = g.Asteroids ∧
    (updateUFOBullet M i b g r).1.UFOs = g.UFOs := by
  have hexp : ∀ (c : Prop) [Decidable c] (g1 g2 : Game R),
      LateFrame g g1 → LateFrame g g2 → g1.Asteroids = g.Asteroids → g2.Asteroids = g.Asteroids →
      g1.UFOs = g.UFOs → g2.UFOs = g.UFOs →
      LateFrame g (if c then (g1, r) else (g2, r)).1 ∧
      (if c then (g1, r) else (g2, r)).1.Asteroids = g.Asteroids ∧
      (if c then (g1, r) else (g2, r)).1.UFOs = g.UFOs := by
    intro c _ g1 g2 h1 h2 a1 a2 u1 u2
    split
    · exact ⟨h1, a1, u1⟩
    · exact ⟨h2, a2, u2⟩
  have hfr : ∀ l : List (UFOBullet R), LateFrame g { g with UFOBullets := l } := fun l =>
    ⟨rfl, rfl, rfl, rfl, rfl, rfl, rfl, rfl, rfl, Or.inl ⟨rfl, rfl, rfl⟩⟩
  unfold updateUFOBullet
  simp only
  split
  · exact hexp _ _ _ (hfr _) (hfr _) rfl rfl rfl rfl
  · rename_i s hs
    split
    · rename_i hv
      split
      · have k := killShip_lateFrame M
          { g with UFOBullets := g.UFOBullets.set i { b with
            Position := g.wrap ⟨b.Position.X + b.Velocity.X, b.Position.Y + b.Velocity.Y⟩
            Lifespan := b.Lifespan - tick } } r s hs hv.1 hv.2
        obtain ⟨ka, ku, _⟩ := killShip_lists M
          { g with UFOBullets := g.UFOBullets.set i { b with
            Position := g.wrap ⟨b.Position.X + b.Velocity.X, b.Position.Y + b.Velocity.Y⟩
            Lifespan := b.Lifespan - tick } } r
        refine ⟨?_, ka, ku⟩
        refine LateFrame.trans (hfr _) (LateFrame.trans k ?_)
        exact ⟨rfl, rfl, rfl, rfl, rfl, rfl, rfl, rfl, rfl, Or.inl ⟨rfl, rfl, rfl⟩⟩
      · exact hexp _ _ _ (hfr _) (hfr _) rfl rfl rfl rfl
    · exact hexp _ _ _ (hfr _) (hfr _) rfl rfl rfl rfl

/-- The UFO-bullet loop is a late frame that keeps the asteroids and the UFOs. -/
theorem updateUFOBulletsFrom_spec (M : MathOps R) (i : Nat) (g : Game R) (r : Rng R) :
    LateFrame g (updateUFOBulletsFrom M i g r).1 ∧
    (updateUFOBulletsFrom M i g r).1.Asteroids = g.Asteroids ∧
    (updateUFOBulletsFrom M i g r).1.UFOs = g.UFOs := by
  refine updateUFOBulletsFrom_induct M
    (fun g2 => LateFrame g g2 ∧ g2.Asteroids = g.Asteroids ∧ g2.UFOs = g.UFOs)
    ?_ i g r ⟨LateFrame.refl g, rfl, rfl⟩
  intro j b g2 r2 ⟨hf, ha, hu⟩ _
  obtain ⟨f, a, u⟩ := updateUFOBullet_spec M j b g2 r2
  exact ⟨hf.trans f, a.trans ha, u.trans hu⟩

/-! ### The staircase of lifespans -/

/-- The tick is positive. -/
theorem tick_pos : (0 : R) < tick := by
  rw [tick_eq]
  norm_num

/-- The staircase bound passes to sublists. -/
theorem AgeOK.sublist {c : R} {l1 l2 : List R} (h : l1.Sublist l2) (h2 : AgeOK c l2) :
    AgeOK c l1 := by
  induction h with
  | slnil => exact h2
  | cons a _ ih => exact ih h2.2
  | cons₂ a hs ih =>
    rename_i k1 k2
    refine ⟨?_, ih h2.2⟩
    have hl : (k1.length : R) ≤ (k2.length : R) := by exact_mod_cast hs.length_le
    have h1 := h2.1
    have ht := tick_pos (R := R)
    nlinarith

/-- Ageing every entry by a tick lowers the staircase by a tick. -/
theorem AgeOK.map_sub {c : R} {l : List R} (h : AgeOK c l) :
    AgeOK (c - tick) (l.map (fun x => x - tick)) := by
  induction l with
  | nil => exact h
  | cons a l ih =>
    refine ⟨?_, ih h.2⟩
    have h1 := h.1
    simp only [List.length_map]
    linarith

/-- A new youngest entry raises the staircase by a tick. -/
theorem AgeOK.append_one {c : R} {l : List R} {x : R} (h : AgeOK c l) (hx : x ≤ c) :
    AgeOK (c + tick) (l ++ [x]) := by
  induction l with
  | nil =>
    refine ⟨?_, trivial⟩
    have e : (([] : List R).length : R) = 0 := Nat.cast_zero
    rw [e]
    linarith
  | cons a l ih =>
    refine ⟨?_, ih h.2⟩
    have h1 := h.1
    have e : ((l ++ [x]).length : R) = (l.length : R) + 1 := by simp
    show a ≤ c + tick - (((l ++ [x]).length : R) + 1) * tick
    rw [e]
    linarith

/-- A higher staircase is weaker. -/
theorem AgeOK.mono {c d : R} {l : List R} (hcd : c ≤ d) (h : AgeOK c l) : AgeOK d l := by
  induction l with
  | nil => exact h
  | cons a l ih =>
    refine ⟨?_, ih h.2⟩
    have h1 := h.1
    linarith

/-- Every entry under the staircase is at least a tick below its top. -/
theorem AgeOK.le {c : R} {l : List R} (h : AgeOK c l) : ∀ x ∈ l, x ≤ c - tick := by
  induction l with
  | nil => intro x hx; exact absurd hx (List.not_mem_nil x)
  | cons a l ih =>
    intro x hx
    rcases List.mem_cons.mp hx with hx | hx
    · rw [hx]
      have h1 := h.1
      have ht := tick_pos (R := R)
      have hl : (0 : R) ≤ (l.length : R) := Nat.cast_nonneg _
      nlinarith
    · exact ih h.2 x hx

/-- A staircase of positive entries of height `1 + tick` has at most 60 entries. -/
theorem AgeOK.length_le {l : List R} (h : AgeOK (1 + tick) l) (hp : ∀ x ∈ l, 0 < x) :
    l.length ≤ 60 := by
  cases l with
  | nil => exact Nat.zero_le _
  | cons a l =>
    have h1 := h.1
    have h0 := hp a (List.mem_cons_self a l)
    rw [tick_eq] at h1
    have h2 : ((l.length : R) + 1) < 61 := by
      by_contra hc
      push_neg at hc
      linarith
    have h3 : ((l.length + 1 : Nat) : R) < ((61 : Nat) : R) := by
      push_cast
      exact h2
    have h4 : l.length + 1 < 61 := by exact_mod_cast h3
    simp only [List.length_cons]
    omega

/-! ### List facts for the reverse loops -/

/-- Erasing the entry just overwritten. -/
theorem eraseIdx_set_self {α : Type} (l : List α) (i : Nat) (a : α) :
    (l.set i a).eraseIdx i = l.eraseIdx i := by
  induction l generalizing i with
  | nil => rfl
  | cons x l ih =>
    cases i with
    | zero => rfl
    | succ i => simp [ih]

/-- Overwriting the entry at `i` keeps the first `i` entries. -/
theorem take_set_self {α : Type} (l : List α) (i : Nat) (a : α) :
    (l.set i a).take i = l.take i := by
  induction l generalizing i with
  | nil => rfl
  | cons x l ih =>
    cases i with
    | zero => rfl
    | succ i => simp [ih]

/-- The entries from `i` on after overwriting the entry at `i`. -/
theorem drop_set_self {α : Type} (l : List α) (i : Nat) (a : α) (h : i < l.length) :
    (l.set i a).drop i = a :: l.drop (i + 1) := by
  induction l generalizing i with
  | nil => exact absurd h (Nat.not_lt_zero _)
  | cons x l ih =>
    cases i with
    | zero => rfl
    | succ i =>
      simp only [List.set_cons_succ, List.drop_succ_cons]
      exact ih i (Nat.lt_of_succ_lt_succ h)

/-- Erasing the entry at `i` keeps the first `i` entries. -/
theorem take_eraseIdx_self {α : Type} (l : List α) (i : Nat) :
    (l.eraseIdx i).take i = l.take i := by
  induction l generalizing i with
  | nil => rfl
  | cons x l ih =>
    cases i with
    | zero => rfl
    | succ i => simp [ih]

/-- The entries from `i` on after erasing the entry at `i`. -/
theorem drop_eraseIdx_self {α : Type} (l : List α) (i : Nat) :
    (l.eraseIdx i).drop i = l.drop (i + 1) := by
  induction l generalizing i with
  | nil => simp
  | cons x l ih =>
    cases i with
    | zero => rfl
    | succ i =>
      simp only [List.eraseIdx_cons_succ, List.drop_succ_cons]
      exact ih i

/-- One more iteration of a reverse loop that ages every entry and may erase it: the
processed part stays an aged sublist. -/
theorem aged_step (f : R → R) (L L2 P : List R) (i : Nat) (x : R) (hx : L[i]? = some x)
    (h2 : L2 = L.eraseIdx i ∨ (L2 = L.set i (f x) ∧ 0 < f x))
    (hP : P.Sublist ((L2.take i).map f)) (hpos : ∀ y ∈ P, 0 < y) :
    ∃ Q : List R, P ++ L2.drop i = Q ++ L.drop (i + 1) ∧
      Q.Sublist ((L.take (i + 1)).map f) ∧ ∀ y ∈ Q, 0 < y := by
  have hlt : i < L.length := (List.getElem?_eq_some.mp hx).1
  have ht : L.take (i + 1) = L.take i ++ [x] := by
    rw [List.take_succ, hx]
    rfl
  rcases h2 with h2 | ⟨h2, h0⟩
  · refine ⟨P, ?_, ?_, hpos⟩
    · rw [h2, drop_eraseIdx_self]
    · rw [h2, take_eraseIdx_self] at hP
      rw [ht, List.map_append]
      exact hP.trans (List.sublist_append_left _ _)
  · refine ⟨P ++ [f x], ?_, ?_, ?_⟩
    · rw [h2, drop_set_self L i (f x) hlt]
      simp
    · rw [h2, take_set_self] at hP
      rw [ht, List.map_append]
      exact List.Sublist.append hP (List.Sublist.refl _)
    · intro y hy
      rcases List.mem_append.mp hy with hy | hy
      · exact hpos y hy
      · rw [List.mem_singleton.mp hy]
        exact h0

/-! ### The bullet phase -/

/-- `splitAsteroid` changes only the asteroids and keeps the radius rule. -/
theorem splitAsteroid_frame (M : MathOps R) (g : Game R) (j : Nat) (r : Rng R) :
    (g.splitAsteroid M j r).1
      = { g with Asteroids := (g.splitAsteroid M j r).1.Asteroids } ∧
    (RadiiOK g → RadiiOK (g.splitAsteroid M j r).1) := by
  cases hj : g.Asteroids[j]? with
  | none =>
    have e : g.splitAsteroid M j r = (g, r) := by simp [Game.splitAsteroid, hj]
    rw [e]
    exact ⟨rfl, fun h => h⟩
  | some a =>
    by_cases hs : a.Size > 1
    · obtain ⟨f1, f2, _, e, s1, _, r1, _, s2, _, r2, _⟩ := splitAsteroid_large M g j r a hj hs
      rw [e]
      refine ⟨rfl, ?_⟩
      intro h x hx
      have hx2 : x ∈ g.Asteroids.eraseIdx j ++ [f1, f2] := hx
      rcases List.mem_append.mp hx2 with hx3 | hx3
      · exact h x (List.mem_of_mem_eraseIdx hx3)
      · simp only [List.mem_cons, List.mem_singleton, List.not_mem_nil, or_false] at hx3
        rcases hx3 with hx3 | hx3
        · rw [hx3, r1, s1]
          push_cast
          ring
        · rw [hx3, r2, s2]
          push_cast
          ring
    · rw [splitAsteroid_small M g j r a hj hs]
      refine ⟨rfl, ?_⟩
      intro h x hx
      exact h x (List.mem_of_mem_eraseIdx hx)

/-- The asteroid scan of a bullet changes only asteroids and score: without a hit nothing
changes, with a hit the score rises by 100; the radius rule is kept. -/
theorem hitAsteroidFrom_spec (M : MathOps R) (b : Bullet R) :
    ∀ (j : Nat) (g : Game R) (r : Rng R),
      (hitAsteroidFrom M b j g r).1
        = { g with
            Asteroids := (hitAsteroidFrom M b j g r).1.Asteroids
            Score := (hitAsteroidFrom M b j g r).1.Score } ∧
      ((hitAsteroidFrom M b j g r).2.2 = false → (hitAsteroidFrom M b j g r).1 = g) ∧
      ((hitAsteroidFrom M b j g r).2.2 = true →
        (hitAsteroidFrom M b j g r).1.Score = g.Score + 100) ∧
      (RadiiOK g → RadiiOK (hitAsteroidFrom M b j g r).1) := by
  intro j
  induction j with
  | zero =>
    intro g r
    exact ⟨rfl, fun _ => rfl, fun h => absurd h (by simp [hitAsteroidFrom]), fun h => h⟩
  | succ j ih =>
    intro g r
    simp only [hitAsteroidFrom]
    cases hj : g.Asteroids[j]? with
    | none =>
      exact ⟨rfl, fun _ => rfl, fun h => absurd h (by simp), fun h => h⟩
    | some a =>
      simp only
      split
      · obtain ⟨e, hr⟩ := splitAsteroid_frame M g j r
        simp only [bulletHit]
        refine ⟨?_, fun h => absurd h (by simp), ?_, ?_⟩
        · rw [e]
        · intro _
          rw [e]
        · intro h x hx
          exact hr h x hx
      · exact ih g r

/-- The UFO scan of a bullet changes only UFOs and score: without a hit nothing changes,
with a hit one UFO is removed and its value is added to the score. -/
theorem hitUFOFrom_spec (M : MathOps R) (b : Bullet R) :
    ∀ (j : Nat) (g : Game R),
      (hitUFOFrom M b j g).1
        = { g with
            UFOs := (hitUFOFrom M b j g).1.UFOs
            Score := (hitUFOFrom M b j g).1.Score } ∧
      ((hitUFOFrom M b j g).2 = false → (hitUFOFrom M b j g).1 = g) ∧
      ((hitUFOFrom M b j g).2 = true → ∃ (k : Nat) (u : UFO R), g.UFOs[k]? = some u ∧
        (hitUFOFrom M b j g).1.Score = g.Score + u.ScoreValue ∧
        (hitUFOFrom M b j g).1.UFOs = g.UFOs.eraseIdx k) := by
  intro j
  induction j with
  | zero =>
    intro g
    exact ⟨rfl, fun _ => rfl, fun h => absurd h (by simp [hitUFOFrom])⟩
  | succ j ih =>
    intro g
    simp only [hitUFOFrom]
    cases hj : g.UFOs[j]? with
    | none => exact ⟨rfl, fun _ => rfl, fun h => absurd h (by simp)⟩
    | some u =>
      simp only
      split
      · exact ⟨rfl, fun h => absurd h (by simp), fun _ => ⟨j, u, hj, rfl, rfl⟩⟩
      · exact ih g

/-- The end of an iteration of the bullet loop, from what the two scans returned: `ga`
and `ha` come from the asteroid scan of the session `g1`, `gu` and `hu` from the UFO scan
of `ga`. -/
theorem updateBullet_tail (g1 ga gu : Game R) (ra : Rng R) (ha hu : Bool) (b : Bullet R)
    (i : Nat)
    (a1 : ga = { g1 with Asteroids := ga.Asteroids, Score := ga.Score })
    (a2 : ha = false → ga = g1)
    (a3 : ha = true → ga.Score = g1.Score + 100)
    (a4 : RadiiOK g1 → RadiiOK ga)
    (u1 : gu = { ga with UFOs := gu.UFOs, Score := gu.Score })
    (u2 : hu = false → gu = ga)
    (u3 : hu = true → ∃ (k : Nat) (u : UFO R), ga.UFOs[k]? = some u ∧
      gu.Score = ga.Score + u.ScoreValue ∧ gu.UFOs = ga.UFOs.eraseIdx k)
    (res : Game R)
    (hres : res =
      (if (if ha = false then (gu, hu) else (ga, true)).2 = true ∨ b.Lifespan ≤ 0 then
        (({ (if ha = false then (gu, hu) else (ga, true)).1 with
            Bullets := (if ha = false then (gu, hu) else (ga, true)).1.Bullets.eraseIdx i },
          ra) : Game R × Rng R)
      else ((if ha = false then (gu, hu) else (ga, true)).1, ra)).1) :
    res = { g1 with
        Bullets := res.Bullets
        Asteroids := res.Asteroids
        UFOs := res.UFOs
        Score := res.Score } ∧
    (res.Bullets = g1.Bullets.eraseIdx i ∨ (res.Bullets = g1.Bullets ∧ 0 < b.Lifespan)) ∧
    (RadiiOK g1 → RadiiOK res) ∧
    (res.UFOs.length ≤ g1.UFOs.length ∧ ∀ u ∈ res.UFOs, u ∈ g1.UFOs) ∧
    ((∀ u ∈ g1.UFOs, 0 ≤ u.ScoreValue ∧ u.ScoreValue ≤ 1000) →
      g1.Score ≤ res.Score ∧
      res.Score + 1000 * (res.UFOs.length : Int)
        ≤ g1.Score + 1000 * (g1.UFOs.length : Int) + 100) := by
  cases ha with
  | true =>
    have hs := a3 rfl
    simp only [Bool.true_eq_false, if_false, true_or, if_true] at hres
    subst hres
    refine ⟨?_, Or.inl ?_, ?_, ⟨?_, ?_⟩, ?_⟩
    · rw [a1]
    · show ga.Bullets.eraseIdx i = g1.Bullets.eraseIdx i
      rw [a1]
    · exact a4
    · show ga.UFOs.length ≤ g1.UFOs.length
      rw [a1]
    · intro u hu2
      have : u ∈ ga.UFOs := hu2
      rw [a1] at this
      exact this
    · intro _
      have e : ga.UFOs = g1.UFOs := by rw [a1]
      show g1.Score ≤ ga.Score ∧ ga.Score + 1000 * (ga.UFOs.length : Int)
        ≤ g1.Score + 1000 * (g1.UFOs.length : Int) + 100
      rw [e, hs]
      constructor <;> linarith
  | false =>
    have hg := a2 rfl
    subst hg
    simp only [if_true] at hres
    cases hu with
    | true =>
      obtain ⟨k, u, hk, hsc, hufo⟩ := u3 rfl
      simp only [true_or, if_true] at hres
      subst hres
      have hlt : k < ga.UFOs.length := (List.getElem?_eq_some.mp hk).1
      refine ⟨?_, Or.inl ?_, ?_, ⟨?_, ?_⟩, ?_⟩
      · rw [u1]
      · show gu.Bullets.eraseIdx i = ga.Bullets.eraseIdx i
        rw [u1]
      · intro h x hx
        have : x ∈ gu.Asteroids := hx
        rw [u1] at this
        exact h x this
      · show gu.UFOs.length ≤ ga.UFOs.length
        rw [hufo]
        exact List.length_eraseIdx_le _ _
      · intro x hx
        have : x ∈ gu.UFOs := hx
        rw [hufo] at this
        exact List.mem_of_mem_eraseIdx this
      · intro hb
        have hu0 := hb u (List.getElem?_mem hk)
        show ga.Score ≤ gu.Score ∧ gu.Score + 1000 * (gu.UFOs.length : Int)
          ≤ ga.Score + 1000 * (ga.UFOs.length : Int) + 100
        have hl : (gu.UFOs.length : Int) + 1 = (ga.UFOs.length : Int) := by
          rw [hufo, List.length_eraseIdx, if_pos hlt]
          omega
        rw [hsc]
        constructor
        · linarith [hu0.1]
        · linarith [hu0.2]
    | false =>
      have hg := u2 rfl
      subst hg
      simp only [Bool.false_eq_true, false_or] at hres
      by_cases hl : b.Lifespan ≤ 0
      · rw [if_pos hl] at hres
        subst hres
        exact ⟨rfl, Or.inl rfl, fun h => h, ⟨le_refl _, fun u hu2 => hu2⟩,
          fun _ => ⟨le_refl _, by
            show gu.Score + 1000 * (gu.UFOs.length : Int)
              ≤ gu.Score + 1000 * (gu.UFOs.length : Int) + 100
            linarith⟩⟩
      · rw [if_neg hl] at hres
        subst hres
        exact ⟨rfl, Or.inr ⟨rfl, not_le.mp hl⟩, fun h => h, ⟨le_refl _, fun u hu2 => hu2⟩,
          fun _ => ⟨le_refl _, by linarith⟩⟩

/-- One iteration of the bullet loop changes only bullets, asteroids, UFOs and score: the
bullet at `i` is erased, or it is kept, aged by a tick, with a positive lifespan; the
radius rule is kept; no UFO is added; the score does not fall, and it rises by at most
100, or by the value of a UFO that is removed. -/
theorem updateBullet_spec (M : MathOps R) (i : Nat) (b0 : Bullet R) (g : Game R) (r : Rng R) :
    (updateBullet M i b0 g r).1
      = { g with
          Bullets := (updateBullet M i b0 g r).1.Bullets
          Asteroids := (updateBullet M i b0 g r).1.Asteroids
          UFOs := (updateBullet M i b0 g r).1.UFOs
          Score := (updateBullet M i b0 g r).1.Score } ∧
    ((updateBullet M i b0 g r).1.Bullets = g.Bullets.eraseIdx i ∨
      ((updateBullet M i b0 g r).1.Bullets = g.Bullets.set i (moveBullet g b0) ∧
        0 < b0.Lifespan - tick)) ∧
    (RadiiOK g → RadiiOK (updateBullet M i b0 g r).1) ∧
    ((updateBullet M i b0 g r).1.UFOs.length ≤ g.UFOs.length ∧
      ∀ u ∈ (updateBullet M i b0 g r).1.UFOs, u ∈ g.UFOs) ∧
    ((∀ u ∈ g.UFOs, 0 ≤ u.ScoreValue ∧ u.ScoreValue ≤ 1000) →
      g.Score ≤ (updateBullet M i b0 g r).1.Score ∧
      (updateBullet M i b0 g r).1.Score + 1000 * ((updateBullet M i b0 g r).1.UFOs.length : Int)
        ≤ g.Score + 1000 * (g.UFOs.length : Int) + 100) := by
  obtain ⟨a1, a2, a3, a4⟩ := hitAsteroidFrom_spec M (moveBullet g b0) g.Asteroids.length
    { g with Bullets := g.Bullets.set i (moveBullet g b0) } r
  obtain ⟨u1, u2, u3⟩ := hitUFOFrom_spec M (moveBullet g b0)
    (hitAsteroidFrom M (moveBullet g b0) g.Asteroids.length
      { g with Bullets := g.Bullets.set i (moveBullet g b0) } r).1.UFOs.length
    (hitAsteroidFrom M (moveBullet g b0) g.Asteroids.length
      { g with Bullets := g.Bullets.set i (moveBullet g b0) } r).1
  obtain ⟨A, B, C, D, E⟩ := updateBullet_tail
    { g with Bullets := g.Bullets.set i (moveBullet g b0) } _ _
    (hitAsteroidFrom M (moveBullet g b0) g.Asteroids.length
      { g with Bullets := g.Bullets.set i (moveBullet g b0) } r).2.1
    _ _ (moveBullet g b0) i a1 a2 a3 a4 u1 u2 u3 (updateBullet M i b0 g r).1 rfl
  refine ⟨?_, ?_, C, D, E⟩
  · rw [A]
  · rcases B with B | ⟨B, hpos⟩
    · exact Or.inl (B.trans (eraseIdx_set_self _ _ _))
    · exact Or.inr ⟨B, hpos⟩

/-- Mapping commutes with erasing an index. -/
theorem map_eraseIdx_comm {α β : Type} (f : α → β) (l : List α) (i : Nat) :
    (l.eraseIdx i).map f = (l.map f).eraseIdx i := by
  induction l generalizing i with
  | nil => rfl
  | cons x l ih =>
    cases i with
    | zero => rfl
    | succ i => simp [ih]

/-- The bullet loop over the indices below `i` changes only bullets, asteroids, UFOs and
score; it keeps the radius rule, adds no UFO, does not lower the score and raises it by at
most 100 per bullet plus 1000 per UFO removed; the bullets it has run are aged by a tick,
some are erased, and those left have a positive lifespan. -/
theorem updateBulletsFrom_spec (M : MathOps R) :
    ∀ (i : Nat) (g : Game R) (r : Rng R), i ≤ g.Bullets.length →
      (updateBulletsFrom M i g r).1
        = { g with
            Bullets := (updateBulletsFrom M i g r).1.Bullets
            Asteroids := (updateBulletsFrom M i g r).1.Asteroids
            UFOs := (updateBulletsFrom M i g r).1.UFOs
            Score := (updateBulletsFrom M i g r).1.Score } ∧
      (RadiiOK g → RadiiOK (updateBulletsFrom M i g r).1) ∧
      ((updateBulletsFrom M i g r).1.UFOs.length ≤ g.UFOs.length ∧
        ∀ u ∈ (updateBulletsFrom M i g r).1.UFOs, u ∈ g.UFOs) ∧
      ((∀ u ∈ g.UFOs, 0 ≤ u.ScoreValue ∧ u.ScoreValue ≤ 1000) →
        g.Score ≤ (updateBulletsFrom M i g r).1.Score ∧
        (updateBulletsFrom M i g r).1.Score
            + 1000 * ((updateBulletsFrom M i g r).1.UFOs.length : Int)
          ≤ g.Score + 1000 * (g.UFOs.length : Int) + 100 * (i : Int)) ∧
      ∃ P : List R,
        lifespans (updateBulletsFrom M i g r).1 = P ++ (lifespans g).drop i ∧
        P.Sublist (((lifespans g).take i).map (fun x => x - tick)) ∧ ∀ x ∈ P, 0 < x := by
  intro i
  induction i with
  | zero =>
    intro g r _
    refine ⟨rfl, fun h => h, ⟨le_refl _, fun u hu => hu⟩, fun _ => ⟨le_refl _, ?_⟩,
      ⟨[], rfl, List.Sublist.refl _, fun x hx => absurd hx (List.not_mem_nil x)⟩⟩
    show g.Score + 1000 * (g.UFOs.length : Int)
      ≤ g.Score + 1000 * (g.UFOs.length : Int) + 100 * ((0 : Nat) : Int)
    simp
  | succ i ih =>
    intro g r hi
    have hlt : i < g.Bullets.length := hi
    have hb : g.Bullets[i]? = some (g.Bullets.get ⟨i, hlt⟩) := List.getElem?_eq_getElem hlt
    simp only [updateBulletsFrom, hb]
    obtain ⟨A, B, C, D, E⟩ := updateBullet_spec M i (g.Bullets.get ⟨i, hlt⟩) g r
    have hlen : i ≤ (updateBullet M i (g.Bullets.get ⟨i, hlt⟩) g r).1.Bullets.length := by
      rcases B with B | ⟨B, _⟩
      · rw [B, List.length_eraseIdx, if_pos hlt]
        omega
      · rw [B, List.length_set]
        omega
    obtain ⟨A2, C2, D2, E2, P, hP1, hP2, hP3⟩ :=
      ih (updateBullet M i (g.Bullets.get ⟨i, hlt⟩) g r).1
        (updateBullet M i (g.Bullets.get ⟨i, hlt⟩) g r).2 hlen
    have hL : (lifespans g)[i]? = some (g.Bullets.get ⟨i, hlt⟩).Lifespan := by
      simp only [lifespans, List.getElem?_map, hb, Option.map_some']
    have hL2 : lifespans (updateBullet M i (g.Bullets.get ⟨i, hlt⟩) g r).1
          = (lifespans g).eraseIdx i ∨
        (lifespans (updateBullet M i (g.Bullets.get ⟨i, hlt⟩) g r).1
          = (lifespans g).set i ((fun x => x - tick) (g.Bullets.get ⟨i, hlt⟩).Lifespan) ∧
          0 < (fun x => x - tick) (g.Bullets.get ⟨i, hlt⟩).Lifespan) := by
      rcases B with B | ⟨B, hpos⟩
      · left
        simp only [lifespans, B]
        exact map_eraseIdx_comm _ _ _
      · right
        refine ⟨?_, hpos⟩
        simp only [lifespans, B, List.map_set]
        rfl
    obtain ⟨Q, hQ1, hQ2, hQ3⟩ := aged_step (fun x => x - tick) (lifespans g) _ P i _ hL hL2
      hP2 hP3
    refine ⟨?_, fun h => C2 (C h), ⟨le_trans D2.1 D.1, fun u hu => D.2 u (D2.2 u hu)⟩, ?_,
      ⟨Q, hP1.trans hQ1, hQ2, hQ3⟩⟩
    · rw [A2, A]
    · intro hU
      obtain ⟨e1, e2⟩ := E hU
      obtain ⟨f1, f2⟩ := E2 (fun u hu => hU u (D.2 u hu))
      refine ⟨le_trans e1 f1, ?_⟩
      push_cast
      linarith

/-! ### The other phases -/

/-- The particle loop changes only the particles. -/
theorem updateParticlesFrom_frame :
    ∀ (i : Nat) (g : Game R),
      updateParticlesFrom i g = { g with Particles := (updateParticlesFrom i g).Particles } := by
  intro i
  induction i with
  | zero => intro g; rfl
  | succ i ih =>
    intro g
    simp only [updateParticlesFrom]
    cases hp : g.Particles[i]? with
    | none => rfl
    | some p =>
      simp only
      rw [ih]
      have e : updateParticle i p g = { g with Particles := (updateParticle i p g).Particles } := by
        unfold updateParticle
        simp only
        split <;> rfl
      rw [e]

/-- The asteroids appended by `n` iterations of the loop of `spawnAsteroids`: exactly `n`,
each of tier `size` and radius `size * 15`; nothing else changes. -/
theorem spawnAsteroidsLoop_spec (M : MathOps R) (size : Int) :
    ∀ (n : Nat) (g : Game R) (r : Rng R),
      ∃ new : List (Asteroid R),
        (spawnAsteroidsLoop M size n g r).1 = { g with Asteroids := g.Asteroids ++ new } ∧
        new.length = n ∧
        ∀ a ∈ new, a.Size = size ∧ a.Radius = ((size * 15 : Int) : R) := by
  intro n
  induction n with
  | zero =>
    intro g r
    refine ⟨[], ?_, rfl, fun a ha => absurd ha (List.not_mem_nil a)⟩
    simp [spawnAsteroidsLoop]
  | succ n ih =>
    intro g r
    simp only [spawnAsteroidsLoop]
    obtain ⟨new, e, hl, hn⟩ := ih (spawnAsteroid M size g r).1 (spawnAsteroid M size g r).2
    have hb : ∃ a : Asteroid R,
        (spawnAsteroid M size g r).1 = { g with Asteroids := g.Asteroids ++ [a] } ∧
        a.Size = size ∧ a.Radius = ((size * 15 : Int) : R) := ⟨_, rfl, rfl, rfl⟩
    obtain ⟨a, ea, hs, hr⟩ := hb
    refine ⟨a :: new, ?_, ?_, ?_⟩
    · rw [e, ea]
      simp
    · simp [hl]
    · intro x hx
      rcases List.mem_cons.mp hx with hx | hx
      · rw [hx]
        exact ⟨hs, hr⟩
      · exact hn x hx

/-- Level progression: either nothing changes, or both the asteroids and the UFOs were
empty, the level rises by one, the UFO bullets are cleared and the asteroids are a fresh
non-empty wave of tier 3. -/
theorem levelProgression_spec (M : MathOps R) (g : Game R) (r : Rng R) :
    ((g.Asteroids.length = 0 ∧ g.UFOs.length = 0) →
      ∃ new : List (Asteroid R),
        (levelProgression M g r).1
          = { g with Level := g.Level + 1, UFOBullets := [], Asteroids := new } ∧
        (new.length : Int) = max 0
          (if g.Score ≥ 40000 ∧ g.Score < 60000 then 7
           else if g.Score ≥ 60000 then 8 else g.Level + 1 + 3) ∧
        ∀ a ∈ new, a.Size = 3 ∧ a.Radius = 15 * ((3 : Int) : R)) ∧
    (¬ (g.Asteroids.length = 0 ∧ g.UFOs.length = 0) → levelProgression M g r = (g, r)) := by
  constructor
  · intro h
    obtain ⟨new, e, hl, hn⟩ := spawnAsteroidsLoop_spec M 3
      (if g.Score ≥ 40000 ∧ g.Score < 60000 then 7
        else if g.Score ≥ 60000 then 8 else g.Level + 1 + 3 : Int).toNat
      { g with Level := g.Level + 1, UFOBullets := [] } r
    have hnil : g.Asteroids = [] := List.length_eq_zero.mp h.1
    refine ⟨new, ?_, ?_, ?_⟩
    · simp only [levelProgression, h, and_self, if_true, Game.spawnAsteroids]
      rw [e]
      simp [hnil]
    · rw [hl, Int.toNat_eq_max, max_comm]
    · intro a ha
      obtain ⟨h1, h2⟩ := hn a ha
      refine ⟨h1, ?_⟩
      rw [h2]
      push_cast
      ring
  · intro h
    simp only [levelProgression, h, if_false]

/-- The UFO spawn changes only the UFOs and the spawn time stamp: either nothing
changes, or the UFO collection was empty and receives one UFO worth 200 or 1000. -/
theorem spawnUFO_spec (g : Game R) (now : Int) (r : Rng R) :
    (spawnUFO g now r).1 = g ∨
    (g.UFOs = [] ∧ now - g.LastUFOSpawn > UFOSpawnInterval ∧ ∃ u : UFO R,
      (spawnUFO g now r).1 = { g with UFOs := [u], LastUFOSpawn := now } ∧
      (u.ScoreValue = 200 ∨ u.ScoreValue = 1000)) := by
  by_cases h : now - g.LastUFOSpawn > UFOSpawnInterval ∧ g.UFOs.length = 0
  · right
    have hnil : g.UFOs = [] := List.length_eq_zero.mp h.2
    refine ⟨hnil, h.1, ?_⟩
    simp only [spawnUFO, h, and_self, if_true, hnil, List.nil_append]
    refine ⟨_, rfl, ?_⟩
    simp only [BigUFOScore, SmallUFOScore]
    split_ifs <;> simp
  · left
    simp only [spawnUFO, h, if_false]

/-- The bullet lifespan is one second. -/
theorem BulletLifespan_eq : (BulletLifespan : R) = 1 := by
  unfold BulletLifespan
  norm_num

/-- The ship phase changes only the ship, the bullets and the time stamp of the last
shot: an absent ship changes nothing; a present ship stays present and at most one bullet
of lifespan 1 is appended. -/
theorem updateShip_spec (M : MathOps R) (g : Game R) (inp : Input) (now : Int) :
    updateShip M g inp now
      = { g with
          Ship := (updateShip M g inp now).Ship
          Bullets := (updateShip M g inp now).Bullets
          LastShot := (updateShip M g inp now).LastShot } ∧
    (g.Ship = none → updateShip M g inp now = g) ∧
    (∀ s, g.Ship = some s → ∃ s2, (updateShip M g inp now).Ship = some s2) ∧
    ((updateShip M g inp now).Bullets = g.Bullets ∨
      ∃ b : Bullet R, (updateShip M g inp now).Bullets = g.Bullets ++ [b] ∧ b.Lifespan = 1) := by
  cases hs : g.Ship with
  | none =>
    have e : updateShip M g inp now = g := by simp [updateShip, hs]
    rw [e]
    exact ⟨rfl, fun _ => rfl, fun s h => absurd h (by simp [hs]), Or.inl rfl⟩
  | some s =>
    simp only [updateShip, hs]
    split_ifs
    · exact ⟨rfl, fun h => absurd h (by simp), fun _ _ => ⟨_, rfl⟩,
        Or.inr ⟨_, rfl, BulletLifespan_eq⟩⟩
    · exact ⟨rfl, fun h => absurd h (by simp), fun _ _ => ⟨_, rfl⟩, Or.inl rfl⟩
    · exact ⟨rfl, fun h => absurd h (by simp), fun _ _ => ⟨_, rfl⟩, Or.inl rfl⟩

/-! ### The invariant -/

/-- A new session: the fields set by `NewGame` and four tier-3 asteroids. -/
theorem NewGame_spec (M : MathOps R) (now : Int) (r : Rng R) :
    ∃ new : List (Asteroid R),
      (NewGame M now r).1 = {
        Ship := some {
          Position := ⟨(screenWidth : R) / 2, (screenHeight : R) / 2⟩
          Velocity := ⟨0, 0⟩
          Rotation := -M.pi / 2
          IsThrusting := false
          IsInvincible := false
          InvincibleTimer := 0 }
        Asteroids := new
        Bullets := []
        UFOs := []
        UFOBullets := []
        Score := 0
        Lives := 3 + ((r.ints r.pos % 3 : Nat) : Int)
        Level := 1
        ScreenWidth := screenWidth
        ScreenHeight := screenHeight
        GameState := 0
        LastShot := 0
        LastUFOSpawn := now
        NextExtraLifeScore := 10000
        Particles := []
        RespawnTimer := 0 } ∧
      new.length = 4 ∧ ∀ a ∈ new, a.Size = 3 ∧ a.Radius = 15 * ((3 : Int) : R) := by
  obtain ⟨new, e, hl, hn⟩ := spawnAsteroidsLoop_spec M 3 4
    ({ Ship := some {
          Position := ⟨(screenWidth : R) / 2, (screenHeight : R) / 2⟩
          Velocity := ⟨0, 0⟩
          Rotation := -M.pi / 2
          IsThrusting := false
          IsInvincible := false
          InvincibleTimer := 0 }
       Asteroids := []
       Bullets := []
       UFOs := []
       UFOBullets := []
       Score := 0
       Lives := 3 + ((r.Intn 3).1 : Int)
       Level := 1
       ScreenWidth := screenWidth
       ScreenHeight := screenHeight
       GameState := 0
       LastShot := 0
       LastUFOSpawn := now
       NextExtraLifeScore := 10000
       Particles := []
       RespawnTimer := 0 } : Game R) (r.Intn 3).2
  refine ⟨new, ?_, hl, ?_⟩
  · show (spawnAsteroidsLoop M 3 4 _ _).1 = _
    rw [e]
    simp [Rng.Intn]
  · intro a ha
    obtain ⟨h1, h2⟩ := hn a ha
    refine ⟨h1, ?_⟩
    rw [h2]
    push_cast
    ring

/-- A new session satisfies the invariant. -/
theorem Inv_NewGame (M : MathOps R) (now : Int) (r : Rng R) : Inv (NewGame M now r).1 := by
  obtain ⟨new, e, _, hn⟩ := NewGame_spec M now r
  rw [e]
  refine ⟨le_refl _, by norm_num, ⟨Nat.zero_le _, fun u hu => absurd hu (List.not_mem_nil u)⟩,
    ?_, trivial, fun b hb => absurd hb (List.not_mem_nil b), ?_, ?_⟩
  · intro a ha
    obtain ⟨h1, h2⟩ := hn a ha
    rw [h2, h1]
  · intro s _
    refine ⟨le_refl _, ?_⟩
    show (0 : Int) < 3 + ((r.ints r.pos % 3 : Nat) : Int)
    omega
  · intro h
    exact absurd h (by simp)

/-- The respawn phase of a step taken outside the GameOver state, from a session that
satisfies the invariant. -/
theorem respawnStep_inv (M : MathOps R) (g : Game R) (hs : ShipOK g)
    (hpos : ∀ b ∈ g.Bullets, 0 < b.Lifespan) (h1 : g.GameState ≠ 1) :
    respawnStep M g
      = { g with
          RespawnTimer := (respawnStep M g).RespawnTimer
          Ship := (respawnStep M g).Ship
          GameState := (respawnStep M g).GameState } ∧
    ShipMid (respawnStep M g) := by
  have ht := tick_pos (R := R)
  cases hsh : g.Ship with
  | some s =>
    obtain ⟨h2, h3⟩ := hs.1 s hsh
    have e : respawnStep M g = g := by
      simp only [respawnStep, not_lt.mpr h2, if_false]
    rw [e]
    refine ⟨rfl, fun s2 hs2 => hs.1 s2 hs2, fun h => ?_⟩
    rw [hsh] at h
    exact absurd h (by simp)
  | none =>
    rcases hs.2 hsh with ⟨h2, h3⟩ | ⟨_, h2⟩
    · by_cases h4 : g.RespawnTimer - tick ≤ 0
      · have hnil : g.Bullets = [] := by
          apply List.eq_nil_iff_forall_not_mem.mpr
          intro b hb
          have := h3 b hb
          have := hpos b hb
          linarith
        by_cases h5 : g.Lives > 0
        · simp only [respawnStep, h2, h4, h5, if_true]
          refine ⟨trivial, fun s2 _ => ⟨h4, h5⟩, fun h => absurd h (by simp)⟩
        · simp only [respawnStep, h2, h4, h5, if_true, if_false]
          refine ⟨trivial, fun s2 h => ?_, fun _ => Or.inr ⟨not_lt.mp h5, rfl, hnil⟩⟩
          rw [hsh] at h
          exact absurd h (by simp)
      · simp only [respawnStep, h2, h4, if_true, if_false]
        refine ⟨trivial, fun s2 h => ?_, fun _ => Or.inl ⟨not_le.mp h4, fun b hb => ?_⟩⟩
        · rw [hsh] at h
          exact absurd h (by simp)
        · have := h3 b hb
          show b.Lifespan ≤ g.RespawnTimer - tick
          linarith
    · exact absurd h2 h1

/-- The ship phase keeps the agreement of ship, lives and countdown and raises the
staircase of lifespans by a tick. -/
theorem updateShip_inv (M : MathOps R) (g : Game R) (inp : Input) (now : Int)
    (hm : ShipMid g) (ha : AgeOK 1 (lifespans g)) (hpos : ∀ b ∈ g.Bullets, 0 < b.Lifespan) :
    ShipMid (updateShip M g inp now) ∧
    AgeOK (1 + tick) (lifespans (updateShip M g inp now)) ∧
    (∀ b ∈ (updateShip M g inp now).Bullets, 0 < b.Lifespan) := by
  have ht := tick_pos (R := R)
  obtain ⟨e, hn, hsome, hb⟩ := updateShip_spec M g inp now
  cases hsh : g.Ship with
  | none =>
    rw [hn hsh]
    exact ⟨hm, AgeOK.mono (by linarith) ha, hpos⟩
  | some s =>
    obtain ⟨s2, hs2⟩ := hsome s hsh
    obtain ⟨h1, h2⟩ := hm.1 s hsh
    refine ⟨⟨fun _ _ => ?_, fun h => ?_⟩, ?_, ?_⟩
    · rw [e]
      exact ⟨h1, h2⟩
    · rw [hs2] at h
      exact absurd h (by simp)
    · rcases hb with hb | ⟨b, hb, hl⟩
      · simp only [lifespans, hb]
        exact AgeOK.mono (by linarith) ha
      · simp only [lifespans, hb, List.map_append, List.map_cons, List.map_nil, hl]
        exact AgeOK.append_one ha (le_refl _)
    · intro b hb2
      rcases hb with hb | ⟨b1, hb, hl⟩
      · rw [hb] at hb2
        exact hpos b hb2
      · rw [hb] at hb2
        rcases List.mem_append.mp hb2 with hb3 | hb3
        · exact hpos b hb3
        · rw [List.mem_singleton.mp hb3, hl]
          exact one_pos

/-- The bullet phase of a step, from a session that satisfies the mid-step facts: the
invariants of the UFOs and the radii are kept, the score does not fall and rises by at
most 7000, the staircase of lifespans is back at height 1 with positive entries, and ship,
lives and countdown agree in the late form. -/
theorem updateBullets_inv (M : MathOps R) (g : Game R) (r : Rng R)
    (hm : ShipMid g) (ha : AgeOK (1 + tick) (lifespans g))
    (hpos : ∀ b ∈ g.Bullets, 0 < b.Lifespan) (hu : UFOsOK g) (hsc : g.Score < g.NextExtraLifeScore) :
    (updateBulletsFrom M g.Bullets.length g r).1
      = { g with
          Bullets := (updateBulletsFrom M g.Bullets.length g r).1.Bullets
          Asteroids := (updateBulletsFrom M g.Bullets.length g r).1.Asteroids
          UFOs := (updateBulletsFrom M g.Bullets.length g r).1.UFOs
          Score := (updateBulletsFrom M g.Bullets.length g r).1.Score } ∧
    (RadiiOK g → RadiiOK (updateBulletsFrom M g.Bullets.length g r).1) ∧
    UFOsOK (updateBulletsFrom M g.Bullets.length g r).1 ∧
    g.Score ≤ (updateBulletsFrom M g.Bullets.length g r).1.Score ∧
    (updateBulletsFrom M g.Bullets.length g r).1.Score ≤ g.Score + 7000 ∧
    (∀ b ∈ (updateBulletsFrom M g.Bullets.length g r).1.Bullets, 0 < b.Lifespan) ∧
    ShipLate (updateBulletsFrom M g.Bullets.length g r).1 := by
  have ht := tick_pos (R := R)
  obtain ⟨A, C, D, E, P, hP1, hP2, hP3⟩ :=
    updateBulletsFrom_spec M g.Bullets.length g r (le_refl _)
  obtain ⟨e1, e2⟩ := E hu.2
  have hlen : (lifespans g).length = g.Bullets.length := by simp [lifespans]
  have hdrop : (lifespans g).drop g.Bullets.length = [] := by
    rw [← hlen]
    exact List.drop_length _
  have htake : (lifespans g).take g.Bullets.length = lifespans g := by
    rw [← hlen]
    exact List.take_length _
  rw [hdrop, List.append_nil] at hP1
  rw [htake] at hP2
  have hposL : ∀ x ∈ lifespans g, 0 < x := by
    intro x hx
    obtain ⟨b, hb, hbx⟩ := List.mem_map.mp hx
    rw [← hbx]
    exact hpos b hb
  have h60 : g.Bullets.length ≤ 60 := by
    rw [← hlen]
    exact AgeOK.length_le ha hposL
  have hage : AgeOK 1 (lifespans (updateBulletsFrom M g.Bullets.length g r).1) := by
    rw [hP1]
    have := AgeOK.sublist hP2 (AgeOK.map_sub ha)
    simpa using this
  have hpos2 : ∀ b ∈ (updateBulletsFrom M g.Bullets.length g r).1.Bullets, 0 < b.Lifespan := by
    intro b hb
    apply hP3
    rw [← hP1]
    exact List.mem_map.mpr ⟨b, hb, rfl⟩
  have hU : UFOsOK (updateBulletsFrom M g.Bullets.length g r).1 :=
    ⟨le_trans D.1 hu.1, fun u h => hu.2 u (D.2 u h)⟩
  refine ⟨A, C, hU, e1, ?_, hpos2, hage, ?_, ?_⟩
  · have h1 : (0 : Int) ≤ ((updateBulletsFrom M g.Bullets.length g r).1.UFOs.length : Int) :=
      Int.natCast_nonneg _
    have h2 : (g.UFOs.length : Int) ≤ 1 := by exact_mod_cast hu.1
    have h3 : (g.Bullets.length : Int) ≤ 60 := by exact_mod_cast h60
    linarith
  · intro s hs
    have hs2 : g.Ship = some s := by
      rw [A] at hs
      exact hs
    rw [A]
    exact hm.1 s hs2
  · intro hs
    have hs2 : g.Ship = none := by
      rw [A] at hs
      exact hs
    rcases hm.2 hs2 with ⟨h1, h2⟩ | ⟨h1, h2, h3⟩
    · left
      refine ⟨by rw [A]; exact h1, ?_⟩
      intro b hb
      have hb1 : b.Lifespan ∈ P := by
        rw [← hP1]
        exact List.mem_map.mpr ⟨b, hb, rfl⟩
      obtain ⟨x, hx, hxb⟩ := List.mem_map.mp (hP2.subset hb1)
      obtain ⟨b0, hb0, hb0x⟩ := List.mem_map.mp hx
      have := h2 b0 hb0
      have e : (updateBulletsFrom M g.Bullets.length g r).1.RespawnTimer = g.RespawnTimer := by
        rw [A]
      rw [e, ← hxb, ← hb0x]
      linarith
    · right
      have e : (updateBulletsFrom M g.Bullets.length g r).1 = g := by
        rw [h3]
        rfl
      rw [e]
      exact ⟨h1, h2, hsc⟩

/-- A late frame keeps the late agreement of ship, lives and countdown. -/
theorem ShipLate.frame {g1 g2 : Game R} (hf : LateFrame g1 g2) (h : ShipLate g1) :
    ShipLate g2 := by
  have ht := tick_pos (R := R)
  obtain ⟨ha, h1, h2⟩ := h
  have hl : lifespans g2 = lifespans g1 := by simp [lifespans, hf.bullets]
  refine ⟨by rw [hl]; exact ha, ?_, ?_⟩
  · intro s hs
    rcases hf.ship with ⟨a, b, c⟩ | ⟨s1, _, _, _, d, _, _⟩
    · rw [b, c]
      exact h1 s (a ▸ hs)
    · rw [d] at hs
      exact absurd hs (by simp)
  · intro hs
    rcases hf.ship with ⟨a, b, c⟩ | ⟨s1, _, _, _, d, e, f⟩
    · rw [b, c, hf.bullets, hf.state, hf.score, hf.next]
      exact h2 (a ▸ hs)
    · left
      rw [f, hf.bullets]
      refine ⟨by norm_num, fun b hb => ?_⟩
      have := AgeOK.le ha b.Lifespan (List.mem_map.mpr ⟨b, hb, rfl⟩)
      linarith

/-- The extra-life check keeps the late agreement of ship, lives and countdown and leaves
the score below the next threshold, when the score is less than 10000 above it. -/
theorem grantExtraLife_inv (g : Game R) (h : ShipLate g)
    (hsc : g.Score < g.NextExtraLifeScore + 10000) :
    grantExtraLife g
      = { g with
          Lives := (grantExtraLife g).Lives
          NextExtraLifeScore := (grantExtraLife g).NextExtraLifeScore } ∧
    ShipLate (grantExtraLife g) ∧
    (grantExtraLife g).Score < (grantExtraLife g).NextExtraLifeScore := by
  by_cases hc : g.Score ≥ g.NextExtraLifeScore
  · simp only [grantExtraLife, hc, if_true]
    refine ⟨trivial, ⟨h.1, ?_, ?_⟩, hsc⟩
    · intro s hs
      obtain ⟨a, b⟩ := h.2.1 s hs
      exact ⟨a, by show 0 < g.Lives + 1; omega⟩
    · intro hs
      rcases h.2.2 hs with a | ⟨_, _, c⟩
      · exact Or.inl a
      · exact absurd c (not_lt.mpr hc)
  · simp only [grantExtraLife, hc, if_false]
    exact ⟨trivial, h, not_le.mp hc⟩

/-- The first half of a step taken outside the GameOver state, from a session that
satisfies the invariant: the radii and the UFOs keep their invariants, the score does
not fall and rises by at most 7000, the threshold is unchanged, the bullets left have a
positive lifespan, and ship, lives and countdown agree in the late form. -/
theorem stepToAsteroids_inv (M : MathOps R) (g : Game R) (inp : Input) (now : Int)
    (r : Rng R) (hI : Inv g) (h1 : g.GameState ≠ 1) :
    RadiiOK (stepToAsteroids M g inp now r).1 ∧
    UFOsOK (stepToAsteroids M g inp now r).1 ∧
    g.Score ≤ (stepToAsteroids M g inp now r).1.Score ∧
    (stepToAsteroids M g inp now r).1.Score ≤ g.Score + 7000 ∧
    (stepToAsteroids M g inp now r).1.NextExtraLifeScore = g.NextExtraLifeScore ∧
    (∀ b ∈ (stepToAsteroids M g inp now r).1.Bullets, 0 < b.Lifespan) ∧
    ShipLate (stepToAsteroids M g inp now r).1 := by
  obtain ⟨_, i2, i3, i4, i5, i6, i7⟩ := hI
  have key : ∀ (g1 g2 g3 : Game R) (s4 s5 : Game R × Rng R),
      g1 = updateParticlesFrom g.Particles.length g → g2 = respawnStep M g1 →
      g3 = updateShip M g2 inp now → s4 = updateBulletsFrom M g3.Bullets.length g3 r →
      s5 = updateAsteroidsFrom M s4.1.Asteroids.length s4.1 s4.2 →
      RadiiOK s5.1 ∧ UFOsOK s5.1 ∧ g.Score ≤ s5.1.Score ∧ s5.1.Score ≤ g.Score + 7000 ∧
      s5.1.NextExtraLifeScore = g.NextExtraLifeScore ∧
      (∀ b ∈ s5.1.Bullets, 0 < b.Lifespan) ∧ ShipLate s5.1 := by
    intro g1 g2 g3 s4 s5 e1 e2 e3 e4 e5
    have f1 := updateParticlesFrom_frame g.Particles.length g
    rw [← e1] at f1
    have a1 : ShipOK g1 := by rw [f1]; exact i7
    have b1 : ∀ b ∈ g1.Bullets, 0 < b.Lifespan := by rw [f1]; exact i6
    have c1 : g1.GameState ≠ 1 := by rw [f1]; exact h1
    obtain ⟨f2, m2⟩ := respawnStep_inv M g1 a1 b1 c1
    rw [← e2] at f2 m2
    have a2 : AgeOK 1 (lifespans g2) := by rw [f2, f1]; exact i5
    have b2 : ∀ b ∈ g2.Bullets, 0 < b.Lifespan := by rw [f2]; exact b1
    obtain ⟨m3, a3, b3⟩ := updateShip_inv M g2 inp now m2 a2 b2
    obtain ⟨f3, _⟩ := updateShip_spec M g2 inp now
    rw [← e3] at m3 a3 b3 f3
    have u3 : UFOsOK g3 := by rw [f3, f2, f1]; exact i3
    have r3 : RadiiOK g3 := by rw [f3, f2, f1]; exact i4
    have sc3 : g3.Score = g.Score := by rw [f3, f2, f1]
    have n3 : g3.NextExtraLifeScore = g.NextExtraLifeScore := by rw [f3, f2, f1]
    have lt3 : g3.Score < g3.NextExtraLifeScore := by rw [sc3, n3]; exact i2
    obtain ⟨f4, r4, u4, lo4, hi4, b4, l4⟩ := updateBullets_inv M g3 r m3 a3 b3 u3 lt3
    rw [← e4] at f4 r4 u4 lo4 hi4 b4 l4
    have n4 : s4.1.NextExtraLifeScore = g.NextExtraLifeScore := by rw [f4]; exact n3
    obtain ⟨f5, u5, _, _, r5⟩ := updateAsteroidsFrom_spec M s4.1.Asteroids.length s4.1 s4.2
    rw [← e5] at f5 u5 r5
    refine ⟨r5 (r4 r3), ?_, ?_, ?_, ?_, ?_, ShipLate.frame f5 l4⟩
    · unfold UFOsOK
      rw [u5]
      exact u4
    · rw [f5.score, ← sc3]
      exact lo4
    · rw [f5.score, ← sc3]
      exact hi4
    · rw [f5.next]
      exact n4
    · rw [f5.bullets]
      exact b4
  exact key _ _ _ _ _ rfl rfl rfl rfl rfl

/-- The second half of a step: the late agreement of ship, lives and countdown and the
invariants of the UFOs and the radii are kept; score, threshold, bullets and game state
are unchanged. -/
theorem stepFromUFOs_inv (M : MathOps R) (g : Game R) (now : Int) (r : Rng R)
    (hl : ShipLate g) (hu : UFOsOK g) (hr : RadiiOK g) :
    ShipLate (stepFromUFOs M g now r).1 ∧ UFOsOK (stepFromUFOs M g now r).1 ∧
    RadiiOK (stepFromUFOs M g now r).1 ∧
    (stepFromUFOs M g now r).1.Score = g.Score ∧
    (stepFromUFOs M g now r).1.NextExtraLifeScore = g.NextExtraLifeScore ∧
    (stepFromUFOs M g now r).1.Bullets = g.Bullets ∧
    (stepFromUFOs M g now r).1.GameState = g.GameState := by
  have key : ∀ (s1 s2 s3 s4 : Game R × Rng R),
      s1 = spawnUFO g now r → s2 = updateUFOsFrom M now s1.1.UFOs.length s1.1 s1.2 →
      s3 = updateUFOBulletsFrom M s2.1.UFOBullets.length s2.1 s2.2 →
      s4 = levelProgression M s3.1 s3.2 →
      ShipLate s4.1 ∧ UFOsOK s4.1 ∧ RadiiOK s4.1 ∧ s4.1.Score = g.Score ∧
      s4.1.NextExtraLifeScore = g.NextExtraLifeScore ∧ s4.1.Bullets = g.Bullets ∧
      s4.1.GameState = g.GameState := by
    intro s1 s2 s3 s4 e1 e2 e3 e4
    have p1 : ShipLate s1.1 ∧ UFOsOK s1.1 ∧ RadiiOK s1.1 ∧ s1.1.Score = g.Score ∧
        s1.1.NextExtraLifeScore = g.NextExtraLifeScore ∧ s1.1.Bullets = g.Bullets ∧
        s1.1.GameState = g.GameState := by
      rcases spawnUFO_spec g now r with h | ⟨_, _, u, h, hv⟩
      · rw [e1, h]
        exact ⟨hl, hu, hr, rfl, rfl, rfl, rfl⟩
      · rw [e1, h]
        refine ⟨hl, ⟨le_refl _, ?_⟩, hr, rfl, rfl, rfl, rfl⟩
        intro x hx
        have hx2 : x = u := List.mem_singleton.mp hx
        rw [hx2]
        rcases hv with hv | hv <;> rw [hv] <;> constructor <;> norm_num
    obtain ⟨l1, u1, r1, sc1, n1, b1, st1⟩ := p1
    obtain ⟨f2, a2, len2, val2⟩ := updateUFOsFrom_spec M now s1.1.UFOs.length s1.1 s1.2
    rw [← e2] at f2 a2 len2 val2
    obtain ⟨f3, a3, u3⟩ := updateUFOBulletsFrom_spec M s2.1.UFOBullets.length s2.1 s2.2
    rw [← e3] at f3 a3 u3
    have l3 : ShipLate s3.1 := ShipLate.frame f3 (ShipLate.frame f2 l1)
    have uu3 : UFOsOK s3.1 := by
      unfold UFOsOK
      rw [u3]
      refine ⟨le_trans len2 u1.1, fun x hx => ?_⟩
      obtain ⟨y, hy, e⟩ := val2 x hx
      rw [e]
      exact u1.2 y hy
    have r3 : RadiiOK s3.1 := by
      unfold RadiiOK
      rw [a3, a2]
      exact r1
    have sc3 : s3.1.Score = g.Score := by rw [f3.score, f2.score, sc1]
    have n3 : s3.1.NextExtraLifeScore = g.NextExtraLifeScore := by rw [f3.next, f2.next, n1]
    have b3 : s3.1.Bullets = g.Bullets := by rw [f3.bullets, f2.bullets, b1]
    have st3 : s3.1.GameState = g.GameState := by rw [f3.state, f2.state, st1]
    obtain ⟨lv1, lv2⟩ := levelProgression_spec M s3.1 s3.2
    by_cases hc : s3.1.Asteroids.length = 0 ∧ s3.1.UFOs.length = 0
    · obtain ⟨new, e, _, hn⟩ := lv1 hc
      rw [e4, e]
      refine ⟨l3, uu3, ?_, sc3, n3, b3, st3⟩
      intro a ha
      obtain ⟨h1, h2⟩ := hn a ha
      rw [h2, h1]
    · rw [e4, lv2 hc]
      exact ⟨l3, uu3, r3, sc3, n3, b3, st3⟩
  exact key _ _ _ _ rfl rfl rfl rfl

/-- A step keeps the invariant. -/
theorem Inv_Update (M : MathOps R) (g : Game R) (inp : Input) (now : Int) (r : Rng R)
    (hI : Inv g) : Inv (g.Update M inp now r).1 := by
  unfold Game.Update
  by_cases h1 : g.GameState = 1
  · rw [if_pos h1]
    by_cases h2 : inp.enter = true
    · rw [if_pos h2]
      exact Inv_NewGame M now r
    · rw [if_neg h2]
      exact hI
  · rw [if_neg h1]
    obtain ⟨r5, u5, lo5, hi5, n5, b5, l5⟩ := stepToAsteroids_inv M g inp now r hI h1
    obtain ⟨i1, i2, _⟩ := hI
    have hlt : (stepToAsteroids M g inp now r).1.Score
        < (stepToAsteroids M g inp now r).1.NextExtraLifeScore + 10000 := by
      rw [n5]
      linarith
    obtain ⟨f6, l6, lt6⟩ := grantExtraLife_inv _ l5 hlt
    have u6 : UFOsOK (grantExtraLife (stepToAsteroids M g inp now r).1) := by
      rw [f6]
      exact u5
    have r6 : RadiiOK (grantExtraLife (stepToAsteroids M g inp now r).1) := by
      rw [f6]
      exact r5
    have sc6 : (grantExtraLife (stepToAsteroids M g inp now r).1).Score
        = (stepToAsteroids M g inp now r).1.Score := by
      rw [f6]
    have b6 : (grantExtraLife (stepToAsteroids M g inp now r).1).Bullets
        = (stepToAsteroids M g inp now r).1.Bullets := by
      rw [f6]
    obtain ⟨l7, u7, r7, sc7, n7, b7, _⟩ :=
      stepFromUFOs_inv M _ now (stepToAsteroids M g inp now r).2 l6 u6 r6
    unfold playStep
    simp only
    refine ⟨?_, ?_, u7, r7, l7.1, ?_, l7.2.1, ?_⟩
    · rw [sc7, sc6]
      linarith
    · rw [sc7, n7]
      exact lt6
    · rw [b7, b6]
      exact b5
    · intro hs
      rcases l7.2.2 hs with a | ⟨a, b, _⟩
      · exact Or.inl a
      · exact Or.inr ⟨a, b⟩

/-- Every session a run can reach satisfies the invariant. -/
theorem Inv_reachable (M : MathOps R) (g : Game R) (h : Reachable M g) : Inv g := by
  induction h with
  | init now r => exact Inv_NewGame M now r
  | step g inp now r _ ih => exact Inv_Update M g inp now r ih

/-! ### Frames of the two halves of a step -/

/-- The respawn phase changes only the countdown, the ship and the game state. -/
theorem respawnStep_frame (M : MathOps R) (g : Game R) :
    respawnStep M g
      = { g with
          RespawnTimer := (respawnStep M g).RespawnTimer
          Ship := (respawnStep M g).Ship
          GameState := (respawnStep M g).GameState } := by
  by_cases h1 : g.RespawnTimer > 0
  · by_cases h2 : g.RespawnTimer - tick ≤ 0
    · by_cases h3 : g.Lives > 0
      · simp [respawnStep, h1, h2, h3]
      · simp [respawnStep, h1, h2, h3]
    · simp [respawnStep, h1, h2]
  · simp [respawnStep, h1]

/-- The extra-life check changes only the lives and the threshold. -/
theorem grantExtraLife_frame (g : Game R) :
    grantExtraLife g
      = { g with
          Lives := (grantExtraLife g).Lives
          NextExtraLifeScore := (grantExtraLife g).NextExtraLifeScore } := by
  by_cases h1 : g.Score ≥ g.NextExtraLifeScore
  · simp [grantExtraLife, h1]
  · simp [grantExtraLife, h1]

/-- With no asteroid and no UFO, an iteration of the bullet loop leaves both collections
empty and the score unchanged. -/
theorem updateBullet_empty (M : MathOps R) (i : Nat) (b0 : Bullet R) (g : Game R) (r : Rng R)
    (hA : g.Asteroids = []) (hU : g.UFOs = []) :
    (updateBullet M i b0 g r).1.Asteroids = [] ∧ (updateBullet M i b0 g r).1.UFOs = [] ∧
    (updateBullet M i b0 g r).1.Score = g.Score := by
  have hA0 : g.Asteroids.length = 0 := by rw [hA]; rfl
  have hU0 : g.UFOs.length = 0 := by rw [hU]; rfl
  unfold updateBullet
  simp only [hA0, hU0, hitAsteroidFrom, hitUFOFrom, if_true]
  split_ifs <;> exact ⟨hA, hU, rfl⟩

/-- With no asteroid and no UFO, the bullet loop leaves both collections empty and the
score unchanged. -/
theorem updateBulletsFrom_empty (M : MathOps R) :
    ∀ (i : Nat) (g : Game R) (r : Rng R), g.Asteroids = [] → g.UFOs = [] →
      (updateBulletsFrom M i g r).1.Asteroids = [] ∧ (updateBulletsFrom M i g r).1.UFOs = [] ∧
      (updateBulletsFrom M i g r).1.Score = g.Score := by
  intro i
  induction i with
  | zero => intro g r hA hU; exact ⟨hA, hU, rfl⟩
  | succ i ih =>
    intro g r hA hU
    simp only [updateBulletsFrom]
    cases hb : g.Bullets[i]? with
    | none => exact ⟨hA, hU, rfl⟩
    | some b0 =>
      obtain ⟨a, u, s⟩ := updateBullet_empty M i b0 g r hA hU
      obtain ⟨a2, u2, s2⟩ := ih _ (updateBullet M i b0 g r).2 a u
      exact ⟨a2, u2, s2.trans s⟩

/-- The bullet loop changes only bullets, asteroids, UFOs and score, adds no UFO and
keeps the radius rule, whatever the session. -/
theorem updateBullets_frame (M : MathOps R) (g : Game R) (r : Rng R) :
    (updateBulletsFrom M g.Bullets.length g r).1
      = { g with
          Bullets := (updateBulletsFrom M g.Bullets.length g r).1.Bullets
          Asteroids := (updateBulletsFrom M g.Bullets.length g r).1.Asteroids
          UFOs := (updateBulletsFrom M g.Bullets.length g r).1.UFOs
          Score := (updateBulletsFrom M g.Bullets.length g r).1.Score } ∧
    (RadiiOK g → RadiiOK (updateBulletsFrom M g.Bullets.length g r).1) ∧
    (updateBulletsFrom M g.Bullets.length g r).1.UFOs.length ≤ g.UFOs.length := by
  obtain ⟨A, C, D, _⟩ := updateBulletsFrom_spec M g.Bullets.length g r (le_refl _)
  exact ⟨A, C, D.1⟩

/-- The first half of a step, whatever the session: threshold, level, UFO bullets, spawn
time stamp and screen are unchanged, the lives change only by the destruction of the
ship, the radius rule is kept and no UFO is added. -/
theorem stepToAsteroids_frame (M : MathOps R) (g : Game R) (inp : Input) (now : Int)
    (r : Rng R) :
    (stepToAsteroids M g inp now r).1.NextExtraLifeScore = g.NextExtraLifeScore ∧
    (stepToAsteroids M g inp now r).1.Level = g.Level ∧
    (stepToAsteroids M g inp now r).1.UFOBullets = g.UFOBullets ∧
    (stepToAsteroids M g inp now r).1.LastUFOSpawn = g.LastUFOSpawn ∧
    (stepToAsteroids M g inp now r).1.ScreenWidth = g.ScreenWidth ∧
    (stepToAsteroids M g inp now r).1.ScreenHeight = g.ScreenHeight ∧
    (RadiiOK g → RadiiOK (stepToAsteroids M g inp now r).1) ∧
    (stepToAsteroids M g inp now r).1.UFOs.length ≤ g.UFOs.length ∧
    (g.Asteroids = [] → g.UFOs = [] →
      (stepToAsteroids M g inp now r).1.Asteroids = [] ∧
      (stepToAsteroids M g inp now r).1.UFOs = [] ∧
      (stepToAsteroids M g inp now r).1.Score = g.Score) := by
  have key : ∀ (g1 g2 g3 : Game R) (s4 s5 : Game R × Rng R),
      g1 = updateParticlesFrom g.Particles.length g → g2 = respawnStep M g1 →
      g3 = updateShip M g2 inp now → s4 = updateBulletsFrom M g3.Bullets.length g3 r →
      s5 = updateAsteroidsFrom M s4.1.Asteroids.length s4.1 s4.2 →
      s5.1.NextExtraLifeScore = g.NextExtraLifeScore ∧ s5.1.Level = g.Level ∧
      s5.1.UFOBullets = g.UFOBullets ∧ s5.1.LastUFOSpawn = g.LastUFOSpawn ∧
      s5.1.ScreenWidth = g.ScreenWidth ∧ s5.1.ScreenHeight = g.ScreenHeight ∧
      (RadiiOK g → RadiiOK s5.1) ∧ s5.1.UFOs.length ≤ g.UFOs.length ∧
      (g.Asteroids = [] → g.UFOs = [] →
        s5.1.Asteroids = [] ∧ s5.1.UFOs = [] ∧ s5.1.Score = g.Score) := by
    intro g1 g2 g3 s4 s5 e1 e2 e3 e4 e5
    have f1 := updateParticlesFrom_frame g.Particles.length g
    rw [← e1] at f1
    have f2 := respawnStep_frame M g1
    rw [← e2] at f2
    obtain ⟨f3, _⟩ := updateShip_spec M g2 inp now
    rw [← e3] at f3
    obtain ⟨f4, r4, u4⟩ := updateBullets_frame M g3 r
    rw [← e4] at f4 r4 u4
    obtain ⟨f5, u5, ub5, len5, r5⟩ := updateAsteroidsFrom_spec M s4.1.Asteroids.length s4.1 s4.2
    rw [← e5] at f5 u5 ub5 len5 r5
    have h3 : ∀ {α : Type} (p : Game R → α),
        (∀ (x : Game R) (ps : List (Particle R)) (t : R) (sh : Option (Ship R)) (st l : Int)
          (bs : List (Bullet R)),
          p { x with Particles := ps, RespawnTimer := t, Ship := sh, GameState := st,
                     Bullets := bs, LastShot := l } = p x) → p g3 = p g := by
      intro α p hp
      rw [f3, f2, f1]
      exact hp g _ _ _ _ _ _
    refine ⟨?_, ?_, ?_, ?_, ?_, ?_, ?_, ?_, ?_⟩
    · rw [f5.next, f4]
      exact h3 (fun x => x.NextExtraLifeScore) (fun _ _ _ _ _ _ _ => rfl)
    · rw [f5.level, f4]
      exact h3 (fun x => x.Level) (fun _ _ _ _ _ _ _ => rfl)
    · rw [ub5, f4]
      exact h3 (fun x => x.UFOBullets) (fun _ _ _ _ _ _ _ => rfl)
    · rw [f5.lastSpawn, f4]
      exact h3 (fun x => x.LastUFOSpawn) (fun _ _ _ _ _ _ _ => rfl)
    · rw [f5.width, f4]
      exact h3 (fun x => x.ScreenWidth) (fun _ _ _ _ _ _ _ => rfl)
    · rw [f5.height, f4]
      exact h3 (fun x => x.ScreenHeight) (fun _ _ _ _ _ _ _ => rfl)
    · intro h
      have hA : g3.Asteroids = g.Asteroids :=
        h3 (fun x => x.Asteroids) (fun _ _ _ _ _ _ _ => rfl)
      exact r5 (r4 (fun a ha => h a (hA ▸ ha)))
    · rw [u5]
      have hU : g3.UFOs = g.UFOs := h3 (fun x => x.UFOs) (fun _ _ _ _ _ _ _ => rfl)
      rw [← hU]
      exact u4
    · intro hA hU
      have hA3 : g3.Asteroids = [] :=
        (h3 (fun x => x.Asteroids) (fun _ _ _ _ _ _ _ => rfl)).trans hA
      have hU3 : g3.UFOs = [] := (h3 (fun x => x.UFOs) (fun _ _ _ _ _ _ _ => rfl)).trans hU
      have hS3 : g3.Score = g.Score := h3 (fun x => x.Score) (fun _ _ _ _ _ _ _ => rfl)
      obtain ⟨a4, b4, c4⟩ := updateBulletsFrom_empty M g3.Bullets.length g3 r hA3 hU3
      rw [← e4] at a4 b4 c4
      refine ⟨?_, ?_, ?_⟩
      · apply List.length_eq_zero.mp
        rw [len5, a4]
        rfl
      · rw [u5]
        exact b4
      · rw [f5.score, c4, hS3]
  exact key _ _ _ _ _ rfl rfl rfl rfl rfl

/-- The second half of a step, phase by phase: the UFO spawn leaves `s1`, the UFO loop and
the UFO-bullet loop leave `s3`, and level progression runs on `s3`. -/
theorem stepFromUFOs_spec (M : MathOps R) (g : Game R) (now : Int) (r : Rng R) :
    ∃ (s1 s3 : Game R) (r3 : Rng R),
      (s1 = g ∨
        (g.UFOs = [] ∧ now - g.LastUFOSpawn > UFOSpawnInterval ∧ ∃ u : UFO R,
          s1 = { g with UFOs := [u], LastUFOSpawn := now } ∧
          (u.ScoreValue = 200 ∨ u.ScoreValue = 1000))) ∧
      LateFrame s1 s3 ∧ s3.Asteroids = s1.Asteroids ∧ s3.UFOs.length ≤ s1.UFOs.length ∧
      stepFromUFOs M g now r = levelProgression M s3 r3 := by
  obtain ⟨f2, a2, len2, _⟩ := updateUFOsFrom_spec M now (spawnUFO g now r).1.UFOs.length
    (spawnUFO g now r).1 (spawnUFO g now r).2
  obtain ⟨f3, a3, u3⟩ := updateUFOBulletsFrom_spec M
    (updateUFOsFrom M now (spawnUFO g now r).1.UFOs.length (spawnUFO g now r).1
      (spawnUFO g now r).2).1.UFOBullets.length
    (updateUFOsFrom M now (spawnUFO g now r).1.UFOs.length (spawnUFO g now r).1
      (spawnUFO g now r).2).1
    (updateUFOsFrom M now (spawnUFO g now r).1.UFOs.length (spawnUFO g now r).1
      (spawnUFO g now r).2).2
  refine ⟨(spawnUFO g now r).1, _, _, ?_, f2.trans f3, a3.trans a2, ?_, rfl⟩
  · rcases spawnUFO_spec g now r with h | ⟨h1, h2, u, h3, h4⟩
    · exact Or.inl h
    · exact Or.inr ⟨h1, h2, u, h3, h4⟩
  · rw [u3]
    exact len2

/-- The second half of a step, whatever the session: score, threshold, bullets, game
state and screen are unchanged; ship, lives and countdown are unchanged or a vulnerable
ship is destroyed; the radius rule is kept; the level is unchanged or one higher. -/
theorem stepFromUFOs_frame (M : MathOps R) (g : Game R) (now : Int) (r : Rng R) :
    (stepFromUFOs M g now r).1.Score = g.Score ∧
    (stepFromUFOs M g now r).1.NextExtraLifeScore = g.NextExtraLifeScore ∧
    (stepFromUFOs M g now r).1.Bullets = g.Bullets ∧
    (stepFromUFOs M g now r).1.GameState = g.GameState ∧
    (stepFromUFOs M g now r).1.ScreenWidth = g.ScreenWidth ∧
    (stepFromUFOs M g now r).1.ScreenHeight = g.ScreenHeight ∧
    (((stepFromUFOs M g now r).1.Ship = g.Ship ∧ (stepFromUFOs M g now r).1.Lives = g.Lives ∧
        (stepFromUFOs M g now r).1.RespawnTimer = g.RespawnTimer) ∨
      (∃ s, g.Ship = some s ∧ s.IsInvincible = false ∧ g.GameState = 0 ∧
        (stepFromUFOs M g now r).1.Ship = none ∧
        (stepFromUFOs M g now r).1.Lives = g.Lives - 1 ∧
        (stepFromUFOs M g now r).1.RespawnTimer = 2)) ∧
    (RadiiOK g → RadiiOK (stepFromUFOs M g now r).1) ∧
    ((stepFromUFOs M g now r).1.Level = g.Level ∨
      (stepFromUFOs M g now r).1.Level = g.Level + 1) := by
  obtain ⟨s1, s3, r3, h1, f, a, _, e⟩ := stepFromUFOs_spec M g now r
  have hg : LateFrame { g with LastUFOSpawn := s3.LastUFOSpawn } s3 ∧
      s3.Asteroids = g.Asteroids := by
    rcases h1 with h1 | ⟨_, _, u, h1, _⟩
    · rw [h1] at f a
      exact ⟨⟨f.score, f.next, f.bullets, f.state, f.level, f.width, f.height, f.lastShot,
        rfl, f.ship⟩, a⟩
    · rw [h1] at f a
      exact ⟨⟨f.score, f.next, f.bullets, f.state, f.level, f.width, f.height, f.lastShot,
        rfl, f.ship⟩, a⟩
  obtain ⟨f2, a2⟩ := hg
  have hlp : ∀ (p : Game R → Prop), p s3 →
      (∀ (lv : Int) (ub : List (UFOBullet R)) (new : List (Asteroid R)),
        (∀ x ∈ new, x.Size = 3 ∧ x.Radius = 15 * ((3 : Int) : R)) →
        p { s3 with Level := lv, UFOBullets := ub, Asteroids := new }) →
      p (stepFromUFOs M g now r).1 := by
    intro p h0 hp
    obtain ⟨lv1, lv2⟩ := levelProgression_spec M s3 r3
    by_cases hc : s3.Asteroids.length = 0 ∧ s3.UFOs.length = 0
    · obtain ⟨new, e2, _, hn⟩ := lv1 hc
      rw [e, e2]
      exact hp _ _ _ hn
    · rw [e, lv2 hc]
      exact h0
  refine ⟨?_, ?_, ?_, ?_, ?_, ?_, ?_, ?_, ?_⟩
  · exact hlp (fun x => x.Score = g.Score) f2.score (fun _ _ _ _ => f2.score)
  · exact hlp (fun x => x.NextExtraLifeScore = g.NextExtraLifeScore) f2.next
      (fun _ _ _ _ => f2.next)
  · exact hlp (fun x => x.Bullets = g.Bullets) f2.bullets (fun _ _ _ _ => f2.bullets)
  · exact hlp (fun x => x.GameState = g.GameState) f2.state (fun _ _ _ _ => f2.state)
  · exact hlp (fun x => x.ScreenWidth = g.ScreenWidth) f2.width (fun _ _ _ _ => f2.width)
  · exact hlp (fun x => x.ScreenHeight = g.ScreenHeight) f2.height (fun _ _ _ _ => f2.height)
  · exact hlp (fun x => (x.Ship = g.Ship ∧ x.Lives = g.Lives ∧ x.RespawnTimer = g.RespawnTimer) ∨
      (∃ s, g.Ship = some s ∧ s.IsInvincible = false ∧ g.GameState = 0 ∧
        x.Ship = none ∧ x.Lives = g.Lives - 1 ∧ x.RespawnTimer = 2)) f2.ship
      (fun _ _ _ _ => f2.ship)
  · intro hr
    refine hlp (fun x => RadiiOK x) ?_ ?_
    · intro x hx
      exact hr x (a2 ▸ hx)
    · intro _ _ new hn x hx
      obtain ⟨h1, h2⟩ := hn x hx
      rw [h2, h1]
  · obtain ⟨lv1, lv2⟩ := levelProgression_spec M s3 r3
    by_cases hc : s3.Asteroids.length = 0 ∧ s3.UFOs.length = 0
    · obtain ⟨new, e2, _, _⟩ := lv1 hc
      right
      rw [e, e2]
      show s3.Level + 1 = g.Level + 1
      rw [f2.level]
    · left
      rw [e, lv2 hc]
      exact f2.level

/-- The second half of a step that starts with no asteroid and no UFO and whose clock is
not past the spawn interval: the level rises by one, the UFO bullets are cleared, and the
asteroids are a fresh wave of tier 3 whose number is set by the score and the new level. -/
theorem stepFromUFOs_levelUp (M : MathOps R) (g : Game R) (now : Int) (r : Rng R)
    (hA : g.Asteroids = []) (hU : g.UFOs = [])
    (hclock : ¬ now - g.LastUFOSpawn > UFOSpawnInterval) :
    (stepFromUFOs M g now r).1.Level = g.Level + 1 ∧
    (stepFromUFOs M g now r).1.UFOBullets = [] ∧
    (∀ a ∈ (stepFromUFOs M g now r).1.Asteroids, a.Size = 3) ∧
    ((stepFromUFOs M g now r).1.Asteroids.length : Int) = max 0
      (if g.Score ≥ 40000 ∧ g.Score < 60000 then 7
       else if g.Score ≥ 60000 then 8 else g.Level + 1 + 3) := by
  obtain ⟨s1, s3, r3, h1, f, a, len, e⟩ := stepFromUFOs_spec M g now r
  have hs1 : s1 = g := by
    rcases h1 with h1 | ⟨_, h2, _⟩
    · exact h1
    · exact absurd h2 hclock
  rw [hs1] at f a len
  have hc : s3.Asteroids.length = 0 ∧ s3.UFOs.length = 0 := by
    constructor
    · rw [a, hA]
      rfl
    · rw [hU] at len
      exact Nat.le_zero.mp len
  obtain ⟨new, e2, hl, hn⟩ := (levelProgression_spec M s3 r3).1 hc
  rw [e, e2]
  refine ⟨?_, rfl, fun x hx => (hn x hx).1, ?_⟩
  · show s3.Level + 1 = g.Level + 1
    rw [f.level]
  · show (new.length : Int) = _
    rw [hl, f.score, f.level]

/-! ### Score, ship, UFOs and radii along a run -/

/-- The score after a step outside the GameOver state is the score after the bullet
phase: at least the old score and at most 7000 above it. -/
theorem playStep_score (M : MathOps R) (g : Game R) (inp : Input) (now : Int) (r : Rng R)
    (hI : Inv g) (h1 : g.GameState ≠ 1) :
    g.Score ≤ (playStep M g inp now r).1.Score ∧
    (playStep M g inp now r).1.Score ≤ g.Score + 7000 := by
  obtain ⟨_, _, lo, hi, _⟩ := stepToAsteroids_inv M g inp now r hI h1
  obtain ⟨sc, _⟩ := stepFromUFOs_frame M (grantExtraLife (stepToAsteroids M g inp now r).1) now
    (stepToAsteroids M g inp now r).2
  have e : (grantExtraLife (stepToAsteroids M g inp now r).1).Score
      = (stepToAsteroids M g inp now r).1.Score := by
    rw [grantExtraLife_frame]
  unfold playStep
  simp only
  rw [sc, e]
  exact ⟨lo, hi⟩

/-- C5. In every session reachable from a new session by Update steps the score is
non-negative, and an Update step that is not a game-over restart, with any key state,
clock value and random source, does not lower the score. -/
theorem score_nonneg_nondecreasing (M : MathOps R) (g : Game R) (h : Reachable M g)
    (inp : Input) (now : Int) (r : Rng R)
    (hnr : ¬ (g.GameState = 1 ∧ inp.enter = true)) :
    0 ≤ g.Score ∧ g.Score ≤ (g.Update M inp now r).1.Score := by
  have hI := Inv_reachable M g h
  refine ⟨hI.1, ?_⟩
  unfold Game.Update
  by_cases h1 : g.GameState = 1
  · have h2 : ¬ inp.enter = true := fun h2 => hnr ⟨h1, h2⟩
    rw [if_pos h1, if_neg h2]
  · rw [if_neg h1]
    exact (playStep_score M g inp now r hI h1).1

/-- Witness of C5: the new session `startGame` and a step with no key held. -/
theorem score_nonneg_nondecreasing_witness :
    Reachable ratMath startGame ∧ ¬ (startGame.GameState = 1 ∧ idle.enter = true) ∧
    0 ≤ startGame.Score ∧
    startGame.Score ≤ (startGame.Update ratMath idle 0 (zeroRng ℚ)).1.Score :=
  ⟨Reachable.init 0 (zeroRng ℚ), by decide,
    score_nonneg_nondecreasing ratMath startGame (Reachable.init 0 (zeroRng ℚ)) idle 0
      (zeroRng ℚ) (by decide)⟩

/-- C6. In every session reachable from a new session by Update steps, the ship is
absent if and only if the respawn countdown is running or no life is left. -/
theorem ship_absent_iff (M : MathOps R) (g : Game R) (h : Reachable M g) :
    g.Ship = none ↔ (g.RespawnTimer > 0 ∨ g.Lives ≤ 0) := by
  obtain ⟨_, _, _, _, _, _, hs⟩ := Inv_reachable M g h
  constructor
  · intro hn
    rcases hs.2 hn with ⟨a, _⟩ | ⟨a, _⟩
    · exact Or.inl a
    · exact Or.inr a
  · intro hc
    cases hsh : g.Ship with
    | none => rfl
    | some s =>
      obtain ⟨a, b⟩ := hs.1 s hsh
      rcases hc with hc | hc
      · exact absurd hc (not_lt.mpr a)
      · exact absurd hc (not_le.mpr b)

/-- Witness of C6: the new session `startGame`. -/
theorem ship_absent_iff_witness :
    Reachable ratMath startGame ∧
    (startGame.Ship = none ↔ (startGame.RespawnTimer > 0 ∨ startGame.Lives ≤ 0)) :=
  ⟨Reachable.init 0 (zeroRng ℚ), ship_absent_iff ratMath startGame (Reachable.init 0 (zeroRng ℚ))⟩

/-- The UFO collection after the second half of a step holds at most one more UFO than
before, and no more than before unless it was empty. -/
theorem stepFromUFOs_ufos (M : MathOps R) (g : Game R) (now : Int) (r : Rng R) :
    (stepFromUFOs M g now r).1.UFOs.length ≤ g.UFOs.length + 1 ∧
    (g.UFOs ≠ [] → (stepFromUFOs M g now r).1.UFOs.length ≤ g.UFOs.length) := by
  obtain ⟨s1, s3, r3, h1, _, _, len, e⟩ := stepFromUFOs_spec M g now r
  have h3 : (stepFromUFOs M g now r).1.UFOs = s3.UFOs := by
    obtain ⟨lv1, lv2⟩ := levelProgression_spec M s3 r3
    by_cases hc : s3.Asteroids.length = 0 ∧ s3.UFOs.length = 0
    · obtain ⟨new, e2, _, _⟩ := lv1 hc
      rw [e, e2]
    · rw [e, lv2 hc]
  rw [h3]
  rcases h1 with h1 | ⟨hnil, _, u, h1, _⟩
  · rw [h1] at len
    exact ⟨Nat.le_succ_of_le len, fun _ => len⟩
  · rw [h1] at len
    refine ⟨?_, fun h => absurd hnil h⟩
    rw [hnil]
    exact len

/-- C7. In every session reachable from a new session by Update steps there is at most
one UFO. The spawn check of a step, run on any session `g2`, either leaves the UFO
collection as it is or finds it empty and puts exactly one UFO in it; and a whole step
leaves at most one UFO more than it found. -/
theorem at_most_one_UFO (M : MathOps R) (g : Game R) (h : Reachable M g)
    (g2 : Game R) (inp : Input) (now : Int) (r : Rng R) :
    g.UFOs.length ≤ 1 ∧
    ((spawnUFO g2 now r).1.UFOs = g2.UFOs ∨
      (g2.UFOs = [] ∧ ∃ u : UFO R, (spawnUFO g2 now r).1.UFOs = [u])) ∧
    (g.Update M inp now r).1.UFOs.length ≤ g.UFOs.length + 1 ∧
    (g.Update M inp now r).1.UFOs.length ≤ 1 := by
  have hI := Inv_reachable M g h
  have hI2 := Inv_reachable M _ (Reachable.step g inp now r h)
  refine ⟨hI.2.2.1.1, ?_, ?_, hI2.2.2.1.1⟩
  · rcases spawnUFO_spec g2 now r with h1 | ⟨hnil, _, u, h1, _⟩
    · exact Or.inl (by rw [h1])
    · exact Or.inr ⟨hnil, u, by rw [h1]⟩
  · unfold Game.Update
    by_cases h1 : g.GameState = 1
    · rw [if_pos h1]
      by_cases h2 : inp.enter = true
      · rw [if_pos h2]
        obtain ⟨new, e, _⟩ := NewGame_spec M now r
        rw [e]
        exact Nat.zero_le _
      · rw [if_neg h2]
        exact Nat.le_succ _
    · rw [if_neg h1]
      unfold playStep
      simp only
      obtain ⟨a, _⟩ := stepFromUFOs_ufos M (grantExtraLife (stepToAsteroids M g inp now r).1) now
        (stepToAsteroids M g inp now r).2
      have b := (stepToAsteroids_frame M g inp now r).2.2.2.2.2.2.2.1
      have c : (grantExtraLife (stepToAsteroids M g inp now r).1).UFOs
          = (stepToAsteroids M g inp now r).1.UFOs := by
        rw [grantExtraLife_frame]
      rw [c] at a
      omega

/-- Witness of C7: the new session `startGame`, with the spawn check run on it too. -/
theorem at_most_one_UFO_witness :
    Reachable ratMath startGame ∧
    startGame.UFOs.length ≤ 1 ∧
    ((spawnUFO startGame 0 (zeroRng ℚ)).1.UFOs = startGame.UFOs ∨
      (startGame.UFOs = [] ∧ ∃ u : UFO ℚ, (spawnUFO startGame 0 (zeroRng ℚ)).1.UFOs = [u])) ∧
    (startGame.Update ratMath idle 0 (zeroRng ℚ)).1.UFOs.length ≤ startGame.UFOs.length + 1 ∧
    (startGame.Update ratMath idle 0 (zeroRng ℚ)).1.UFOs.length ≤ 1 :=
  ⟨Reachable.init 0 (zeroRng ℚ),
    at_most_one_UFO ratMath startGame (Reachable.init 0 (zeroRng ℚ)) startGame idle 0
      (zeroRng ℚ)⟩

/-- A step keeps the radius rule, whatever the session. -/
theorem Update_radii (M : MathOps R) (g : Game R) (inp : Input) (now : Int) (r : Rng R)
    (hr : RadiiOK g) : RadiiOK (g.Update M inp now r).1 := by
  unfold Game.Update
  by_cases h1 : g.GameState = 1
  · rw [if_pos h1]
    by_cases h2 : inp.enter = true
    · rw [if_pos h2]
      exact (Inv_NewGame M now r).2.2.2.1
    · rw [if_neg h2]
      exact hr
  · rw [if_neg h1]
    unfold playStep
    simp only
    have a := (stepToAsteroids_frame M g inp now r).2.2.2.2.2.2.1 hr
    have b : RadiiOK (grantExtraLife (stepToAsteroids M g inp now r).1) := by
      rw [grantExtraLife_frame]
      exact a
    exact (stepFromUFOs_frame M _ now (stepToAsteroids M g inp now r).2).2.2.2.2.2.2.2.1 b

/-- C8. In every session reachable from a new session by Update steps, every asteroid has
radius 15 times its tier. The rule is established by `spawnAsteroids` (every asteroid it
appends to a session `g2` obeys it) and preserved by `splitAsteroid` and by `Update`. -/
theorem radius_rule (M : MathOps R) (g : Game R) (h : Reachable M g)
    (g2 : Game R) (count size : Int) (j : Nat) (inp : Input) (now : Int) (r : Rng R) :
    (∀ a ∈ g.Asteroids, a.Radius = 15 * (a.Size : R)) ∧
    (∃ new : List (Asteroid R),
      (g2.spawnAsteroids M count size r).1.Asteroids = g2.Asteroids ++ new ∧
      ∀ a ∈ new, a.Size = size ∧ a.Radius = 15 * (a.Size : R)) ∧
    ((∀ a ∈ g2.Asteroids, a.Radius = 15 * (a.Size : R)) →
      ∀ a ∈ (g2.splitAsteroid M j r).1.Asteroids, a.Radius = 15 * (a.Size : R)) ∧
    ((∀ a ∈ g2.Asteroids, a.Radius = 15 * (a.Size : R)) →
      ∀ a ∈ (g2.Update M inp now r).1.Asteroids, a.Radius = 15 * (a.Size : R)) := by
  refine ⟨(Inv_reachable M g h).2.2.2.1, ?_, (splitAsteroid_frame M g2 j r).2,
    Update_radii M g2 inp now r⟩
  obtain ⟨new, e, _, hn⟩ := spawnAsteroidsLoop_spec M size count.toNat g2 r
  refine ⟨new, ?_, ?_⟩
  · unfold Game.spawnAsteroids
    rw [e]
  · intro a ha
    obtain ⟨h1, h2⟩ := hn a ha
    refine ⟨h1, ?_⟩
    rw [h2, h1]
    push_cast
    ring

/-- Witness of C8: the new session `startGame`, with `spawnAsteroids`, `splitAsteroid` and
`Update` run on it too. -/
theorem radius_rule_witness :
    Reachable ratMath startGame ∧
    (∀ a ∈ startGame.Asteroids, a.Radius = 15 * (a.Size : ℚ)) ∧
    (∃ new : List (Asteroid ℚ),
      (startGame.spawnAsteroids ratMath 2 3 (zeroRng ℚ)).1.Asteroids
        = startGame.Asteroids ++ new ∧
      ∀ a ∈ new, a.Size = 3 ∧ a.Radius = 15 * (a.Size : ℚ)) ∧
    ((∀ a ∈ startGame.Asteroids, a.Radius = 15 * (a.Size : ℚ)) →
      ∀ a ∈ (startGame.splitAsteroid ratMath 0 (zeroRng ℚ)).1.Asteroids,
        a.Radius = 15 * (a.Size : ℚ)) ∧
    ((∀ a ∈ startGame.Asteroids, a.Radius = 15 * (a.Size : ℚ)) →
      ∀ a ∈ (startGame.Update ratMath idle 0 (zeroRng ℚ)).1.Asteroids,
        a.Radius = 15 * (a.Size : ℚ)) :=
  ⟨Reachable.init 0 (zeroRng ℚ),
    radius_rule ratMath startGame (Reachable.init 0 (zeroRng ℚ)) startGame 2 3 0 idle 0
      (zeroRng ℚ)⟩

/-! ### The extra life and level progression -/

/-- C9. In a step taken in the Playing state, the extra-life check runs once, on the
session left by the bullet and asteroid phases: if the score there has reached
`NextExtraLifeScore`, the check raises `Lives` by exactly 1 and `NextExtraLifeScore` by
exactly 10000, however far the score is above the threshold, and changes nothing else;
otherwise it changes nothing. No other phase of the step touches the threshold or the
score reached, and the later phases change `Lives` only by the destruction of the ship. -/
theorem extra_life_once (M : MathOps R) (g : Game R) (inp : Input) (now : Int) (r : Rng R)
    (hplay : g.GameState = 0) :
    g.Update M inp now r
      = stepFromUFOs M (grantExtraLife (stepToAsteroids M g inp now r).1) now
          (stepToAsteroids M g inp now r).2 ∧
    ((stepToAsteroids M g inp now r).1.Score
        ≥ (stepToAsteroids M g inp now r).1.NextExtraLifeScore →
      grantExtraLife (stepToAsteroids M g inp now r).1
        = { (stepToAsteroids M g inp now r).1 with
            Lives := (stepToAsteroids M g inp now r).1.Lives + 1
            NextExtraLifeScore := (stepToAsteroids M g inp now r).1.NextExtraLifeScore + 10000 } ∧
      (g.Update M inp now r).1.NextExtraLifeScore = g.NextExtraLifeScore + 10000) ∧
    ((stepToAsteroids M g inp now r).1.Score
        < (stepToAsteroids M g inp now r).1.NextExtraLifeScore →
      grantExtraLife (stepToAsteroids M g inp now r).1 = (stepToAsteroids M g inp now r).1 ∧
      (g.Update M inp now r).1.NextExtraLifeScore = g.NextExtraLifeScore) ∧
    (g.Update M inp now r).1.Score = (stepToAsteroids M g inp now r).1.Score ∧
    ((g.Update M inp now r).1.Lives
        = (grantExtraLife (stepToAsteroids M g inp now r).1).Lives ∨
      (g.Update M inp now r).1.Lives
        = (grantExtraLife (stepToAsteroids M g inp now r).1).Lives - 1) := by
  have h1 : ¬ g.GameState = 1 := by
    rw [hplay]
    decide
  have hU : g.Update M inp now r
      = stepFromUFOs M (grantExtraLife (stepToAsteroids M g inp now r).1) now
          (stepToAsteroids M g inp now r).2 := by
    unfold Game.Update
    rw [if_neg h1]
    rfl
  obtain ⟨sc, nx, _, _, _, _, sh, _, _⟩ := stepFromUFOs_frame M
    (grantExtraLife (stepToAsteroids M g inp now r).1) now (stepToAsteroids M g inp now r).2
  have n5 := (stepToAsteroids_frame M g inp now r).1
  refine ⟨hU, ?_, ?_, ?_, ?_⟩
  · intro hc
    have e : grantExtraLife (stepToAsteroids M g inp now r).1
        = { (stepToAsteroids M g inp now r).1 with
            Lives := (stepToAsteroids M g inp now r).1.Lives + 1
            NextExtraLifeScore :=
              (stepToAsteroids M g inp now r).1.NextExtraLifeScore + 10000 } := by
      simp only [grantExtraLife, hc, if_true]
    refine ⟨e, ?_⟩
    rw [hU, nx, e]
    show (stepToAsteroids M g inp now r).1.NextExtraLifeScore + 10000 = _
    rw [n5]
  · intro hc
    have e : grantExtraLife (stepToAsteroids M g inp now r).1
        = (stepToAsteroids M g inp now r).1 := by
      simp only [grantExtraLife, not_le.mpr hc, if_false]
    refine ⟨e, ?_⟩
    rw [hU, nx, e, n5]
  · rw [hU, sc, grantExtraLife_frame]
  · rw [hU]
    rcases sh with ⟨_, b, _⟩ | ⟨_, _, _, _, _, b, _⟩
    · exact Or.inl b
    · exact Or.inr b

/-! ### The exit test of the UFO loop -/

/-- On a screen of non-negative width, the `x` coordinate that `wrap` returns lies
between `0` and the width. -/
theorem wrap_X_range (g : Game R) (p : Vector2D R) (hw : 0 ≤ g.ScreenWidth) :
    0 ≤ (g.wrap p).X ∧ (g.wrap p).X ≤ (g.ScreenWidth : R) := by
  have hw2 : (0 : R) ≤ (g.ScreenWidth : R) := by exact_mod_cast hw
  unfold Game.wrap
  simp only
  split_ifs with h1 h2
  · exact ⟨hw2, le_refl _⟩
  · exact ⟨le_refl _, hw2⟩
  · exact ⟨not_lt.mp h1, not_lt.mp h2⟩

/-- On a screen of non-negative width, an iteration of the UFO loop on a UFO of
non-negative radius does not remove it: the exit test runs on the wrapped position, which
is never beyond the screen. -/
theorem updateUFO_keeps (M : MathOps R) (i : Nat) (u : UFO R) (now : Int) (g : Game R)
    (r : Rng R) (hi : g.UFOs[i]? = some u) (hw : 0 ≤ g.ScreenWidth)
    (hr : ∀ x ∈ g.UFOs, 0 ≤ x.Radius) :
    (updateUFO M i u now g r).1.UFOs.length = g.UFOs.length ∧
    (∀ x ∈ (updateUFO M i u now g r).1.UFOs, 0 ≤ x.Radius) := by
  have hu : 0 ≤ u.Radius := hr u (List.getElem?_mem hi)
  obtain ⟨w1, w2⟩ := wrap_X_range g ⟨u.Position.X + u.Velocity.X, u.Position.Y + u.Velocity.Y⟩ hw
  have hexit : ¬ ((u.Velocity.X > 0 ∧
        (g.wrap ⟨u.Position.X + u.Velocity.X, u.Position.Y + u.Velocity.Y⟩).X
          > (g.ScreenWidth : R) + u.Radius) ∨
      (u.Velocity.X < 0 ∧
        (g.wrap ⟨u.Position.X + u.Velocity.X, u.Position.Y + u.Velocity.Y⟩).X < -u.Radius)) := by
    intro h
    rcases h with ⟨_, h⟩ | ⟨_, h⟩
    · linarith
    · linarith
  obtain ⟨_, _, fu⟩ := fireUFO_spec M i
    { u with Position := g.wrap ⟨u.Position.X + u.Velocity.X, u.Position.Y + u.Velocity.Y⟩ }
    now
    (collideShip M
      (g.wrap ⟨u.Position.X + u.Velocity.X, u.Position.Y + u.Velocity.Y⟩) (u.Radius + 10)
      { g with UFOs := g.UFOs.set i { u with
        Position := g.wrap ⟨u.Position.X + u.Velocity.X, u.Position.Y + u.Velocity.Y⟩ } } r).1
    (collideShip M
      (g.wrap ⟨u.Position.X + u.Velocity.X, u.Position.Y + u.Velocity.Y⟩) (u.Radius + 10)
      { g with UFOs := g.UFOs.set i { u with
        Position := g.wrap ⟨u.Position.X + u.Velocity.X, u.Position.Y + u.Velocity.Y⟩ } } r).2
  obtain ⟨_, cu, _⟩ := collideShip_lists M
    (g.wrap ⟨u.Position.X + u.Velocity.X, u.Position.Y + u.Velocity.Y⟩) (u.Radius + 10)
    { g with UFOs := g.UFOs.set i { u with
      Position := g.wrap ⟨u.Position.X + u.Velocity.X, u.Position.Y + u.Velocity.Y⟩ } } r
  have e : updateUFO M i u now g r
      = fireUFO M i
          { u with Position := g.wrap ⟨u.Position.X + u.Velocity.X, u.Position.Y + u.Velocity.Y⟩ }
          now
          (collideShip M
            (g.wrap ⟨u.Position.X + u.Velocity.X, u.Position.Y + u.Velocity.Y⟩) (u.Radius + 10)
            { g with UFOs := g.UFOs.set i { u with
              Position :=
                g.wrap ⟨u.Position.X + u.Velocity.X, u.Position.Y + u.Velocity.Y⟩ } } r).1
          (collideShip M
            (g.wrap ⟨u.Position.X + u.Velocity.X, u.Position.Y + u.Velocity.Y⟩) (u.Radius + 10)
            { g with UFOs := g.UFOs.set i { u with
              Position :=
                g.wrap ⟨u.Position.X + u.Velocity.X, u.Position.Y + u.Velocity.Y⟩ } } r).2 := by
    unfold updateUFO
    simp only
    rw [if_neg hexit]
  rw [e]
  rcases fu with fu | fu
  · rw [fu, cu]
    refine ⟨List.length_set _ _ _, fun x hx => ?_⟩
    rcases List.mem_or_eq_of_mem_set hx with hx | hx
    · exact hr x hx
    · rw [hx]
      exact hu
  · rw [fu, cu]
    refine ⟨by simp only [List.length_set], fun x hx => ?_⟩
    rcases List.mem_or_eq_of_mem_set hx with hx | hx
    · rcases List.mem_or_eq_of_mem_set hx with hx | hx
      · exact hr x hx
      · rw [hx]
        exact hu
    · rw [hx]
      exact hu

/-- On a screen of non-negative width, the UFO loop removes no UFO of non-negative
radius. -/
theorem updateUFOsFrom_keeps (M : MathOps R) (now : Int) (i : Nat) (g : Game R) (r : Rng R)
    (hw : 0 ≤ g.ScreenWidth) (hr : ∀ x ∈ g.UFOs, 0 ≤ x.Radius) :
    (updateUFOsFrom M now i g r).1.UFOs.length = g.UFOs.length := by
  have key := updateUFOsFrom_induct M now
    (fun g2 => g2.UFOs.length = g.UFOs.length ∧ (∀ x ∈ g2.UFOs, 0 ≤ x.Radius) ∧
      g2.ScreenWidth = g.ScreenWidth)
    (by
      intro j u g2 r2 ⟨hl, hr2, hw2⟩ hj
      obtain ⟨a, b⟩ := updateUFO_keeps M j u now g2 r2 hj (by rw [hw2]; exact hw) hr2
      exact ⟨a.trans hl, b, (updateUFO_spec M j u now g2 r2 hj).1.width.trans hw2⟩)
    i g r ⟨rfl, hr, rfl⟩
  exact key.1

/-- The UFO that the spawn check creates has radius 20 or 15. -/
theorem spawnUFO_radius (g : Game R) (now : Int) (r : Rng R)
    (hr : ∀ x ∈ g.UFOs, 0 ≤ x.Radius) :
    ∀ x ∈ (spawnUFO g now r).1.UFOs, 0 ≤ x.Radius := by
  by_cases h : now - g.LastUFOSpawn > UFOSpawnInterval ∧ g.UFOs.length = 0
  · have hnil : g.UFOs = [] := List.length_eq_zero.mp h.2
    simp only [spawnUFO, h, and_self, if_true, hnil, List.nil_append]
    intro x hx
    rw [List.mem_singleton.mp hx]
    simp only [BigUFORadius, SmallUFORadius]
    split_ifs <;> norm_num
  · simp only [spawnUFO, h, if_false]
    exact hr

/-- A step in the Playing state from a session with no asteroid and no UFO, on a screen of
non-negative width, whose clock value is past the UFO spawn interval: a UFO is spawned and
stays, so level progression does not run and the level is unchanged. -/
theorem spawn_blocks_levelUp (M : MathOps R) (g : Game R) (inp : Input) (now : Int)
    (r : Rng R) (hplay : g.GameState = 0) (hA : g.Asteroids = []) (hU : g.UFOs = [])
    (hw : 0 ≤ g.ScreenWidth) (hclock : now - g.LastUFOSpawn > UFOSpawnInterval) :
    (g.Update M inp now r).1.Level = g.Level ∧
    (g.Update M inp now r).1.UFOs.length = 1 ∧
    (g.Update M inp now r).1.Asteroids = [] := by
  have h1 : ¬ g.GameState = 1 := by
    rw [hplay]
    decide
  have hUp : g.Update M inp now r
      = stepFromUFOs M (grantExtraLife (stepToAsteroids M g inp now r).1) now
          (stepToAsteroids M g inp now r).2 := by
    unfold Game.Update
    rw [if_neg h1]
    rfl
  obtain ⟨_, lv, _, ls, sw, _, _, _, he⟩ := stepToAsteroids_frame M g inp now r
  obtain ⟨a5, u5, _⟩ := he hA hU
  have f6 := grantExtraLife_frame (stepToAsteroids M g inp now r).1
  have key : ∀ (g6 : Game R) (r6 : Rng R) (s1 s2 s3 : Game R × Rng R),
      g6.Asteroids = [] → g6.UFOs = [] → g6.Level = g.Level → 0 ≤ g6.ScreenWidth →
      now - g6.LastUFOSpawn > UFOSpawnInterval →
      s1 = spawnUFO g6 now r6 → s2 = updateUFOsFrom M now s1.1.UFOs.length s1.1 s1.2 →
      s3 = updateUFOBulletsFrom M s2.1.UFOBullets.length s2.1 s2.2 →
      (levelProgression M s3.1 s3.2).1.Level = g.Level ∧
      (levelProgression M s3.1 s3.2).1.UFOs.length = 1 ∧
      (levelProgression M s3.1 s3.2).1.Asteroids = [] := by
    intro g6 r6 s1 s2 s3 a6 u6 l6 w6 c6 e1 e2 e3
    have hs1 : s1.1.UFOs.length = 1 ∧ s1.1.Level = g.Level ∧ s1.1.Asteroids = [] ∧
        s1.1.ScreenWidth = g6.ScreenWidth := by
      rcases spawnUFO_spec g6 now r6 with h | ⟨_, _, u, h, _⟩
      · exfalso
        have hc : now - g6.LastUFOSpawn > UFOSpawnInterval ∧ g6.UFOs.length = 0 :=
          ⟨c6, by rw [u6]; rfl⟩
        have h2 : (spawnUFO g6 now r6).1.UFOs.length = 1 := by
          simp [spawnUFO, hc, u6]
        rw [h, u6] at h2
        exact absurd h2 (by simp)
      · rw [e1, h]
        exact ⟨rfl, l6, a6, rfl⟩
    obtain ⟨len1, lev1, ast1, w1⟩ := hs1
    have rad1 : ∀ x ∈ s1.1.UFOs, 0 ≤ x.Radius := by
      rw [e1]
      exact spawnUFO_radius g6 now r6 (by rw [u6]; intro x hx; exact absurd hx (List.not_mem_nil x))
    have len2 := updateUFOsFrom_keeps M now s1.1.UFOs.length s1.1 s1.2 (by rw [w1]; exact w6) rad1
    obtain ⟨f2, a2, _, _⟩ := updateUFOsFrom_spec M now s1.1.UFOs.length s1.1 s1.2
    rw [← e2] at len2 f2 a2
    obtain ⟨f3, a3, u3⟩ := updateUFOBulletsFrom_spec M s2.1.UFOBullets.length s2.1 s2.2
    rw [← e3] at f3 a3 u3
    have hlen3 : s3.1.UFOs.length = 1 := by rw [u3, len2, len1]
    have hc : ¬ (s3.1.Asteroids.length = 0 ∧ s3.1.UFOs.length = 0) := by
      intro h
      rw [hlen3] at h
      exact absurd h.2 (by decide)
    rw [(levelProgression_spec M s3.1 s3.2).2 hc]
    refine ⟨?_, hlen3, ?_⟩
    · rw [f3.level, f2.level]
      exact lev1
    · rw [a3, a2]
      exact ast1
  rw [hUp]
  refine key (grantExtraLife (stepToAsteroids M g inp now r).1) (stepToAsteroids M g inp now r).2
    _ _ _ ?_ ?_ ?_ ?_ ?_ rfl rfl rfl
  · rw [f6]
    exact a5
  · rw [f6]
    exact u5
  · rw [f6]
    exact lv
  · rw [f6]
    show 0 ≤ (stepToAsteroids M g inp now r).1.ScreenWidth
    rw [sw]
    exact hw
  · rw [f6]
    show now - (stepToAsteroids M g inp now r).1.LastUFOSpawn > UFOSpawnInterval
    rw [ls]
    exact hclock

/-! ### `killShip` and the restart -/

/-- The particles appended by `n` iterations of the loop of `spawnExplosion`: exactly `n`,
each at `pos`; nothing else changes. -/
theorem spawnExplosionLoop_spec (M : MathOps R) (pos : Vector2D R) :
    ∀ (n : Nat) (g : Game R) (r : Rng R),
      ∃ new : List (Particle R),
        (spawnExplosionLoop M pos n g r).1 = { g with Particles := g.Particles ++ new } ∧
        new.length = n ∧ ∀ p ∈ new, p.Position = pos := by
  intro n
  induction n with
  | zero =>
    intro g r
    refine ⟨[], ?_, rfl, fun p hp => absurd hp (List.not_mem_nil p)⟩
    simp [spawnExplosionLoop]
  | succ n ih =>
    intro g r
    simp only [spawnExplosionLoop]
    obtain ⟨new, e, hl, hn⟩ := ih (spawnParticle M pos g r).1 (spawnParticle M pos g r).2
    have hb : ∃ p : Particle R,
        (spawnParticle M pos g r).1 = { g with Particles := g.Particles ++ [p] } ∧
        p.Position = pos := ⟨_, rfl, rfl⟩
    obtain ⟨p, ep, hp⟩ := hb
    refine ⟨p :: new, ?_, ?_, ?_⟩
    · rw [e, ep]
      simp
    · simp [hl]
    · intro x hx
      rcases List.mem_cons.mp hx with hx | hx
      · rw [hx]
        exact hp
      · exact hn x hx

/-- C14. With a ship present, `killShip` appends exactly 10 particles, each at the
position of the ship, sets the ship to absent, lowers `Lives` by exactly 1, sets
`RespawnTimer` to 2 and leaves every other field (score, level, game state, asteroids,
bullets, UFOs, UFO bullets, screen, time stamps, extra-life threshold) as it was; with no
ship, `killShip` leaves the whole session unchanged. -/
theorem killShip_effect (M : MathOps R) (g : Game R) (r : Rng R) :
    (∀ s, g.Ship = some s →
      ∃ new : List (Particle R),
        (g.killShip M r).1 = { g with
          Particles := g.Particles ++ new
          Ship := none
          Lives := g.Lives - 1
          RespawnTimer := 2 } ∧
        new.length = 10 ∧ ∀ p ∈ new, p.Position = s.Position) ∧
    (g.Ship = none → (g.killShip M r).1 = g) := by
  constructor
  · intro s hs
    obtain ⟨new, e, hl, hn⟩ := spawnExplosionLoop_spec M s.Position 10 g r
    refine ⟨new, ?_, hl, hn⟩
    simp only [Game.killShip, hs, Game.spawnExplosion]
    rw [e]
    congr 1
    norm_num
  · intro hs
    rw [killShip_none M g r hs]

/-- Witness of C14: the ship at the centre of the arena is destroyed. -/
theorem killShip_effect_witness :
    (arena (some centreShip) []).Ship = some centreShip ∧
    ∃ new : List (Particle ℚ),
      ((arena (some centreShip) []).killShip ratMath (zeroRng ℚ)).1
        = { arena (some centreShip) [] with
            Particles := (arena (some centreShip) []).Particles ++ new
            Ship := none
            Lives := (arena (some centreShip) []).Lives - 1
            RespawnTimer := 2 } ∧
      new.length = 10 ∧ ∀ p ∈ new, p.Position = centreShip.Position :=
  ⟨rfl, (killShip_effect ratMath (arena (some centreShip) []) (zeroRng ℚ)).1 centreShip rfl⟩

/-- C15. In the GameOver state, a step with the restart key not held leaves every field
of the session (and the random source) unchanged; a step with the restart key held
replaces the session by a new one, `NewGame`: Playing state, score 0, level 1, between 3
and 5 lives, extra-life threshold 10000, a ship at the centre of the screen, and exactly
four asteroids, all of tier 3. -/
theorem gameOver_step (M : MathOps R) (g : Game R) (inp : Input) (now : Int) (r : Rng R)
    (hover : g.GameState = 1) :
    (inp.enter = false → g.Update M inp now r = (g, r)) ∧
    (inp.enter = true →
      g.Update M inp now r = NewGame M now r ∧
      (g.Update M inp now r).1.GameState = 0 ∧
      (g.Update M inp now r).1.Score = 0 ∧
      (g.Update M inp now r).1.Level = 1 ∧
      3 ≤ (g.Update M inp now r).1.Lives ∧ (g.Update M inp now r).1.Lives ≤ 5 ∧
      (g.Update M inp now r).1.NextExtraLifeScore = 10000 ∧
      (∃ s, (g.Update M inp now r).1.Ship = some s ∧
        s.Position = ⟨(screenWidth : R) / 2, (screenHeight : R) / 2⟩ ∧
        s.Position = ⟨400, 300⟩) ∧
      (g.Update M inp now r).1.Asteroids.length = 4 ∧
      ∀ a ∈ (g.Update M inp now r).1.Asteroids, a.Size = 3) := by
  constructor
  · intro he
    simp [Game.Update, hover, he]
  · intro he
    have e : g.Update M inp now r = NewGame M now r := by
      simp [Game.Update, hover, he]
    obtain ⟨new, en, hl, hn⟩ := NewGame_spec M now r
    rw [e]
    refine ⟨rfl, ?_, ?_, ?_, ?_, ?_, ?_, ?_, ?_, ?_⟩
    · rw [en]
    · rw [en]
    · rw [en]
    · rw [en]
      show (3 : Int) ≤ 3 + ((r.ints r.pos % 3 : Nat) : Int)
      omega
    · rw [en]
      show (3 : Int) + ((r.ints r.pos % 3 : Nat) : Int) ≤ 5
      omega
    · rw [en]
    · rw [en]
      refine ⟨_, rfl, rfl, ?_⟩
      simp only [screenWidth, screenHeight]
      congr 1 <;> norm_num
    · rw [en]
      exact hl
    · rw [en]
      intro a ha
      exact (hn a ha).1

/-- Witness of C15: the finished session `overArena`, stepped with the restart key not
held and with it held. -/
theorem gameOver_step_witness :
    overArena.GameState = 1 ∧
    (idle.enter = false → overArena.Update ratMath idle 0 (zeroRng ℚ) = (overArena, zeroRng ℚ)) ∧
    (restart.enter = true →
      overArena.Update ratMath restart 0 (zeroRng ℚ) = NewGame ratMath 0 (zeroRng ℚ) ∧
      (overArena.Update ratMath restart 0 (zeroRng ℚ)).1.GameState = 0 ∧
      (overArena.Update ratMath restart 0 (zeroRng ℚ)).1.Score = 0 ∧
      (overArena.Update ratMath restart 0 (zeroRng ℚ)).1.Level = 1 ∧
      3 ≤ (overArena.Update ratMath restart 0 (zeroRng ℚ)).1.Lives ∧
      (overArena.Update ratMath restart 0 (zeroRng ℚ)).1.Lives ≤ 5 ∧
      (overArena.Update ratMath restart 0 (zeroRng ℚ)).1.NextExtraLifeScore = 10000 ∧
      (∃ s, (overArena.Update ratMath restart 0 (zeroRng ℚ)).1.Ship = some s ∧
        s.Position = ⟨(screenWidth : ℚ) / 2, (screenHeight : ℚ) / 2⟩ ∧
        s.Position = ⟨400, 300⟩) ∧
      (overArena.Update ratMath restart 0 (zeroRng ℚ)).1.Asteroids.length = 4 ∧
      ∀ a ∈ (overArena.Update ratMath restart 0 (zeroRng ℚ)).1.Asteroids, a.Size = 3) :=
  ⟨rfl, (gameOver_step ratMath overArena idle 0 (zeroRng ℚ) rfl).1,
    (gameOver_step ratMath overArena restart 0 (zeroRng ℚ) rfl).2⟩

/-! ### The score of one step, the level and the wave -/

/-- C18. In every session reachable from a new session by Update steps, a single step,
with any key state, clock value and random source, raises the score by at most 10000
(indeed by at most 7000), and the score after the step is below the extra-life threshold
after the step: the single check per step leaves no earned threshold unawarded. -/
theorem score_step_bounded (M : MathOps R) (g : Game R) (h : Reachable M g)
    (inp : Input) (now : Int) (r : Rng R) :
    (g.Update M inp now r).1.Score ≤ g.Score + 10000 ∧
    (g.Update M inp now r).1.Score ≤ g.Score + 7000 ∧
    (g.Update M inp now r).1.Score < (g.Update M inp now r).1.NextExtraLifeScore := by
  have hI := Inv_reachable M g h
  have hI2 := Inv_reachable M _ (Reachable.step g inp now r h)
  have h7 : (g.Update M inp now r).1.Score ≤ g.Score + 7000 := by
    unfold Game.Update
    by_cases h1 : g.GameState = 1
    · rw [if_pos h1]
      by_cases h2 : inp.enter = true
      · rw [if_pos h2]
        have := (Inv_NewGame M now r).1
        obtain ⟨new, e, _⟩ := NewGame_spec M now r
        rw [e]
        show (0 : Int) ≤ g.Score + 7000
        linarith [hI.1]
      · rw [if_neg h2]
        show g.Score ≤ g.Score + 7000
        linarith
    · rw [if_neg h1]
      exact (playStep_score M g inp now r hI h1).2
  exact ⟨by linarith, h7, hI2.2.1⟩

/-- Witness of C18: the new session `startGame` and a step with no key held. -/
theorem score_step_bounded_witness :
    Reachable ratMath startGame ∧
    (startGame.Update ratMath idle 0 (zeroRng ℚ)).1.Score ≤ startGame.Score + 10000 ∧
    (startGame.Update ratMath idle 0 (zeroRng ℚ)).1.Score ≤ startGame.Score + 7000 ∧
    (startGame.Update ratMath idle 0 (zeroRng ℚ)).1.Score
      < (startGame.Update ratMath idle 0 (zeroRng ℚ)).1.NextExtraLifeScore :=
  ⟨Reachable.init 0 (zeroRng ℚ),
    score_step_bounded ratMath startGame (Reachable.init 0 (zeroRng ℚ)) idle 0 (zeroRng ℚ)⟩

/-- A step keeps the level at 1 or above and never ends with both the asteroids and the
UFOs empty. -/
theorem level_wave_Update (M : MathOps R) (g : Game R) (inp : Input) (now : Int) (r : Rng R)
    (hl : 1 ≤ g.Level) (hne : g.Asteroids ≠ [] ∨ g.UFOs ≠ []) :
    1 ≤ (g.Update M inp now r).1.Level ∧
    ((g.Update M inp now r).1.Asteroids ≠ [] ∨ (g.Update M inp now r).1.UFOs ≠ []) := by
  unfold Game.Update
  by_cases h1 : g.GameState = 1
  · rw [if_pos h1]
    by_cases h2 : inp.enter = true
    · rw [if_pos h2]
      obtain ⟨new, e, hlen, _⟩ := NewGame_spec M now r
      rw [e]
      refine ⟨le_refl _, Or.inl ?_⟩
      intro hnil
      have : new.length = 0 := by
        have h0 : new = [] := hnil
        rw [h0]
        rfl
      omega
    · rw [if_neg h2]
      exact ⟨hl, hne⟩
  · rw [if_neg h1]
    unfold playStep
    simp only
    have lv5 := (stepToAsteroids_frame M g inp now r).2.1
    have lv6 : (grantExtraLife (stepToAsteroids M g inp now r).1).Level = g.Level := by
      rw [grantExtraLife_frame]
      exact lv5
    obtain ⟨s1, s3, r3, h1s, f, _, _, e⟩ := stepFromUFOs_spec M
      (grantExtraLife (stepToAsteroids M g inp now r).1) now (stepToAsteroids M g inp now r).2
    have lv3 : s3.Level = g.Level := by
      rw [f.level]
      rcases h1s with h1s | ⟨_, _, u, h1s, _⟩
      · rw [h1s]
        exact lv6
      · rw [h1s]
        exact lv6
    rw [e]
    obtain ⟨p1, p2⟩ := levelProgression_spec M s3 r3
    by_cases hc : s3.Asteroids.length = 0 ∧ s3.UFOs.length = 0
    · obtain ⟨new, e2, hlen, _⟩ := p1 hc
      rw [e2]
      refine ⟨?_, Or.inl ?_⟩
      · show 1 ≤ s3.Level + 1
        omega
      · intro hnil
        have h0 : new = [] := hnil
        rw [h0, lv3] at hlen
        have h5 : (5 : Int) ≤ max 0
            (if s3.Score ≥ 40000 ∧ s3.Score < 60000 then 7
             else if s3.Score ≥ 60000 then 8 else g.Level + 1 + 3) := by
          apply le_max_of_le_right
          split_ifs <;> omega
        rw [← hlen] at h5
        simp at h5
    · rw [p2 hc]
      refine ⟨by rw [lv3]; exact hl, ?_⟩
      by_contra hboth
      push_neg at hboth
      apply hc
      rw [hboth.1, hboth.2]
      exact ⟨rfl, rfl⟩

/-- C20. In every session reachable from a new session by Update steps, the level is at
least 1 and at least one asteroid or one UFO is present: level progression runs at the
end of the step that empties both collections, and the wave it spawns is not empty. -/
theorem level_and_targets (M : MathOps R) (g : Game R) (h : Reachable M g) :
    1 ≤ g.Level ∧ (g.Asteroids ≠ [] ∨ g.UFOs ≠ []) := by
  induction h with
  | init now r =>
    obtain ⟨new, e, hlen, _⟩ := NewGame_spec M now r
    rw [e]
    refine ⟨le_refl _, Or.inl ?_⟩
    intro hnil
    have h0 : new = [] := hnil
    rw [h0] at hlen
    simp at hlen
  | step g inp now r _ ih => exact level_wave_Update M g inp now r ih.1 ih.2

/-- Witness of C20: the new session `startGame`. -/
theorem level_and_targets_witness :
    Reachable ratMath startGame ∧
    1 ≤ startGame.Level ∧ (startGame.Asteroids ≠ [] ∨ startGame.UFOs ≠ []) :=
  ⟨Reachable.init 0 (zeroRng ℚ),
    level_and_targets ratMath startGame (Reachable.init 0 (zeroRng ℚ))⟩

/-- A step in the Playing state from a session with no asteroid and no UFO, whose clock
value is not past the UFO spawn interval, ends with level progression: the level is one
higher and the number of asteroids is the one the score and the new level set. -/
theorem Update_wave_count (M : MathOps R) (g : Game R) (inp : Input) (now : Int) (r : Rng R)
    (hplay : g.GameState = 0) (hA : g.Asteroids = []) (hU : g.UFOs = [])
    (hclock : now - g.LastUFOSpawn ≤ UFOSpawnInterval) :
    (g.Update M inp now r).1.Level = g.Level + 1 ∧
    ((g.Update M inp now r).1.Asteroids.length : Int) = max 0
      (if g.Score ≥ 40000 ∧ g.Score < 60000 then 7
       else if g.Score ≥ 60000 then 8 else g.Level + 1 + 3) := by
  have h1 : ¬ g.GameState = 1 := by
    rw [hplay]
    decide
  have hUp : g.Update M inp now r
      = stepFromUFOs M (grantExtraLife (stepToAsteroids M g inp now r).1) now
          (stepToAsteroids M g inp now r).2 := by
    unfold Game.Update
    rw [if_neg h1]
    rfl
  obtain ⟨_, lv, _, ls, _, _, _, _, he⟩ := stepToAsteroids_frame M g inp now r
  obtain ⟨a5, u5, s5⟩ := he hA hU
  have f6 := grantExtraLife_frame (stepToAsteroids M g inp now r).1
  have a6 : (grantExtraLife (stepToAsteroids M g inp now r).1).Asteroids = [] := by
    rw [f6]
    exact a5
  have u6 : (grantExtraLife (stepToAsteroids M g inp now r).1).UFOs = [] := by
    rw [f6]
    exact u5
  have c6 : ¬ now - (grantExtraLife (stepToAsteroids M g inp now r).1).LastUFOSpawn
      > UFOSpawnInterval := by
    rw [f6]
    show ¬ now - (stepToAsteroids M g inp now r).1.LastUFOSpawn > UFOSpawnInterval
    rw [ls]
    exact not_lt.mpr hclock
  have s6 : (grantExtraLife (stepToAsteroids M g inp now r).1).Score = g.Score := by
    rw [f6]
    exact s5
  have l6 : (grantExtraLife (stepToAsteroids M g inp now r).1).Level = g.Level := by
    rw [f6]
    exact lv
  obtain ⟨k1, _, _, k4⟩ := stepFromUFOs_levelUp M _ now (stepToAsteroids M g inp now r).2
    a6 u6 c6
  rw [hUp]
  refine ⟨by rw [k1, l6], ?_⟩
  rw [k4, s6, l6]

/-- C11, the code at the failing input. The session `lateArena` is at level 1 with 40000
points and has no asteroid and no UFO. Level progression on it, and a whole step from it
with no key held at clock value 0, raise the level to 2 and spawn 7 asteroids of tier 3,
not the `min (2 + 3) 7 = 5` of a cap. -/
theorem wave_not_capped :
    lateArena.GameState = 0 ∧ lateArena.Level = 1 ∧ lateArena.Score = 40000 ∧
    lateArena.Asteroids = [] ∧ lateArena.UFOs = [] ∧
    (levelProgression ratMath lateArena (zeroRng ℚ)).1.Level = 2 ∧
    (levelProgression ratMath lateArena (zeroRng ℚ)).1.Asteroids.length = 7 ∧
    (∀ a ∈ (levelProgression ratMath lateArena (zeroRng ℚ)).1.Asteroids, a.Size = 3) ∧
    (lateArena.Update ratMath idle 0 (zeroRng ℚ)).1.Level = 2 ∧
    ((lateArena.Update ratMath idle 0 (zeroRng ℚ)).1.Asteroids.length : Int) = 7 ∧
    min ((lateArena.Update ratMath idle 0 (zeroRng ℚ)).1.Level + 3) 7 = 5 := by
  obtain ⟨a, b⟩ := Update_wave_count ratMath lateArena idle 0 (zeroRng ℚ) rfl rfl rfl
    (by decide)
  have hl : (lateArena.Update ratMath idle 0 (zeroRng ℚ)).1.Level = 2 := by
    rw [a]
    decide
  refine ⟨rfl, rfl, rfl, rfl, rfl, by decide, by decide, by decide, hl, ?_, ?_⟩
  · rw [b]
    decide
  · rw [hl]
    decide

/-! ### Invincibility -/

/-- The phases up to the ship phase change only the particles, the countdown, the ship,
the game state, the bullets and the time stamp of the last shot. -/
theorem stepToShip_frame (M : MathOps R) (g : Game R) (inp : Input) (now : Int) :
    stepToShip M g inp now
      = { g with
          Particles := (stepToShip M g inp now).Particles
          RespawnTimer := (stepToShip M g inp now).RespawnTimer
          Ship := (stepToShip M g inp now).Ship
          GameState := (stepToShip M g inp now).GameState
          Bullets := (stepToShip M g inp now).Bullets
          LastShot := (stepToShip M g inp now).LastShot } := by
  have key : ∀ (g1 g2 g3 : Game R),
      g1 = updateParticlesFrom g.Particles.length g → g2 = respawnStep M g1 →
      g3 = updateShip M g2 inp now →
      g3 = { g with
          Particles := g3.Particles
          RespawnTimer := g3.RespawnTimer
          Ship := g3.Ship
          GameState := g3.GameState
          Bullets := g3.Bullets
          LastShot := g3.LastShot } := by
    intro g1 g2 g3 e1 e2 e3
    have f1 := updateParticlesFrom_frame g.Particles.length g
    rw [← e1] at f1
    have f2 := respawnStep_frame M g1
    rw [← e2] at f2
    obtain ⟨f3, _⟩ := updateShip_spec M g2 inp now
    rw [← e3] at f3
    have h3 : g3 = { g with
        Particles := g1.Particles
        RespawnTimer := g2.RespawnTimer
        Ship := g3.Ship
        GameState := g2.GameState
        Bullets := g3.Bullets
        LastShot := g3.LastShot } := by
      rw [f3, f2, f1]
    rw [h3]
  exact key _ _ _ rfl rfl rfl

/-- A ship whose invincibility flag is set after the ship phase of a step taken outside
the GameOver state is not destroyed in the rest of the step: it is the ship at the end of
the step, the countdown and the game state are those after the ship phase, and the lives
are those before the step or one more. -/
theorem invincible_survives (M : MathOps R) (g : Game R) (inp : Input) (now : Int)
    (r : Rng R) (h1 : g.GameState ≠ 1) (s : Ship R)
    (hs : (stepToShip M g inp now).Ship = some s) (hinv : s.IsInvincible = true) :
    (g.Update M inp now r).1.Ship = some s ∧
    (g.Update M inp now r).1.RespawnTimer = (stepToShip M g inp now).RespawnTimer ∧
    ((g.Update M inp now r).1.Lives = g.Lives ∨
      (g.Update M inp now r).1.Lives = g.Lives + 1) ∧
    (g.Update M inp now r).1.GameState = (stepToShip M g inp now).GameState := by
  have key : ∀ (g3 : Game R) (s4 s5 : Game R × Rng R) (g6 : Game R),
      g3 = stepToShip M g inp now → s4 = updateBulletsFrom M g3.Bullets.length g3 r →
      s5 = updateAsteroidsFrom M s4.1.Asteroids.length s4.1 s4.2 →
      g6 = grantExtraLife s5.1 →
      (stepFromUFOs M g6 now s5.2).1.Ship = some s ∧
      (stepFromUFOs M g6 now s5.2).1.RespawnTimer = g3.RespawnTimer ∧
      ((stepFromUFOs M g6 now s5.2).1.Lives = g.Lives ∨
        (stepFromUFOs M g6 now s5.2).1.Lives = g.Lives + 1) ∧
      (stepFromUFOs M g6 now s5.2).1.GameState = g3.GameState := by
    intro g3 s4 s5 g6 e3 e4 e5 e6
    have hs3 : g3.Ship = some s := by rw [e3]; exact hs
    have hl3 : g3.Lives = g.Lives := by rw [e3, stepToShip_frame]
    obtain ⟨f4, _⟩ := updateBullets_frame M g3 r
    rw [← e4] at f4
    have hs4 : s4.1.Ship = some s := by rw [f4]; exact hs3
    obtain ⟨f5, _⟩ := updateAsteroidsFrom_spec M s4.1.Asteroids.length s4.1 s4.2
    rw [← e5] at f5
    have h5 : s5.1.Ship = some s ∧ s5.1.Lives = g.Lives ∧
        s5.1.RespawnTimer = g3.RespawnTimer ∧ s5.1.GameState = g3.GameState := by
      rcases f5.ship with ⟨a, b, c⟩ | ⟨s2, a, b, _⟩
      · refine ⟨a.trans hs4, ?_, ?_, ?_⟩
        · rw [b, f4]
          exact hl3
        · rw [c, f4]
        · rw [f5.state, f4]
      · rw [hs4] at a
        have : s = s2 := Option.some.inj a
        rw [← this, hinv] at b
        exact absurd b (by decide)
    obtain ⟨hs5, hl5, ht5, hst5⟩ := h5
    have f6 := grantExtraLife_frame s5.1
    rw [← e6] at f6
    have hs6 : g6.Ship = some s := by rw [f6]; exact hs5
    have ht6 : g6.RespawnTimer = g3.RespawnTimer := by rw [f6]; exact ht5
    have hst6 : g6.GameState = g3.GameState := by rw [f6]; exact hst5
    have hl6 : g6.Lives = g.Lives ∨ g6.Lives = g.Lives + 1 := by
      rw [e6]
      unfold grantExtraLife
      split_ifs
      · right
        show s5.1.Lives + 1 = g.Lives + 1
        rw [hl5]
      · left
        exact hl5
    obtain ⟨_, _, _, st, _, _, sh, _, _⟩ := stepFromUFOs_frame M g6 now s5.2
    rcases sh with ⟨a, b, c⟩ | ⟨s2, a, b, _⟩
    · refine ⟨a.trans hs6, c.trans ht6, ?_, st.trans hst6⟩
      rw [b]
      exact hl6
    · rw [hs6] at a
      have : s = s2 := Option.some.inj a
      rw [← this, hinv] at b
      exact absurd b (by decide)
  have hU : g.Update M inp now r
      = stepFromUFOs M (grantExtraLife (stepToAsteroids M g inp now r).1) now
          (stepToAsteroids M g inp now r).2 := by
    unfold Game.Update
    rw [if_neg h1]
    rfl
  rw [hU]
  exact key _ _ _ _ rfl rfl rfl rfl

/-- C12. In a step taken in the Playing state, a ship that is present with its
invincibility flag still set after the ship phase is not destroyed by any collision of
the step, with an asteroid, a UFO or a UFO bullet: it is the ship at the end of the step,
`Lives` is not lowered (it is the value before the step, or one more by an extra life),
and the respawn countdown is not started (it keeps its value after the ship phase). -/
theorem invincible_ship_safe (M : MathOps R) (g : Game R) (inp : Input) (now : Int)
    (r : Rng R) (hplay : g.GameState = 0) (s : Ship R)
    (hs : (stepToShip M g inp now).Ship = some s) (hinv : s.IsInvincible = true) :
    (g.Update M inp now r).1.Ship = some s ∧
    g.Lives ≤ (g.Update M inp now r).1.Lives ∧
    ((g.Update M inp now r).1.Lives = g.Lives ∨
      (g.Update M inp now r).1.Lives = g.Lives + 1) ∧
    (g.Update M inp now r).1.RespawnTimer = (stepToShip M g inp now).RespawnTimer := by
  have h1 : g.GameState ≠ 1 := by
    rw [hplay]
    decide
  obtain ⟨a, b, c, _⟩ := invincible_survives M g inp now r h1 s hs hinv
  refine ⟨a, ?_, c, b⟩
  rcases c with c | c
  · rw [c]
  · rw [c]
    omega

/-- The ship after the ship phase. -/
theorem updateShip_ship (M : MathOps R) (g : Game R) (inp : Input) (now : Int) (s : Ship R)
    (hs : g.Ship = some s) :
    (updateShip M g inp now).Ship = some (steerShip M g inp (decayInvincibility s)) := by
  simp only [updateShip, hs]
  split_ifs <;> rfl

/-- Steering leaves the invincibility flag and timer alone. -/
theorem steerShip_flags (M : MathOps R) (g : Game R) (inp : Input) (s : Ship R) :
    (steerShip M g inp s).IsInvincible = s.IsInvincible ∧
    (steerShip M g inp s).InvincibleTimer = s.InvincibleTimer := by
  unfold steerShip
  simp only
  split_ifs <;> exact ⟨rfl, rfl⟩

/-- The invincibility countdown of a ship whose flag is set: the timer loses a tick and
the flag stays set exactly when the timer is still positive. -/
theorem decayInvincibility_spec (s : Ship R) (h : s.IsInvincible = true) :
    (decayInvincibility s).InvincibleTimer = s.InvincibleTimer - tick ∧
    (0 < s.InvincibleTimer - tick → (decayInvincibility s).IsInvincible = true) ∧
    (s.InvincibleTimer - tick ≤ 0 → (decayInvincibility s).IsInvincible = false) := by
  by_cases hc : s.InvincibleTimer - tick ≤ 0
  · simp only [decayInvincibility, h, if_true, hc]
    exact ⟨trivial, fun h0 => absurd hc (not_le.mpr h0), fun _ => trivial⟩
  · simp only [decayInvincibility, h, if_true, hc, if_false]
    exact ⟨trivial, fun _ => trivial, fun h0 => h0.elim⟩

/-- The phases up to the ship phase, from a session whose ship is present with its flag
set and whose respawn countdown is not running. -/
theorem stepToShip_shielded (M : MathOps R) (g : Game R) (inp : Input) (now : Int)
    (s : Ship R) (hs : g.Ship = some s) (hinv : s.IsInvincible = true)
    (ht : g.RespawnTimer ≤ 0) :
    ∃ s2, (stepToShip M g inp now).Ship = some s2 ∧
      s2.InvincibleTimer = s.InvincibleTimer - tick ∧
      (0 < s.InvincibleTimer - tick → s2.IsInvincible = true) ∧
      (s.InvincibleTimer - tick ≤ 0 → s2.IsInvincible = false) ∧
      (stepToShip M g inp now).RespawnTimer = g.RespawnTimer ∧
      (stepToShip M g inp now).GameState = g.GameState := by
  have key : ∀ (g1 g2 : Game R),
      g1 = updateParticlesFrom g.Particles.length g → g2 = respawnStep M g1 →
      ∃ s2, (updateShip M g2 inp now).Ship = some s2 ∧
        s2.InvincibleTimer = s.InvincibleTimer - tick ∧
        (0 < s.InvincibleTimer - tick → s2.IsInvincible = true) ∧
        (s.InvincibleTimer - tick ≤ 0 → s2.IsInvincible = false) ∧
        (updateShip M g2 inp now).RespawnTimer = g.RespawnTimer ∧
        (updateShip M g2 inp now).GameState = g.GameState := by
    intro g1 g2 e1 e2
    have f1 := updateParticlesFrom_frame g.Particles.length g
    rw [← e1] at f1
    have t1 : g1.RespawnTimer = g.RespawnTimer := by rw [f1]
    have e21 : g2 = g1 := by
      rw [e2]
      simp only [respawnStep, t1, not_lt.mpr ht, if_false]
    have hs2 : g2.Ship = some s := by rw [e21, f1]; exact hs
    obtain ⟨f3, _⟩ := updateShip_spec M g2 inp now
    obtain ⟨d1, d2, d3⟩ := decayInvincibility_spec s hinv
    obtain ⟨k1, k2⟩ := steerShip_flags M g2 inp (decayInvincibility s)
    refine ⟨_, updateShip_ship M g2 inp now s hs2, k2.trans d1, ?_, ?_, ?_, ?_⟩
    · intro h
      exact k1.trans (d2 h)
    · intro h
      exact k1.trans (d3 h)
    · rw [f3, e21, f1]
    · rw [f3, e21, f1]
  exact key _ _ rfl rfl

/-- The phases up to the ship phase, from a session whose respawn countdown ends with
this tick, and with a life left: the ship is created, and after the
ship phase its flag is set and its timer is 3 seconds minus a tick. -/
theorem stepToShip_respawn (M : MathOps R) (g : Game R) (inp : Input) (now : Int)
    (ht : 0 < g.RespawnTimer) (ht2 : g.RespawnTimer ≤ tick)
    (hl : 0 < g.Lives) :
    ∃ s2, (stepToShip M g inp now).Ship = some s2 ∧ s2.IsInvincible = true ∧
      s2.InvincibleTimer = 3 - tick ∧
      (stepToShip M g inp now).RespawnTimer ≤ 0 ∧
      (stepToShip M g inp now).GameState = g.GameState := by
  have htk := tick_eq (R := R)
  have key : ∀ (g1 g2 : Game R),
      g1 = updateParticlesFrom g.Particles.length g → g2 = respawnStep M g1 →
      ∃ s2, (updateShip M g2 inp now).Ship = some s2 ∧ s2.IsInvincible = true ∧
        s2.InvincibleTimer = 3 - tick ∧
        (updateShip M g2 inp now).RespawnTimer ≤ 0 ∧
        (updateShip M g2 inp now).GameState = g.GameState := by
    intro g1 g2 e1 e2
    have f1 := updateParticlesFrom_frame g.Particles.length g
    rw [← e1] at f1
    have t1 : g1.RespawnTimer = g.RespawnTimer := by rw [f1]
    have l1 : g1.Lives = g.Lives := by rw [f1]
    have st1 : g1.GameState = g.GameState := by rw [f1]
    have hexp : g1.RespawnTimer - tick ≤ 0 := by rw [t1]; linarith
    have hpos : g1.RespawnTimer > 0 := by rw [t1]; exact ht
    have hl1 : g1.Lives > 0 := by rw [l1]; exact hl
    have e22 : g2 = { g1 with
        RespawnTimer := g1.RespawnTimer - tick
        Ship := some {
          Position := ⟨(screenWidth : R) / 2, (screenHeight : R) / 2⟩
          Velocity := ⟨0, 0⟩
          Rotation := -M.pi / 2
          IsThrusting := false
          IsInvincible := true
          InvincibleTimer := 3.0 } } := by
      rw [e2]
      simp only [respawnStep, hpos, hexp, hl1, if_true]
    obtain ⟨f3, _⟩ := updateShip_spec M g2 inp now
    have hs2 : g2.Ship = some {
          Position := ⟨(screenWidth : R) / 2, (screenHeight : R) / 2⟩
          Velocity := ⟨0, 0⟩
          Rotation := -M.pi / 2
          IsThrusting := false
          IsInvincible := true
          InvincibleTimer := 3.0 } := by rw [e22]
    obtain ⟨d1, d2, _⟩ := decayInvincibility_spec (R := R) {
          Position := ⟨(screenWidth : R) / 2, (screenHeight : R) / 2⟩
          Velocity := ⟨0, 0⟩
          Rotation := -M.pi / 2
          IsThrusting := false
          IsInvincible := true
          InvincibleTimer := 3.0 } rfl
    obtain ⟨k1, k2⟩ := steerShip_flags M g2 inp (decayInvincibility {
          Position := ⟨(screenWidth : R) / 2, (screenHeight : R) / 2⟩
          Velocity := ⟨0, 0⟩
          Rotation := -M.pi / 2
          IsThrusting := false
          IsInvincible := true
          InvincibleTimer := 3.0 })
    refine ⟨_, updateShip_ship M g2 inp now _ hs2, ?_, ?_, ?_, ?_⟩
    · apply k1.trans
      apply d2
      show (0 : R) < 3.0 - tick
      rw [htk]
      norm_num
    · rw [k2, d1]
      show (3.0 : R) - tick = 3 - tick
      norm_num
    · rw [f3, e22]
      exact hexp
    · rw [f3, e22]
      exact st1
  exact key _ _ rfl rfl

/-- A step from a shielded session with more than a tick of invincibility left leaves a
shielded session with a tick less. -/
theorem Update_shielded (M : MathOps R) (g : Game R) (inp : Input) (now : Int) (r : Rng R)
    (t : R) (h : Shielded t g) (ht : tick < t) :
    Shielded (t - tick) (g.Update M inp now r).1 := by
  obtain ⟨s, hs, hinv, htm, hrt, hst⟩ := h
  obtain ⟨s2, a, b, c, _, e, f⟩ := stepToShip_shielded M g inp now s hs hinv hrt
  have hflag : s2.IsInvincible = true := c (by rw [htm]; linarith)
  have h1 : g.GameState ≠ 1 := by
    rw [hst]
    decide
  obtain ⟨p, q, _, w⟩ := invincible_survives M g inp now r h1 s2 a hflag
  refine ⟨s2, p, hflag, by rw [b, htm], ?_, ?_⟩
  · rw [q, e]
    exact hrt
  · rw [w, f]
    exact hst

/-- A run from a shielded session that is shorter than the invincibility left stays
shielded, a tick less for each step. -/
theorem run_shielded (M : MathOps R) :
    ∀ (steps : List (Input × Int × Rng R)) (g : Game R) (t : R), Shielded t g →
      (steps.length : R) * tick < t →
      Shielded (t - (steps.length : R) * tick) (run M g steps) := by
  intro steps
  induction steps with
  | nil =>
    intro g t h _
    have e : t - ((([] : List (Input × Int × Rng R)).length : Nat) : R) * tick = t := by
      simp
    rw [e]
    exact h
  | cons st rest ih =>
    intro g t h hlen
    have htk := tick_pos (R := R)
    have hl : (((st :: rest).length : Nat) : R) = (rest.length : R) + 1 := by
      simp
    rw [hl] at hlen ⊢
    have hn : (0 : R) ≤ (rest.length : R) := Nat.cast_nonneg _
    have h1 : tick < t := by nlinarith
    have h2 := Update_shielded M g st.1 st.2.1 st.2.2 t h h1
    have h3 := ih (g.Update M st.1 st.2.1 st.2.2).1 (t - tick) h2 (by linarith)
    have e : t - tick - (rest.length : R) * tick = t - ((rest.length : R) + 1) * tick := by
      ring
    rw [e] at h3
    exact h3

/-- The invincibility window of a respawned ship in this model, where `float64` is an
exact ordered field. The session `g0` is in the Playing state with a life left and a
respawn countdown that ends with the next tick; `pre` holds the steps already taken, so
that the step examined is number `pre.length + 1`, the step that creates the ship being
number 1. The flag is set after the ship phase of each of the steps 1 to 179, and clear
after that of step 180, where the timer is exactly `0`. This is a fact of exact
arithmetic only: in IEEE double precision 180 decrements of `1.0 / 60.0` from `3.0` leave
a positive residue, so the compiled program clears the flag one step later. -/
theorem invincibility_run (M : MathOps R) (g0 : Game R)
    (ht : 0 < g0.RespawnTimer) (ht2 : g0.RespawnTimer ≤ tick) (hl : 0 < g0.Lives)
    (hp : g0.GameState = 0) (pre : List (Input × Int × Rng R)) (inp : Input) (now : Int) :
    (pre.length + 1 ≤ 179 →
      ∃ s, (stepToShip M (run M g0 pre) inp now).Ship = some s ∧ s.IsInvincible = true) ∧
    (pre.length + 1 = 180 →
      ∃ s, (stepToShip M (run M g0 pre) inp now).Ship = some s ∧ s.IsInvincible = false) := by
  have htk := tick_eq (R := R)
  cases pre with
  | nil =>
    constructor
    · intro _
      obtain ⟨s, a, b, _⟩ := stepToShip_respawn M g0 inp now ht ht2 hl
      exact ⟨s, a, b⟩
    · intro h
      simp at h
  | cons st rest =>
    have h1 : g0.GameState ≠ 1 := by
      rw [hp]
      decide
    have first : Shielded (3 - tick) (g0.Update M st.1 st.2.1 st.2.2).1 := by
      obtain ⟨s, a, b, c, d, e⟩ := stepToShip_respawn M g0 st.1 st.2.1 ht ht2 hl
      obtain ⟨p, q, _, w⟩ := invincible_survives M g0 st.1 st.2.1 st.2.2 h1 s a b
      exact ⟨s, p, b, c, by rw [q]; exact d, by rw [w, e]; exact hp⟩
    have hrun : ∀ (n : Nat), rest.length = n → n ≤ 178 →
        ∃ s, (stepToShip M (run M g0 (st :: rest)) inp now).Ship = some s ∧
          s.InvincibleTimer = 3 - ((n : R) + 2) * tick ∧
          (0 < 3 - ((n : R) + 2) * tick → s.IsInvincible = true) ∧
          (3 - ((n : R) + 2) * tick ≤ 0 → s.IsInvincible = false) := by
      intro n hn hle
      have hc : (n : R) ≤ 178 := by exact_mod_cast hle
      have hlt : (rest.length : R) * tick < 3 - tick := by
        rw [hn, htk]
        linarith
      obtain ⟨s, a, b, c, d, _⟩ := run_shielded M rest _ (3 - tick) first hlt
      obtain ⟨s2, a2, b2, c2, d2, _⟩ :=
        stepToShip_shielded M (run M (g0.Update M st.1 st.2.1 st.2.2).1 rest) inp now s a b d
      have e : s.InvincibleTimer - tick = 3 - ((n : R) + 2) * tick := by
        rw [c, hn]
        ring
      rw [e] at b2 c2 d2
      exact ⟨s2, a2, b2, c2, d2⟩
    constructor
    · intro h
      have hle : rest.length ≤ 177 := by
        simp only [List.length_cons] at h
        omega
      obtain ⟨s, a, _, c, _⟩ := hrun rest.length rfl (by omega)
      refine ⟨s, a, c ?_⟩
      have hc : (rest.length : R) ≤ 177 := by exact_mod_cast hle
      rw [htk]
      linarith
    · intro h
      have heq : rest.length = 178 := by
        simp only [List.length_cons] at h
        omega
      obtain ⟨s, a, _, _, d⟩ := hrun rest.length rfl (by omega)
      refine ⟨s, a, d ?_⟩
      rw [heq, htk]
      norm_num

/-- Facts about the fixtures `respawning` and `ambush`: the respawn countdown is positive
and at most one tick. -/
theorem respawning_timer :
    0 < respawning.RespawnTimer ∧ respawning.RespawnTimer ≤ tick ∧
    0 < ambush.RespawnTimer ∧ ambush.RespawnTimer ≤ tick := by
  have htk := tick_eq (R := ℚ)
  have e1 : respawning.RespawnTimer = 1 / 60 := rfl
  have e2 : ambush.RespawnTimer = 1 / 60 := rfl
  rw [e1, e2, htk]
  norm_num

/-- Witness of C12: the session `ambush`, whose ship is created in this step on top of a
large asteroid; the ship has its flag set after the ship phase and survives the step. -/
theorem invincible_ship_safe_witness :
    ambush.GameState = 0 ∧
    ∃ s, (stepToShip ratMath ambush idle 0).Ship = some s ∧ s.IsInvincible = true ∧
      (ambush.Update ratMath idle 0 (zeroRng ℚ)).1.Ship = some s ∧
      ambush.Lives ≤ (ambush.Update ratMath idle 0 (zeroRng ℚ)).1.Lives ∧
      ((ambush.Update ratMath idle 0 (zeroRng ℚ)).1.Lives = ambush.Lives ∨
        (ambush.Update ratMath idle 0 (zeroRng ℚ)).1.Lives = ambush.Lives + 1) ∧
      (ambush.Update ratMath idle 0 (zeroRng ℚ)).1.RespawnTimer
        = (stepToShip ratMath ambush idle 0).RespawnTimer := by
  obtain ⟨s, a, b, _⟩ := stepToShip_respawn ratMath ambush idle 0
    respawning_timer.2.2.1 respawning_timer.2.2.2 (by decide)
  exact ⟨rfl, s, a, b, invincible_ship_safe ratMath ambush idle 0 (zeroRng ℚ) rfl s a b⟩

/-! ### One target per bullet -/

/-- The asteroid scan of a bullet that is within no asteroid below `n` changes nothing
and reports no hit. -/
theorem hitAsteroidFrom_miss (M : MathOps R) (b : Bullet R) :
    ∀ (n : Nat) (g : Game R) (r : Rng R),
      (∀ j a, j < n → g.Asteroids[j]? = some a →
        ¬ Within M b.Position a.Position a.Radius) →
      hitAsteroidFrom M b n g r = (g, r, false) := by
  intro n
  induction n with
  | zero =>
    intro g r _
    rfl
  | succ n ih =>
    intro g r h
    simp only [hitAsteroidFrom]
    cases hj : g.Asteroids[n]? with
    | none => rfl
    | some a =>
      have hn : ¬ M.hypot (b.Position.X - a.Position.X) (b.Position.Y - a.Position.Y)
          < a.Radius := h n a (Nat.lt_succ_self n) hj
      simp only
      rw [if_neg hn]
      exact ih g r (fun j a hlt => h j a (Nat.lt_succ_of_lt hlt))

/-- The asteroid scan of a bullet that is within some asteroid below `n` hits the one of
highest index among them, and no other. -/
theorem hitAsteroidFrom_hit (M : MathOps R) (b : Bullet R) :
    ∀ (n : Nat) (g : Game R) (r : Rng R), n ≤ g.Asteroids.length →
      (∃ j a, j < n ∧ g.Asteroids[j]? = some a ∧
        Within M b.Position a.Position a.Radius) →
      ∃ j a, j < n ∧ g.Asteroids[j]? = some a ∧
        Within M b.Position a.Position a.Radius ∧
        (∀ k a2, j < k → k < n → g.Asteroids[k]? = some a2 →
          ¬ Within M b.Position a2.Position a2.Radius) ∧
        hitAsteroidFrom M b n g r = ((bulletHit M g j r).1, (bulletHit M g j r).2, true) := by
  intro n
  induction n with
  | zero =>
    intro g r _ h
    obtain ⟨j, _, hj, _⟩ := h
    exact absurd hj (Nat.not_lt_zero j)
  | succ n ih =>
    intro g r hle h
    have hlt : n < g.Asteroids.length := hle
    have hn : g.Asteroids[n]? = some (g.Asteroids.get ⟨n, hlt⟩) :=
      List.getElem?_eq_getElem hlt
    by_cases hc : Within M b.Position (g.Asteroids.get ⟨n, hlt⟩).Position
        (g.Asteroids.get ⟨n, hlt⟩).Radius
    · refine ⟨n, _, Nat.lt_succ_self n, hn, hc, ?_, ?_⟩
      · intro k _ h1 h2 _
        omega
      · have hc2 : M.hypot (b.Position.X - (g.Asteroids.get ⟨n, hlt⟩).Position.X)
            (b.Position.Y - (g.Asteroids.get ⟨n, hlt⟩).Position.Y)
            < (g.Asteroids.get ⟨n, hlt⟩).Radius := hc
        simp only [hitAsteroidFrom, hn]
        rw [if_pos hc2]
    · obtain ⟨j, a, hj, ha, hw⟩ := h
      have hjn : j ≠ n := by
        intro e
        rw [e, hn] at ha
        have e2 : g.Asteroids.get ⟨n, hlt⟩ = a := Option.some.inj ha
        rw [e2] at hc
        exact hc hw
      have hj2 : j < n := by omega
      obtain ⟨j2, a2, p1, p2, p3, p4, p5⟩ := ih g r (Nat.le_of_lt hlt) ⟨j, a, hj2, ha, hw⟩
      refine ⟨j2, a2, Nat.lt_succ_of_lt p1, p2, p3, ?_, ?_⟩
      · intro k a3 h1 h2 h3
        by_cases hk : k = n
        · rw [hk, hn] at h3
          have e2 : g.Asteroids.get ⟨n, hlt⟩ = a3 := Option.some.inj h3
          rw [← e2]
          exact hc
        · exact p4 k a3 h1 (by omega) h3
      · have hc2 : ¬ M.hypot (b.Position.X - (g.Asteroids.get ⟨n, hlt⟩).Position.X)
            (b.Position.Y - (g.Asteroids.get ⟨n, hlt⟩).Position.Y)
            < (g.Asteroids.get ⟨n, hlt⟩).Radius := hc
        simp only [hitAsteroidFrom, hn]
        rw [if_neg hc2]
        exact p5

/-- The UFO scan of a bullet that is within no UFO below `n` changes nothing and reports
no hit. -/
theorem hitUFOFrom_miss (M : MathOps R) (b : Bullet R) :
    ∀ (n : Nat) (g : Game R),
      (∀ j u, j < n → g.UFOs[j]? = some u → ¬ Within M b.Position u.Position u.Radius) →
      hitUFOFrom M b n g = (g, false) := by
  intro n
  induction n with
  | zero =>
    intro g _
    rfl
  | succ n ih =>
    intro g h
    simp only [hitUFOFrom]
    cases hj : g.UFOs[n]? with
    | none => rfl
    | some u =>
      have hn : ¬ M.hypot (b.Position.X - u.Position.X) (b.Position.Y - u.Position.Y)
          < u.Radius := h n u (Nat.lt_succ_self n) hj
      simp only
      rw [if_neg hn]
      exact ih g (fun j u hlt => h j u (Nat.lt_succ_of_lt hlt))

/-- The UFO scan of a bullet that is within some UFO below `n` removes the one of highest
index among them, and no other, and adds its score value. -/
theorem hitUFOFrom_hit (M : MathOps R) (b : Bullet R) :
    ∀ (n : Nat) (g : Game R), n ≤ g.UFOs.length →
      (∃ j u, j < n ∧ g.UFOs[j]? = some u ∧ Within M b.Position u.Position u.Radius) →
      ∃ j u, j < n ∧ g.UFOs[j]? = some u ∧ Within M b.Position u.Position u.Radius ∧
        (∀ k u2, j < k → k < n → g.UFOs[k]? = some u2 →
          ¬ Within M b.Position u2.Position u2.Radius) ∧
        hitUFOFrom M b n g
          = ({ g with Score := g.Score + u.ScoreValue, UFOs := g.UFOs.eraseIdx j }, true) := by
  intro n
  induction n with
  | zero =>
    intro g _ h
    obtain ⟨j, _, hj, _⟩ := h
    exact absurd hj (Nat.not_lt_zero j)
  | succ n ih =>
    intro g hle h
    have hlt : n < g.UFOs.length := hle
    have hn : g.UFOs[n]? = some (g.UFOs.get ⟨n, hlt⟩) := List.getElem?_eq_getElem hlt
    by_cases hc : Within M b.Position (g.UFOs.get ⟨n, hlt⟩).Position
        (g.UFOs.get ⟨n, hlt⟩).Radius
    · refine ⟨n, _, Nat.lt_succ_self n, hn, hc, ?_, ?_⟩
      · intro k _ h1 h2 _
        omega
      · have hc2 : M.hypot (b.Position.X - (g.UFOs.get ⟨n, hlt⟩).Position.X)
            (b.Position.Y - (g.UFOs.get ⟨n, hlt⟩).Position.Y)
            < (g.UFOs.get ⟨n, hlt⟩).Radius := hc
        simp only [hitUFOFrom, hn]
        rw [if_pos hc2]
    · obtain ⟨j, u, hj, hu, hw⟩ := h
      have hjn : j ≠ n := by
        intro e
        rw [e, hn] at hu
        have e2 : g.UFOs.get ⟨n, hlt⟩ = u := Option.some.inj hu
        rw [e2] at hc
        exact hc hw
      have hj2 : j < n := by omega
      obtain ⟨j2, u2, p1, p2, p3, p4, p5⟩ := ih g (Nat.le_of_lt hlt) ⟨j, u, hj2, hu, hw⟩
      refine ⟨j2, u2, Nat.lt_succ_of_lt p1, p2, p3, ?_, ?_⟩
      · intro k u3 h1 h2 h3
        by_cases hk : k = n
        · rw [hk, hn] at h3
          have e2 : g.UFOs.get ⟨n, hlt⟩ = u3 := Option.some.inj h3
          rw [← e2]
          exact hc
        · exact p4 k u3 h1 (by omega) h3
      · have hc2 : ¬ M.hypot (b.Position.X - (g.UFOs.get ⟨n, hlt⟩).Position.X)
            (b.Position.Y - (g.UFOs.get ⟨n, hlt⟩).Position.Y)
            < (g.UFOs.get ⟨n, hlt⟩).Radius := hc
        simp only [hitUFOFrom, hn]
        rw [if_neg hc2]
        exact p5

/-- An iteration of the bullet loop whose asteroid scan hits the asteroid at `j`. -/
theorem updateBullet_asteroid (M : MathOps R) (i : Nat) (b0 : Bullet R) (g : Game R)
    (r : Rng R) (j : Nat)
    (h : hitAsteroidFrom M (moveBullet g b0) g.Asteroids.length
        { g with Bullets := g.Bullets.set i (moveBullet g b0) } r
      = ((bulletHit M { g with Bullets := g.Bullets.set i (moveBullet g b0) } j r).1,
         (bulletHit M { g with Bullets := g.Bullets.set i (moveBullet g b0) } j r).2, true)) :
    (updateBullet M i b0 g r).1
      = { g with
          Bullets := g.Bullets.eraseIdx i
          Asteroids :=
            (bulletHit M { g with Bullets := g.Bullets.set i (moveBullet g b0) } j r).1.Asteroids
          Score := g.Score + 100 } := by
  have key : ∀ (g1 : Game R), g1 = { g with Bullets := g.Bullets.set i (moveBullet g b0) } →
      hitAsteroidFrom M (moveBullet g b0) g1.Asteroids.length g1 r
        = ((bulletHit M g1 j r).1, (bulletHit M g1 j r).2, true) →
      (if (if (hitAsteroidFrom M (moveBullet g b0) g1.Asteroids.length g1 r).2.2 = false
          then hitUFOFrom M (moveBullet g b0)
            (hitAsteroidFrom M (moveBullet g b0) g1.Asteroids.length g1 r).1.UFOs.length
            (hitAsteroidFrom M (moveBullet g b0) g1.Asteroids.length g1 r).1
          else ((hitAsteroidFrom M (moveBullet g b0) g1.Asteroids.length g1 r).1, true)).2
            = true ∨ (moveBullet g b0).Lifespan ≤ 0 then
        (({ (if (hitAsteroidFrom M (moveBullet g b0) g1.Asteroids.length g1 r).2.2 = false
          then hitUFOFrom M (moveBullet g b0)
            (hitAsteroidFrom M (moveBullet g b0) g1.Asteroids.length g1 r).1.UFOs.length
            (hitAsteroidFrom M (moveBullet g b0) g1.Asteroids.length g1 r).1
          else ((hitAsteroidFrom M (moveBullet g b0) g1.Asteroids.length g1 r).1, true)).1 with
            Bullets :=
              (if (hitAsteroidFrom M (moveBullet g b0) g1.Asteroids.length g1 r).2.2 = false
              then hitUFOFrom M (moveBullet g b0)
                (hitAsteroidFrom M (moveBullet g b0) g1.Asteroids.length g1 r).1.UFOs.length
                (hitAsteroidFrom M (moveBullet g b0) g1.Asteroids.length g1 r).1
              else ((hitAsteroidFrom M (moveBullet g b0) g1.Asteroids.length g1 r).1,
                true)).1.Bullets.eraseIdx i },
          (hitAsteroidFrom M (moveBullet g b0) g1.Asteroids.length g1 r).2.1) : Game R × Rng R)
      else ((if (hitAsteroidFrom M (moveBullet g b0) g1.Asteroids.length g1 r).2.2 = false
          then hitUFOFrom M (moveBullet g b0)
            (hitAsteroidFrom M (moveBullet g b0) g1.Asteroids.length g1 r).1.UFOs.length
            (hitAsteroidFrom M (moveBullet g b0) g1.Asteroids.length g1 r).1
          else ((hitAsteroidFrom M (moveBullet g b0) g1.Asteroids.length g1 r).1, true)).1,
          (hitAsteroidFrom M (moveBullet g b0) g1.Asteroids.length g1 r).2.1)).1
        = { g with
            Bullets := g.Bullets.eraseIdx i
            Asteroids := (bulletHit M g1 j r).1.Asteroids
            Score := g.Score + 100 } := by
    intro g1 e1 hh
    rw [hh]
    obtain ⟨f, _⟩ := splitAsteroid_frame M g1 j r
    have hb : (bulletHit M g1 j r).1
        = { g1 with
            Asteroids := (bulletHit M g1 j r).1.Asteroids
            Score := g1.Score + 100 } := by
      simp only [bulletHit]
      rw [f]
    simp only [Bool.true_eq_false, if_false, true_or, if_true]
    rw [hb, e1]
    simp only [eraseIdx_set_self]
  exact key _ rfl h

/-- An iteration of the bullet loop whose asteroid scan misses and whose UFO scan hits the
UFO at `j`, which is `u`. -/
theorem updateBullet_ufo (M : MathOps R) (i : Nat) (b0 : Bullet R) (g : Game R)
    (r : Rng R) (j : Nat) (u : UFO R)
    (h1 : hitAsteroidFrom M (moveBullet g b0) g.Asteroids.length
        { g with Bullets := g.Bullets.set i (moveBullet g b0) } r
      = ({ g with Bullets := g.Bullets.set i (moveBullet g b0) }, r, false))
    (h2 : hitUFOFrom M (moveBullet g b0) g.UFOs.length
        { g with Bullets := g.Bullets.set i (moveBullet g b0) }
      = ({ g with
            Bullets := g.Bullets.set i (moveBullet g b0)
            Score := g.Score + u.ScoreValue
            UFOs := g.UFOs.eraseIdx j }, true)) :
    updateBullet M i b0 g r
      = ({ g with
            Bullets := g.Bullets.eraseIdx i
            Score := g.Score + u.ScoreValue
            UFOs := g.UFOs.eraseIdx j }, r) := by
  simp only [updateBullet, h1, h2, if_true, true_or, eraseIdx_set_self]

/-- An iteration of the bullet loop whose two scans miss: the bullet moves and ages, and
is removed when its lifespan is used up. -/
theorem updateBullet_miss (M : MathOps R) (i : Nat) (b0 : Bullet R) (g : Game R)
    (r : Rng R)
    (h1 : hitAsteroidFrom M (moveBullet g b0) g.Asteroids.length
        { g with Bullets := g.Bullets.set i (moveBullet g b0) } r
      = ({ g with Bullets := g.Bullets.set i (moveBullet g b0) }, r, false))
    (h2 : hitUFOFrom M (moveBullet g b0) g.UFOs.length
        { g with Bullets := g.Bullets.set i (moveBullet g b0) }
      = ({ g with Bullets := g.Bullets.set i (moveBullet g b0) }, false)) :
    updateBullet M i b0 g r
      = ({ g with
            Bullets := if (moveBullet g b0).Lifespan ≤ 0 then g.Bullets.eraseIdx i
              else g.Bullets.set i (moveBullet g b0) }, r) := by
  by_cases hl : (moveBullet g b0).Lifespan ≤ 0
  · simp only [updateBullet, h1, h2, if_true, hl, or_true, eraseIdx_set_self]
  · simp only [updateBullet, h1, h2, if_true, hl, or_false, Bool.false_eq_true, if_false]

/-- C17. In an iteration of the bullet loop, for the bullet `b0` at index `i`, tested at
the position it has after its move: (1) if it is within some asteroid, then exactly one
asteroid is split, the one of highest index among those it is within: the score rises by
exactly 100, the asteroid is removed (and replaced by two fragments of the next tier down
when its tier is above 1), every UFO stays, whether the bullet is within it or not, and
the bullet is removed; (2) if it is within no asteroid but within some UFO, then exactly
one UFO is removed, the one of highest index among those it is within, the score rises by
exactly that UFO's score value, the asteroids are unchanged and the bullet is removed;
(3) if it is within neither, no asteroid and no UFO is removed and the score is
unchanged. -/
theorem bullet_one_target (M : MathOps R) (i : Nat) (b0 : Bullet R) (g : Game R)
    (r : Rng R) (hb : g.Bullets[i]? = some b0) :
    ((∃ (j : Nat) (a : Asteroid R), g.Asteroids[j]? = some a ∧
        Within M (moveBullet g b0).Position a.Position a.Radius) →
      ∃ (j : Nat) (a : Asteroid R), g.Asteroids[j]? = some a ∧
        Within M (moveBullet g b0).Position a.Position a.Radius ∧
        (∀ (k : Nat) (a2 : Asteroid R), j < k → g.Asteroids[k]? = some a2 →
          ¬ Within M (moveBullet g b0).Position a2.Position a2.Radius) ∧
        (updateBullet M i b0 g r).1.Score = g.Score + 100 ∧
        (¬ a.Size > 1 → (updateBullet M i b0 g r).1.Asteroids = g.Asteroids.eraseIdx j) ∧
        (a.Size > 1 → ∃ f1 f2 : Asteroid R,
          (updateBullet M i b0 g r).1.Asteroids = g.Asteroids.eraseIdx j ++ [f1, f2] ∧
          f1.Size = a.Size - 1 ∧ f2.Size = a.Size - 1) ∧
        (updateBullet M i b0 g r).1.UFOs = g.UFOs ∧
        (updateBullet M i b0 g r).1.Bullets = g.Bullets.eraseIdx i ∧
        (updateBullet M i b0 g r).1.Bullets.length + 1 = g.Bullets.length) ∧
    ((∀ (j : Nat) (a : Asteroid R), g.Asteroids[j]? = some a →
        ¬ Within M (moveBullet g b0).Position a.Position a.Radius) →
      (∃ (j : Nat) (u : UFO R), g.UFOs[j]? = some u ∧
        Within M (moveBullet g b0).Position u.Position u.Radius) →
      ∃ (j : Nat) (u : UFO R), g.UFOs[j]? = some u ∧
        Within M (moveBullet g b0).Position u.Position u.Radius ∧
        (∀ (k : Nat) (u2 : UFO R), j < k → g.UFOs[k]? = some u2 →
          ¬ Within M (moveBullet g b0).Position u2.Position u2.Radius) ∧
        (updateBullet M i b0 g r).1.Score = g.Score + u.ScoreValue ∧
        (updateBullet M i b0 g r).1.UFOs = g.UFOs.eraseIdx j ∧
        (updateBullet M i b0 g r).1.UFOs.length + 1 = g.UFOs.length ∧
        (updateBullet M i b0 g r).1.Asteroids = g.Asteroids ∧
        (updateBullet M i b0 g r).1.Bullets = g.Bullets.eraseIdx i ∧
        (updateBullet M i b0 g r).1.Bullets.length + 1 = g.Bullets.length) ∧
    ((∀ (j : Nat) (a : Asteroid R), g.Asteroids[j]? = some a →
        ¬ Within M (moveBullet g b0).Position a.Position a.Radius) →
      (∀ (j : Nat) (u : UFO R), g.UFOs[j]? = some u →
        ¬ Within M (moveBullet g b0).Position u.Position u.Radius) →
      (updateBullet M i b0 g r).1.Score = g.Score ∧
      (updateBullet M i b0 g r).1.Asteroids = g.Asteroids ∧
      (updateBullet M i b0 g r).1.UFOs = g.UFOs) := by
  have hi : i < g.Bullets.length := (List.getElem?_eq_some.mp hb).1
  have hlen : (g.Bullets.eraseIdx i).length + 1 = g.Bullets.length := by
    rw [List.length_eraseIdx, if_pos hi]
    omega
  refine ⟨?_, ?_, ?_⟩
  · intro h
    obtain ⟨j0, a0, h0, w0⟩ := h
    have hj0 : j0 < g.Asteroids.length := (List.getElem?_eq_some.mp h0).1
    obtain ⟨j, a, p1, p2, p3, p4, p5⟩ := hitAsteroidFrom_hit M (moveBullet g b0)
      g.Asteroids.length { g with Bullets := g.Bullets.set i (moveBullet g b0) } r
      (le_refl _) ⟨j0, a0, hj0, h0, w0⟩
    have e := updateBullet_asteroid M i b0 g r j p5
    obtain ⟨_, q2, q3⟩ := bulletHit_spec M
      { g with Bullets := g.Bullets.set i (moveBullet g b0) } j r a p2
    refine ⟨j, a, p2, p3, ?_, ?_, ?_, ?_, ?_, ?_, ?_⟩
    · intro k a2 h1 h2
      exact p4 k a2 h1 (List.getElem?_eq_some.mp h2).1 h2
    · rw [e]
    · intro hs
      rw [e]
      exact q2 hs
    · intro hs
      obtain ⟨f1, f2, c1, c2, c3⟩ := q3 hs
      refine ⟨f1, f2, ?_, c2, c3⟩
      rw [e]
      exact c1
    · rw [e]
    · rw [e]
    · rw [e]
      exact hlen
  · intro hno h
    obtain ⟨j0, u0, h0, w0⟩ := h
    have hj0 : j0 < g.UFOs.length := (List.getElem?_eq_some.mp h0).1
    have m1 := hitAsteroidFrom_miss M (moveBullet g b0) g.Asteroids.length
      { g with Bullets := g.Bullets.set i (moveBullet g b0) } r
      (fun j a _ hj => hno j a hj)
    obtain ⟨j, u, p1, p2, p3, p4, p5⟩ := hitUFOFrom_hit M (moveBullet g b0)
      g.UFOs.length { g with Bullets := g.Bullets.set i (moveBullet g b0) }
      (le_refl _) ⟨j0, u0, hj0, h0, w0⟩
    have e := updateBullet_ufo M i b0 g r j u m1 p5
    refine ⟨j, u, p2, p3, ?_, ?_, ?_, ?_, ?_, ?_, ?_⟩
    · intro k u2 h1 h2
      exact p4 k u2 h1 (List.getElem?_eq_some.mp h2).1 h2
    · rw [e]
    · rw [e]
    · rw [e]
      show (g.UFOs.eraseIdx j).length + 1 = g.UFOs.length
      have p1b : j < g.UFOs.length := p1
      rw [List.length_eraseIdx, if_pos p1b]
      omega
    · rw [e]
    · rw [e]
    · rw [e]
      exact hlen
  · intro hno hnu
    have m1 := hitAsteroidFrom_miss M (moveBullet g b0) g.Asteroids.length
      { g with Bullets := g.Bullets.set i (moveBullet g b0) } r
      (fun j a _ hj => hno j a hj)
    have m2 := hitUFOFrom_miss M (moveBullet g b0) g.UFOs.length
      { g with Bullets := g.Bullets.set i (moveBullet g b0) }
      (fun j u _ hj => hnu j u hj)
    have e := updateBullet_miss M i b0 g r m1 m2
    rw [e]
    exact ⟨rfl, rfl, rfl⟩

/-- The bullet `slug` of the fixtures `crossfire` and `saucerShot` stays at `(100, 100)`
when it moves. -/
theorem slug_position :
    (moveBullet crossfire slug).Position = ⟨100, 100⟩ ∧
    (moveBullet saucerShot slug).Position = ⟨100, 100⟩ := by
  constructor
  · simp [moveBullet, Game.wrap, crossfire, arena, slug, screenWidth, screenHeight]
    norm_num
  · simp [moveBullet, Game.wrap, saucerShot, arena, slug, screenWidth, screenHeight]
    norm_num

/-- In the fixtures, `slug` is within the asteroid of `crossfire`, within `saucer`, and
not within the asteroid of `saucerShot`. -/
theorem slug_within :
    Within ratMath (moveBullet crossfire slug).Position
      (rock 3 (⟨100, 100⟩ : Vector2D ℚ) ⟨0, 0⟩).Position
      (rock 3 (⟨100, 100⟩ : Vector2D ℚ) ⟨0, 0⟩).Radius ∧
    Within ratMath (moveBullet crossfire slug).Position saucer.Position saucer.Radius ∧
    Within ratMath (moveBullet saucerShot slug).Position saucer.Position saucer.Radius ∧
    ¬ Within ratMath (moveBullet saucerShot slug).Position
      (rock 3 (⟨500, 500⟩ : Vector2D ℚ) ⟨0, 0⟩).Position
      (rock 3 (⟨500, 500⟩ : Vector2D ℚ) ⟨0, 0⟩).Radius := by
  rw [slug_position.1, slug_position.2]
  simp only [Within, ratMath, rock, saucer]
  norm_num

/-- Witness of C17: in `crossfire` the bullet is within both the asteroid and the UFO, and
the iteration scores 100, keeps the UFO and removes the bullet; in `saucerShot` it is
within the UFO only, and the iteration scores the 1000 points of the UFO, removes it,
keeps the asteroids and removes the bullet. -/
theorem bullet_one_target_witness :
    crossfire.Bullets[0]? = some slug ∧
    (∃ (j : Nat) (a : Asteroid ℚ), crossfire.Asteroids[j]? = some a ∧
      Within ratMath (moveBullet crossfire slug).Position a.Position a.Radius) ∧
    (∃ (j : Nat) (u : UFO ℚ), crossfire.UFOs[j]? = some u ∧
      Within ratMath (moveBullet crossfire slug).Position u.Position u.Radius) ∧
    (updateBullet ratMath 0 slug crossfire (zeroRng ℚ)).1.Score = 100 ∧
    (updateBullet ratMath 0 slug crossfire (zeroRng ℚ)).1.UFOs = [saucer] ∧
    (updateBullet ratMath 0 slug crossfire (zeroRng ℚ)).1.Bullets = [] ∧
    saucerShot.Bullets[0]? = some slug ∧
    (∀ (j : Nat) (a : Asteroid ℚ), saucerShot.Asteroids[j]? = some a →
      ¬ Within ratMath (moveBullet saucerShot slug).Position a.Position a.Radius) ∧
    (∃ (j : Nat) (u : UFO ℚ), saucerShot.UFOs[j]? = some u ∧
      Within ratMath (moveBullet saucerShot slug).Position u.Position u.Radius) ∧
    (updateBullet ratMath 0 slug saucerShot (zeroRng ℚ)).1.Score = 1000 ∧
    (updateBullet ratMath 0 slug saucerShot (zeroRng ℚ)).1.UFOs = [] ∧
    (updateBullet ratMath 0 slug saucerShot (zeroRng ℚ)).1.Asteroids = saucerShot.Asteroids ∧
    (updateBullet ratMath 0 slug saucerShot (zeroRng ℚ)).1.Bullets = [] := by
  have hA : ∃ (j : Nat) (a : Asteroid ℚ), crossfire.Asteroids[j]? = some a ∧
      Within ratMath (moveBullet crossfire slug).Position a.Position a.Radius :=
    ⟨0, _, rfl, slug_within.1⟩
  have hU : ∃ (j : Nat) (u : UFO ℚ), crossfire.UFOs[j]? = some u ∧
      Within ratMath (moveBullet crossfire slug).Position u.Position u.Radius :=
    ⟨0, _, rfl, slug_within.2.1⟩
  have hN : ∀ (j : Nat) (a : Asteroid ℚ), saucerShot.Asteroids[j]? = some a →
      ¬ Within ratMath (moveBullet saucerShot slug).Position a.Position a.Radius := by
    intro j a hj
    cases j with
    | zero =>
      have e : rock 3 (⟨500, 500⟩ : Vector2D ℚ) ⟨0, 0⟩ = a := Option.some.inj hj
      rw [← e]
      exact slug_within.2.2.2
    | succ j => exact absurd hj (by simp [saucerShot, arena])
  have hV : ∃ (j : Nat) (u : UFO ℚ), saucerShot.UFOs[j]? = some u ∧
      Within ratMath (moveBullet saucerShot slug).Position u.Position u.Radius :=
    ⟨0, _, rfl, slug_within.2.2.1⟩
  obtain ⟨_, _, _, _, _, sc, _, _, uf, bl, _⟩ :=
    (bullet_one_target ratMath 0 slug crossfire (zeroRng ℚ) rfl).1 hA
  obtain ⟨j, u, hj, _, _, sc2, uf2, _, as2, bl2, _⟩ :=
    (bullet_one_target ratMath 0 slug saucerShot (zeroRng ℚ) rfl).2.1 hN hV
  have hju : j = 0 ∧ u = saucer := by
    cases j with
    | zero => exact ⟨rfl, (Option.some.inj hj).symm⟩
    | succ j => exact absurd hj (by simp [saucerShot, arena])
  rw [hju.1] at uf2
  rw [hju.2] at sc2
  exact ⟨rfl, hA, hU, sc, uf, bl, rfl, hN, hV, sc2, uf2, as2, bl2⟩

/-! ### Particles have no gameplay effect -/

/-- Running one particle-blind function after another is particle-blind. -/
theorem Blind.comp {f h : Game R → Rng R → Game R × Rng R} (hf : Blind f) (hh : Blind h) :
    Blind (fun g r => h (f g r).1 (f g r).2) := by
  intro g ps r
  obtain ⟨ps1, e1⟩ := hf g ps r
  obtain ⟨ps2, e2⟩ := hh (f g r).1 ps1 (f g r).2
  refine ⟨ps2, ?_⟩
  show h (f { g with Particles := ps } r).1 (f { g with Particles := ps } r).2 = _
  rw [e1]
  exact e2

/-- A function of the session alone that commutes with replacing the particle list is
particle-blind. -/
theorem Blind.pure (k : Game R → Game R)
    (hk : ∀ (g : Game R) (ps : List (Particle R)),
      k { g with Particles := ps } = { k g with Particles := ps }) :
    Blind (fun g r => (k g, r)) := by
  intro g ps r
  refine ⟨ps, ?_⟩
  show (k { g with Particles := ps }, r) = _
  rw [hk]

/-- The loop of `spawnExplosion` is particle-blind. -/
theorem spawnExplosionLoop_blind (M : MathOps R) (pos : Vector2D R) :
    ∀ (n : Nat), Blind (spawnExplosionLoop M pos n) := by
  intro n
  induction n with
  | zero =>
    intro g ps r
    exact ⟨ps, rfl⟩
  | succ n ih =>
    intro g ps r
    have hp : Blind (spawnParticle M pos) := by
      intro g ps r
      exact ⟨_, rfl⟩
    exact (Blind.comp hp ih) g ps r

/-- `killShip` with a ship, unfolded. -/
theorem killShip_eq (M : MathOps R) (g : Game R) (r : Rng R) (s : Ship R)
    (h : g.Ship = some s) :
    g.killShip M r
      = ({ (spawnExplosionLoop M s.Position 10 g r).1 with
            Ship := none
            Lives := (spawnExplosionLoop M s.Position 10 g r).1.Lives - 1
            RespawnTimer := 2.0 },
         (spawnExplosionLoop M s.Position 10 g r).2) := by
  simp only [Game.killShip, h, Game.spawnExplosion]

/-- `killShip` is particle-blind. -/
theorem killShip_blind (M : MathOps R) : Blind (Game.killShip M) := by
  intro g ps r
  rcases Option.eq_none_or_eq_some g.Ship with hs | ⟨s, hs⟩
  · have hs2 : ({ g with Particles := ps } : Game R).Ship = none := hs
    refine ⟨ps, ?_⟩
    rw [killShip_none M g r hs, killShip_none M { g with Particles := ps } r hs2]
  · have hs2 : ({ g with Particles := ps } : Game R).Ship = some s := hs
    obtain ⟨ps2, e⟩ := spawnExplosionLoop_blind M s.Position 10 g ps r
    refine ⟨ps2, ?_⟩
    rw [killShip_eq M g r s hs, killShip_eq M { g with Particles := ps } r s hs2, e]

/-- The collision test of the ship, when it destroys the ship. -/
theorem collideShip_kill (M : MathOps R) (c : Vector2D R) (rad : R) (g : Game R) (r : Rng R)
    (s : Ship R) (hs : g.Ship = some s) (h1 : s.IsInvincible = false ∧ g.GameState = 0)
    (h2 : M.hypot (s.Position.X - c.X) (s.Position.Y - c.Y) < rad) :
    collideShip M c rad g r = g.killShip M r := by
  simp only [collideShip, hs, if_pos h1, if_pos h2]

/-- The collision test of the ship, when it leaves the ship alone. -/
theorem collideShip_skip (M : MathOps R) (c : Vector2D R) (rad : R) (g : Game R) (r : Rng R)
    (h : ∀ s, g.Ship = some s → ¬ ((s.IsInvincible = false ∧ g.GameState = 0) ∧
      M.hypot (s.Position.X - c.X) (s.Position.Y - c.Y) < rad)) :
    collideShip M c rad g r = (g, r) := by
  rcases Option.eq_none_or_eq_some g.Ship with hs | ⟨s, hs⟩
  · simp only [collideShip, hs]
  · have hn := h s hs
    simp only [collideShip, hs]
    by_cases h1 : s.IsInvincible = false ∧ g.GameState = 0
    · rw [if_pos h1, if_neg (fun h2 => hn ⟨h1, h2⟩)]
    · rw [if_neg h1]

/-- The collision test of the ship is particle-blind. -/
theorem collideShip_blind (M : MathOps R) (c : Vector2D R) (rad : R) :
    Blind (collideShip M c rad) := by
  intro g ps r
  by_cases hk : ∃ s, g.Ship = some s ∧ (s.IsInvincible = false ∧ g.GameState = 0) ∧
      M.hypot (s.Position.X - c.X) (s.Position.Y - c.Y) < rad
  · obtain ⟨s, hs, h1, h2⟩ := hk
    obtain ⟨ps2, e⟩ := killShip_blind M g ps r
    refine ⟨ps2, ?_⟩
    rw [collideShip_kill M c rad g r s hs h1 h2,
      collideShip_kill M c rad { g with Particles := ps } r s hs h1 h2]
    exact e
  · have hn : ∀ s, g.Ship = some s → ¬ ((s.IsInvincible = false ∧ g.GameState = 0) ∧
        M.hypot (s.Position.X - c.X) (s.Position.Y - c.Y) < rad) :=
      fun s hs hc => hk ⟨s, hs, hc⟩
    refine ⟨ps, ?_⟩
    rw [collideShip_skip M c rad g r hn, collideShip_skip M c rad { g with Particles := ps } r hn]

/-- An iteration of the asteroid loop is particle-blind. -/
theorem updateAsteroid_blind (M : MathOps R) (i : Nat) (a0 : Asteroid R) :
    Blind (updateAsteroid M i a0) := by
  intro g ps r
  exact collideShip_blind M _ _ { g with Asteroids := g.Asteroids.set i { a0 with
    Position := g.wrap ⟨a0.Position.X + a0.Velocity.X, a0.Position.Y + a0.Velocity.Y⟩
    Rotation := a0.Rotation + a0.RotationSpeed } } ps r

/-- The asteroid loop, unfolded once. -/
theorem updateAsteroidsFrom_step (M : MathOps R) (n : Nat) (g : Game R) (r : Rng R) :
    (g.Asteroids[n]? = none → updateAsteroidsFrom M (n + 1) g r = (g, r)) ∧
    (∀ a0, g.Asteroids[n]? = some a0 →
      updateAsteroidsFrom M (n + 1) g r
        = updateAsteroidsFrom M n (updateAsteroid M n a0 g r).1 (updateAsteroid M n a0 g r).2) := by
  constructor
  · intro h
    simp only [updateAsteroidsFrom, h]
  · intro a0 h
    simp only [updateAsteroidsFrom, h]

/-- The asteroid loop is particle-blind. -/
theorem updateAsteroidsFrom_blind (M : MathOps R) :
    ∀ (n : Nat), Blind (updateAsteroidsFrom M n) := by
  intro n
  induction n with
  | zero =>
    intro g ps r
    exact ⟨ps, rfl⟩
  | succ n ih =>
    intro g ps r
    rcases Option.eq_none_or_eq_some g.Asteroids[n]? with ha | ⟨a0, ha⟩
    · refine ⟨ps, ?_⟩
      rw [(updateAsteroidsFrom_step M n g r).1 ha,
        (updateAsteroidsFrom_step M n { g with Particles := ps } r).1 ha]
    · obtain ⟨ps2, e⟩ := (Blind.comp (updateAsteroid_blind M n a0) ih) g ps r
      refine ⟨ps2, ?_⟩
      rw [(updateAsteroidsFrom_step M n g r).2 a0 ha,
        (updateAsteroidsFrom_step M n { g with Particles := ps } r).2 a0 ha]
      exact e

/-- `splitAsteroid` at a valid index, unfolded. -/
theorem splitAsteroid_eq (M : MathOps R) (g : Game R) (j : Nat) (r : Rng R) (a : Asteroid R)
    (h : g.Asteroids[j]? = some a) :
    g.splitAsteroid M j r
      = if a.Size > 1 then
          spawnFragment M a
            (spawnFragment M a { g with Asteroids := g.Asteroids.eraseIdx j } r).1
            (spawnFragment M a { g with Asteroids := g.Asteroids.eraseIdx j } r).2
        else ({ g with Asteroids := g.Asteroids.eraseIdx j }, r) := by
  simp only [Game.splitAsteroid, h]

/-- `splitAsteroid` neither reads nor writes the particle list. -/
theorem splitAsteroid_particles (M : MathOps R) (g : Game R) (ps : List (Particle R))
    (j : Nat) (r : Rng R) :
    Game.splitAsteroid M { g with Particles := ps } j r
      = ({ (g.splitAsteroid M j r).1 with Particles := ps }, (g.splitAsteroid M j r).2) := by
  rcases Option.eq_none_or_eq_some g.Asteroids[j]? with ha | ⟨a, ha⟩
  · have e1 : g.splitAsteroid M j r = (g, r) := by simp only [Game.splitAsteroid, ha]
    have ha2 : ({ g with Particles := ps } : Game R).Asteroids[j]? = none := ha
    have e2 : Game.splitAsteroid M { g with Particles := ps } j r
        = ({ g with Particles := ps }, r) := by simp only [Game.splitAsteroid, ha2]
    rw [e1, e2]
  · rw [splitAsteroid_eq M g j r a ha, splitAsteroid_eq M { g with Particles := ps } j r a ha]
    by_cases hs : a.Size > 1
    · rw [if_pos hs, if_pos hs]
      rfl
    · rw [if_neg hs, if_neg hs]

/-- A bullet hit neither reads nor writes the particle list. -/
theorem bulletHit_particles (M : MathOps R) (g : Game R) (ps : List (Particle R))
    (j : Nat) (r : Rng R) :
    bulletHit M { g with Particles := ps } j r
      = ({ (bulletHit M g j r).1 with Particles := ps }, (bulletHit M g j r).2) := by
  show ({ (Game.splitAsteroid M { g with Particles := ps } j r).1 with
      Score := (Game.splitAsteroid M { g with Particles := ps } j r).1.Score + 100 },
    (Game.splitAsteroid M { g with Particles := ps } j r).2) = _
  rw [splitAsteroid_particles]
  rfl

/-- The asteroid scan of a bullet, unfolded once. -/
theorem hitAsteroidFrom_step (M : MathOps R) (b : Bullet R) (n : Nat) (g : Game R)
    (r : Rng R) :
    (g.Asteroids[n]? = none → hitAsteroidFrom M b (n + 1) g r = (g, r, false)) ∧
    (∀ a, g.Asteroids[n]? = some a →
      hitAsteroidFrom M b (n + 1) g r
        = if M.hypot (b.Position.X - a.Position.X) (b.Position.Y - a.Position.Y) < a.Radius
          then ((bulletHit M g n r).1, (bulletHit M g n r).2, true)
          else hitAsteroidFrom M b n g r) := by
  constructor
  · intro h
    simp only [hitAsteroidFrom, h]
  · intro a h
    simp only [hitAsteroidFrom, h]

/-- The asteroid scan of a bullet neither reads nor writes the particle list. -/
theorem hitAsteroidFrom_particles (M : MathOps R) (b : Bullet R) :
    ∀ (n : Nat) (g : Game R) (ps : List (Particle R)) (r : Rng R),
      hitAsteroidFrom M b n { g with Particles := ps } r
        = ({ (hitAsteroidFrom M b n g r).1 with Particles := ps },
           (hitAsteroidFrom M b n g r).2) := by
  intro n
  induction n with
  | zero =>
    intro g ps r
    rfl
  | succ n ih =>
    intro g ps r
    rcases Option.eq_none_or_eq_some g.Asteroids[n]? with ha | ⟨a, ha⟩
    · rw [(hitAsteroidFrom_step M b n g r).1 ha,
        (hitAsteroidFrom_step M b n { g with Particles := ps } r).1 ha]
    · rw [(hitAsteroidFrom_step M b n g r).2 a ha,
        (hitAsteroidFrom_step M b n { g with Particles := ps } r).2 a ha]
      by_cases hc : M.hypot (b.Position.X - a.Position.X) (b.Position.Y - a.Position.Y)
          < a.Radius
      · rw [if_pos hc, if_pos hc, bulletHit_particles]
      · rw [if_neg hc, if_neg hc]
        exact ih g ps r

/-- The UFO scan of a bullet, unfolded once. -/
theorem hitUFOFrom_step (M : MathOps R) (b : Bullet R) (n : Nat) (g : Game R) :
    (g.UFOs[n]? = none → hitUFOFrom M b (n + 1) g = (g, false)) ∧
    (∀ u, g.UFOs[n]? = some u →
      hitUFOFrom M b (n + 1) g
        = if M.hypot (b.Position.X - u.Position.X) (b.Position.Y - u.Position.Y) < u.Radius
          then ({ g with Score := g.Score + u.ScoreValue, UFOs := g.UFOs.eraseIdx n }, true)
          else hitUFOFrom M b n g) := by
  constructor
  · intro h
    simp only [hitUFOFrom, h]
  · intro u h
    simp only [hitUFOFrom, h]

/-- The UFO scan of a bullet neither reads nor writes the particle list. -/
theorem hitUFOFrom_particles (M : MathOps R) (b : Bullet R) :
    ∀ (n : Nat) (g : Game R) (ps : List (Particle R)),
      hitUFOFrom M b n { g with Particles := ps }
        = ({ (hitUFOFrom M b n g).1 with Particles := ps }, (hitUFOFrom M b n g).2) := by
  intro n
  induction n with
  | zero =>
    intro g ps
    rfl
  | succ n ih =>
    intro g ps
    rcases Option.eq_none_or_eq_some g.UFOs[n]? with hu | ⟨u, hu⟩
    · rw [(hitUFOFrom_step M b n g).1 hu,
        (hitUFOFrom_step M b n { g with Particles := ps }).1 hu]
    · rw [(hitUFOFrom_step M b n g).2 u hu,
        (hitUFOFrom_step M b n { g with Particles := ps }).2 u hu]
      by_cases hc : M.hypot (b.Position.X - u.Position.X) (b.Position.Y - u.Position.Y)
          < u.Radius
      · rw [if_pos hc, if_pos hc]
      · rw [if_neg hc, if_neg hc]
        exact ih g ps
/-- An iteration of the bullet loop neither reads nor writes the particle list. -/
theorem updateBullet_particles (M : MathOps R) (i : Nat) (b0 : Bullet R) (g : Game R)
    (ps : List (Particle R)) (r : Rng R) :
    updateBullet M i b0 { g with Particles := ps } r
      = ({ (updateBullet M i b0 g r).1 with Particles := ps }, (updateBullet M i b0 g r).2) := by
  have hA := hitAsteroidFrom_particles M (moveBullet g b0) g.Asteroids.length
    { g with Bullets := g.Bullets.set i (moveBullet g b0) } ps r
  have hm : moveBullet { g with Particles := ps } b0 = moveBullet g b0 := rfl
  simp only [updateBullet, hm]
  rw [hA]
  generalize hitAsteroidFrom M (moveBullet g b0) g.Asteroids.length
    { g with Bullets := g.Bullets.set i (moveBullet g b0) } r = X
  obtain ⟨ga, ra, ha⟩ := X
  cases ha with
  | true => simp only [Bool.true_eq_false, if_false, true_or, if_true]
  | false =>
    simp only [if_true]
    rw [hitUFOFrom_particles]
    generalize hitUFOFrom M (moveBullet g b0) ga.UFOs.length ga = Y
    obtain ⟨gu, hu⟩ := Y
    by_cases hc : hu = true ∨ (moveBullet g b0).Lifespan ≤ 0
    · simp only [hc, if_true]
    · simp only [hc, if_false]
/-- The bullet loop, unfolded once. -/
theorem updateBulletsFrom_step (M : MathOps R) (n : Nat) (g : Game R) (r : Rng R) :
    (g.Bullets[n]? = none → updateBulletsFrom M (n + 1) g r = (g, r)) ∧
    (∀ b0, g.Bullets[n]? = some b0 →
      updateBulletsFrom M (n + 1) g r
        = updateBulletsFrom M n (updateBullet M n b0 g r).1 (updateBullet M n b0 g r).2) := by
  constructor
  · intro h
    simp only [updateBulletsFrom, h]
  · intro b0 h
    simp only [updateBulletsFrom, h]

/-- The bullet loop is particle-blind. -/
theorem updateBulletsFrom_blind (M : MathOps R) :
    ∀ (n : Nat), Blind (updateBulletsFrom M n) := by
  intro n
  induction n with
  | zero =>
    intro g ps r
    exact ⟨ps, rfl⟩
  | succ n ih =>
    intro g ps r
    rcases Option.eq_none_or_eq_some g.Bullets[n]? with hb | ⟨b0, hb⟩
    · refine ⟨ps, ?_⟩
      rw [(updateBulletsFrom_step M n g r).1 hb,
        (updateBulletsFrom_step M n { g with Particles := ps } r).1 hb]
    · have hbl : Blind (updateBullet M n b0) :=
        fun g ps r => ⟨ps, updateBullet_particles M n b0 g ps r⟩
      obtain ⟨ps2, e⟩ := (Blind.comp hbl ih) g ps r
      refine ⟨ps2, ?_⟩
      rw [(updateBulletsFrom_step M n g r).2 b0 hb,
        (updateBulletsFrom_step M n { g with Particles := ps } r).2 b0 hb]
      exact e

/-- The respawn timer commutes with replacing the particle list. -/
theorem respawnStep_particles (M : MathOps R) (g : Game R) (ps : List (Particle R)) :
    respawnStep M { g with Particles := ps } = { respawnStep M g with Particles := ps } := by
  simp only [respawnStep]
  split_ifs <;> rfl

/-- The ship phase commutes with replacing the particle list. -/
theorem updateShip_particles (M : MathOps R) (g : Game R) (inp : Input) (now : Int)
    (ps : List (Particle R)) :
    updateShip M { g with Particles := ps } inp now
      = { updateShip M g inp now with Particles := ps } := by
  obtain ⟨ship, _, _, _, _, _, _, _, _, _, _, _, _, _, _, _⟩ := g
  cases ship with
  | none => rfl
  | some s =>
    simp only [updateShip]
    split_ifs <;> rfl

/-- The extra-life check commutes with replacing the particle list. -/
theorem grantExtraLife_particles (g : Game R) (ps : List (Particle R)) :
    grantExtraLife { g with Particles := ps } = { grantExtraLife g with Particles := ps } := by
  simp only [grantExtraLife]
  split_ifs <;> rfl

/-- The particle loop on a session with another particle list returns the same session
up to its particle list. -/
theorem updateParticles_blind :
    Blind (fun (g : Game R) r => (updateParticlesFrom g.Particles.length g, r)) := by
  intro g ps r
  refine ⟨(updateParticlesFrom ps.length { g with Particles := ps }).Particles, ?_⟩
  have f1 := updateParticlesFrom_frame ps.length { g with Particles := ps }
  have f2 := updateParticlesFrom_frame g.Particles.length g
  have e : updateParticlesFrom ps.length { g with Particles := ps }
      = { updateParticlesFrom g.Particles.length g with
          Particles := (updateParticlesFrom ps.length { g with Particles := ps }).Particles } :=
    f1.trans (congrArg (fun x : Game R => { x with
      Particles := (updateParticlesFrom ps.length { g with Particles := ps }).Particles })
      f2.symm)
  show (updateParticlesFrom ps.length { g with Particles := ps }, r) = _
  exact congrArg (fun x => (x, r)) e
/-- The UFO spawn is particle-blind. -/
theorem spawnUFO_blind (now : Int) : Blind (fun (g : Game R) r => spawnUFO g now r) := by
  intro g ps r
  refine ⟨ps, ?_⟩
  obtain ⟨_, _, _, _, _, _, _, _, _, _, _, _, _, _, _, _⟩ := g
  simp only [spawnUFO]
  split_ifs <;> rfl

/-- The firing of a UFO is particle-blind. -/
theorem fireUFO_blind (M : MathOps R) (i : Nat) (ufo : UFO R) (now : Int) :
    Blind (fireUFO M i ufo now) := by
  intro g ps r
  refine ⟨ps, ?_⟩
  have hv : ufoBulletVel M ufo { g with Particles := ps } r = ufoBulletVel M ufo g r := by
    obtain ⟨ship, _, _, _, _, _, _, _, _, _, _, _, _, _, _, _⟩ := g
    cases ship <;> rfl
  simp only [fireUFO, hv]
  split_ifs <;> rfl

/-- An iteration of the UFO loop, unfolded. -/
theorem updateUFO_eq (M : MathOps R) (i : Nat) (u0 : UFO R) (now : Int) (g : Game R)
    (r : Rng R) :
    updateUFO M i u0 now g r
      = if (u0.Velocity.X > 0 ∧
            (g.wrap ⟨u0.Position.X + u0.Velocity.X, u0.Position.Y + u0.Velocity.Y⟩).X
              > (g.ScreenWidth : R) + u0.Radius) ∨
          (u0.Velocity.X < 0 ∧
            (g.wrap ⟨u0.Position.X + u0.Velocity.X, u0.Position.Y + u0.Velocity.Y⟩).X
              < -u0.Radius) then
          ({ g with UFOs := (g.UFOs.set i { u0 with
              Position :=
                g.wrap ⟨u0.Position.X + u0.Velocity.X, u0.Position.Y + u0.Velocity.Y⟩ }).eraseIdx i },
            r)
        else
          fireUFO M i { u0 with
              Position :=
                g.wrap ⟨u0.Position.X + u0.Velocity.X, u0.Position.Y + u0.Velocity.Y⟩ } now
            (collideShip M
              (g.wrap ⟨u0.Position.X + u0.Velocity.X, u0.Position.Y + u0.Velocity.Y⟩)
              (u0.Radius + 10)
              { g with UFOs := g.UFOs.set i { u0 with
                Position :=
                  g.wrap ⟨u0.Position.X + u0.Velocity.X, u0.Position.Y + u0.Velocity.Y⟩ } } r).1
            (collideShip M
              (g.wrap ⟨u0.Position.X + u0.Velocity.X, u0.Position.Y + u0.Velocity.Y⟩)
              (u0.Radius + 10)
              { g with UFOs := g.UFOs.set i { u0 with
                Position :=
                  g.wrap ⟨u0.Position.X + u0.Velocity.X, u0.Position.Y + u0.Velocity.Y⟩ } } r).2 :=
  rfl

/-- An iteration of the UFO loop is particle-blind. -/
theorem updateUFO_blind (M : MathOps R) (i : Nat) (u0 : UFO R) (now : Int) :
    Blind (updateUFO M i u0 now) := by
  intro g ps r
  have hw : Game.wrap { g with Particles := ps }
      ⟨u0.Position.X + u0.Velocity.X, u0.Position.Y + u0.Velocity.Y⟩
      = g.wrap ⟨u0.Position.X + u0.Velocity.X, u0.Position.Y + u0.Velocity.Y⟩ := rfl
  rw [updateUFO_eq M i u0 now g r, updateUFO_eq M i u0 now { g with Particles := ps } r, hw]
  by_cases hc : (u0.Velocity.X > 0 ∧
        (g.wrap ⟨u0.Position.X + u0.Velocity.X, u0.Position.Y + u0.Velocity.Y⟩).X
          > (g.ScreenWidth : R) + u0.Radius) ∨
      (u0.Velocity.X < 0 ∧
        (g.wrap ⟨u0.Position.X + u0.Velocity.X, u0.Position.Y + u0.Velocity.Y⟩).X
          < -u0.Radius)
  · refine ⟨ps, ?_⟩
    rw [if_pos hc, if_pos hc]
  · rw [if_neg hc, if_neg hc]
    exact (Blind.comp (collideShip_blind M
      (g.wrap ⟨u0.Position.X + u0.Velocity.X, u0.Position.Y + u0.Velocity.Y⟩)
      (u0.Radius + 10)) (fireUFO_blind M i { u0 with
        Position :=
          g.wrap ⟨u0.Position.X + u0.Velocity.X, u0.Position.Y + u0.Velocity.Y⟩ } now))
      { g with UFOs := g.UFOs.set i { u0 with
        Position :=
          g.wrap ⟨u0.Position.X + u0.Velocity.X, u0.Position.Y + u0.Velocity.Y⟩ } } ps r

/-- The UFO loop, unfolded once. -/
theorem updateUFOsFrom_step (M : MathOps R) (now : Int) (n : Nat) (g : Game R) (r : Rng R) :
    (g.UFOs[n]? = none → updateUFOsFrom M now (n + 1) g r = (g, r)) ∧
    (∀ u0, g.UFOs[n]? = some u0 →
      updateUFOsFrom M now (n + 1) g r
        = updateUFOsFrom M now n (updateUFO M n u0 now g r).1 (updateUFO M n u0 now g r).2) := by
  constructor
  · intro h
    simp only [updateUFOsFrom, h]
  · intro u0 h
    simp only [updateUFOsFrom, h]

/-- The UFO loop is particle-blind. -/
theorem updateUFOsFrom_blind (M : MathOps R) (now : Int) :
    ∀ (n : Nat), Blind (updateUFOsFrom M now n) := by
  intro n
  induction n with
  | zero =>
    intro g ps r
    exact ⟨ps, rfl⟩
  | succ n ih =>
    intro g ps r
    rcases Option.eq_none_or_eq_some g.UFOs[n]? with hu | ⟨u0, hu⟩
    · refine ⟨ps, ?_⟩
      rw [(updateUFOsFrom_step M now n g r).1 hu,
        (updateUFOsFrom_step M now n { g with Particles := ps } r).1 hu]
    · obtain ⟨ps2, e⟩ := (Blind.comp (updateUFO_blind M n u0 now) ih) g ps r
      refine ⟨ps2, ?_⟩
      rw [(updateUFOsFrom_step M now n g r).2 u0 hu,
        (updateUFOsFrom_step M now n { g with Particles := ps } r).2 u0 hu]
      exact e
/-- An iteration of the UFO-bullet loop, when it destroys the ship. -/
theorem updateUFOBullet_kill (M : MathOps R) (i : Nat) (b0 : UFOBullet R) (g : Game R)
    (r : Rng R) (s : Ship R) (hs : g.Ship = some s)
    (h1 : s.IsInvincible = false ∧ g.GameState = 0)
    (h2 : M.hypot
        ((g.wrap ⟨b0.Position.X + b0.Velocity.X, b0.Position.Y + b0.Velocity.Y⟩).X
          - s.Position.X)
        ((g.wrap ⟨b0.Position.X + b0.Velocity.X, b0.Position.Y + b0.Velocity.Y⟩).Y
          - s.Position.Y) < 10) :
    updateUFOBullet M i b0 g r
      = ({ (Game.killShip M { g with UFOBullets := g.UFOBullets.set i { b0 with
              Position :=
                g.wrap ⟨b0.Position.X + b0.Velocity.X, b0.Position.Y + b0.Velocity.Y⟩
              Lifespan := b0.Lifespan - tick } } r).1 with
            UFOBullets := (Game.killShip M { g with UFOBullets := g.UFOBullets.set i { b0 with
              Position :=
                g.wrap ⟨b0.Position.X + b0.Velocity.X, b0.Position.Y + b0.Velocity.Y⟩
              Lifespan := b0.Lifespan - tick } } r).1.UFOBullets.eraseIdx i },
          (Game.killShip M { g with UFOBullets := g.UFOBullets.set i { b0 with
              Position :=
                g.wrap ⟨b0.Position.X + b0.Velocity.X, b0.Position.Y + b0.Velocity.Y⟩
              Lifespan := b0.Lifespan - tick } } r).2) := by
  simp only [updateUFOBullet, hs, if_pos h1, if_pos h2]

/-- An iteration of the UFO-bullet loop, when it leaves the ship alone. -/
theorem updateUFOBullet_skip (M : MathOps R) (i : Nat) (b0 : UFOBullet R) (g : Game R)
    (r : Rng R)
    (h : ∀ s, g.Ship = some s → ¬ ((s.IsInvincible = false ∧ g.GameState = 0) ∧
      M.hypot
        ((g.wrap ⟨b0.Position.X + b0.Velocity.X, b0.Position.Y + b0.Velocity.Y⟩).X
          - s.Position.X)
        ((g.wrap ⟨b0.Position.X + b0.Velocity.X, b0.Position.Y + b0.Velocity.Y⟩).Y
          - s.Position.Y) < 10)) :
    updateUFOBullet M i b0 g r
      = if b0.Lifespan - tick ≤ 0 then
          ({ g with UFOBullets := (g.UFOBullets.set i { b0 with
              Position :=
                g.wrap ⟨b0.Position.X + b0.Velocity.X, b0.Position.Y + b0.Velocity.Y⟩
              Lifespan := b0.Lifespan - tick }).eraseIdx i }, r)
        else
          ({ g with UFOBullets := g.UFOBullets.set i { b0 with
              Position :=
                g.wrap ⟨b0.Position.X + b0.Velocity.X, b0.Position.Y + b0.Velocity.Y⟩
              Lifespan := b0.Lifespan - tick } }, r) := by
  rcases Option.eq_none_or_eq_some g.Ship with hs | ⟨s, hs⟩
  · simp only [updateUFOBullet, hs]
  · have hn := h s hs
    simp only [updateUFOBullet, hs]
    by_cases h1 : s.IsInvincible = false ∧ g.GameState = 0
    · rw [if_pos h1, if_neg (fun h2 => hn ⟨h1, h2⟩)]
    · rw [if_neg h1]

/-- An iteration of the UFO-bullet loop is particle-blind. -/
theorem updateUFOBullet_blind (M : MathOps R) (i : Nat) (b0 : UFOBullet R) :
    Blind (updateUFOBullet M i b0) := by
  intro g ps r
  by_cases hk : ∃ s, g.Ship = some s ∧ (s.IsInvincible = false ∧ g.GameState = 0) ∧
      M.hypot
        ((g.wrap ⟨b0.Position.X + b0.Velocity.X, b0.Position.Y + b0.Velocity.Y⟩).X
          - s.Position.X)
        ((g.wrap ⟨b0.Position.X + b0.Velocity.X, b0.Position.Y + b0.Velocity.Y⟩).Y
          - s.Position.Y) < 10
  · obtain ⟨s, hs, h1, h2⟩ := hk
    obtain ⟨ps2, e⟩ := killShip_blind M { g with UFOBullets := g.UFOBullets.set i { b0 with
      Position := g.wrap ⟨b0.Position.X + b0.Velocity.X, b0.Position.Y + b0.Velocity.Y⟩
      Lifespan := b0.Lifespan - tick } } ps r
    refine ⟨ps2, ?_⟩
    have e2 : Game.killShip M { ({ g with Particles := ps } : Game R) with
        UFOBullets := g.UFOBullets.set i { b0 with
          Position := g.wrap ⟨b0.Position.X + b0.Velocity.X, b0.Position.Y + b0.Velocity.Y⟩
          Lifespan := b0.Lifespan - tick } } r = _ := e
    rw [updateUFOBullet_kill M i b0 g r s hs h1 h2,
      updateUFOBullet_kill M i b0 { g with Particles := ps } r s hs h1 h2]
    show (({ (Game.killShip M { ({ g with Particles := ps } : Game R) with
        UFOBullets := g.UFOBullets.set i { b0 with
          Position := g.wrap ⟨b0.Position.X + b0.Velocity.X, b0.Position.Y + b0.Velocity.Y⟩
          Lifespan := b0.Lifespan - tick } } r).1 with
        UFOBullets := (Game.killShip M { ({ g with Particles := ps } : Game R) with
          UFOBullets := g.UFOBullets.set i { b0 with
            Position := g.wrap ⟨b0.Position.X + b0.Velocity.X, b0.Position.Y + b0.Velocity.Y⟩
            Lifespan := b0.Lifespan - tick } } r).1.UFOBullets.eraseIdx i },
      (Game.killShip M { ({ g with Particles := ps } : Game R) with
        UFOBullets := g.UFOBullets.set i { b0 with
          Position := g.wrap ⟨b0.Position.X + b0.Velocity.X, b0.Position.Y + b0.Velocity.Y⟩
          Lifespan := b0.Lifespan - tick } } r).2) : Game R × Rng R) = _
    rw [e2]
  · have hn : ∀ s, g.Ship = some s → ¬ ((s.IsInvincible = false ∧ g.GameState = 0) ∧
        M.hypot
          ((g.wrap ⟨b0.Position.X + b0.Velocity.X, b0.Position.Y + b0.Velocity.Y⟩).X
            - s.Position.X)
          ((g.wrap ⟨b0.Position.X + b0.Velocity.X, b0.Position.Y + b0.Velocity.Y⟩).Y
            - s.Position.Y) < 10) :=
      fun s hs hc => hk ⟨s, hs, hc⟩
    refine ⟨ps, ?_⟩
    rw [updateUFOBullet_skip M i b0 g r hn,
      updateUFOBullet_skip M i b0 { g with Particles := ps } r hn]
    by_cases hl : b0.Lifespan - tick ≤ 0
    · rw [if_pos hl, if_pos hl]
      rfl
    · rw [if_neg hl, if_neg hl]
      rfl

/-- The UFO-bullet loop, unfolded once. -/
theorem updateUFOBulletsFrom_step (M : MathOps R) (n : Nat) (g : Game R) (r : Rng R) :
    (g.UFOBullets[n]? = none → updateUFOBulletsFrom M (n + 1) g r = (g, r)) ∧
    (∀ b0, g.UFOBullets[n]? = some b0 →
      updateUFOBulletsFrom M (n + 1) g r
        = updateUFOBulletsFrom M n (updateUFOBullet M n b0 g r).1
            (updateUFOBullet M n b0 g r).2) := by
  constructor
  · intro h
    simp only [updateUFOBulletsFrom, h]
  · intro b0 h
    simp only [updateUFOBulletsFrom, h]

/-- The UFO-bullet loop is particle-blind. -/
theorem updateUFOBulletsFrom_blind (M : MathOps R) :
    ∀ (n : Nat), Blind (updateUFOBulletsFrom M n) := by
  intro n
  induction n with
  | zero =>
    intro g ps r
    exact ⟨ps, rfl⟩
  | succ n ih =>
    intro g ps r
    rcases Option.eq_none_or_eq_some g.UFOBullets[n]? with hb | ⟨b0, hb⟩
    · refine ⟨ps, ?_⟩
      rw [(updateUFOBulletsFrom_step M n g r).1 hb,
        (updateUFOBulletsFrom_step M n { g with Particles := ps } r).1 hb]
    · obtain ⟨ps2, e⟩ := (Blind.comp (updateUFOBullet_blind M n b0) ih) g ps r
      refine ⟨ps2, ?_⟩
      rw [(updateUFOBulletsFrom_step M n g r).2 b0 hb,
        (updateUFOBulletsFrom_step M n { g with Particles := ps } r).2 b0 hb]
      exact e

/-- The loop of `spawnAsteroids` is particle-blind. -/
theorem spawnAsteroidsLoop_blind (M : MathOps R) (size : Int) :
    ∀ (n : Nat), Blind (spawnAsteroidsLoop M size n) := by
  intro n
  induction n with
  | zero =>
    intro g ps r
    exact ⟨ps, rfl⟩
  | succ n ih =>
    intro g ps r
    have hp : Blind (spawnAsteroid M size) := by
      intro g ps r
      exact ⟨ps, rfl⟩
    exact (Blind.comp hp ih) g ps r

/-- Level progression is particle-blind. -/
theorem levelProgression_blind (M : MathOps R) : Blind (levelProgression M) := by
  intro g ps r
  by_cases hc : g.Asteroids.length = 0 ∧ g.UFOs.length = 0
  · have e1 : ∀ (g2 : Game R), g2.Asteroids.length = 0 ∧ g2.UFOs.length = 0 →
        levelProgression M g2 r
          = spawnAsteroidsLoop M 3
              (if g2.Score ≥ 40000 ∧ g2.Score < 60000 then 7
                else if g2.Score ≥ 60000 then 8 else g2.Level + 1 + 3 : Int).toNat
              { g2 with Level := g2.Level + 1, UFOBullets := [] } r := by
      intro g2 h2
      simp only [levelProgression, if_pos h2, Game.spawnAsteroids]
    obtain ⟨ps2, e⟩ := spawnAsteroidsLoop_blind M 3
      (if g.Score ≥ 40000 ∧ g.Score < 60000 then 7
        else if g.Score ≥ 60000 then 8 else g.Level + 1 + 3 : Int).toNat
      { g with Level := g.Level + 1, UFOBullets := [] } ps r
    refine ⟨ps2, ?_⟩
    rw [e1 g hc, e1 { g with Particles := ps } hc]
    exact e
  · have e1 : ∀ (g2 : Game R), ¬ (g2.Asteroids.length = 0 ∧ g2.UFOs.length = 0) →
        levelProgression M g2 r = (g2, r) := by
      intro g2 h2
      simp only [levelProgression, if_neg h2]
    refine ⟨ps, ?_⟩
    rw [e1 g hc, e1 { g with Particles := ps } hc]
/-- The phases of a step up to the asteroid loop are particle-blind. -/
theorem stepToAsteroids_blind (M : MathOps R) (inp : Input) (now : Int) :
    Blind (fun g r => stepToAsteroids M g inp now r) := by
  have p2 : Blind (fun (g : Game R) r => (respawnStep M g, r)) :=
    Blind.pure (respawnStep M) (respawnStep_particles M)
  have p3 : Blind (fun (g : Game R) r => (updateShip M g inp now, r)) :=
    Blind.pure (fun g => updateShip M g inp now)
      (fun g ps => updateShip_particles M g inp now ps)
  have p4 : Blind (fun (g : Game R) r => updateBulletsFrom M g.Bullets.length g r) :=
    fun g ps r => updateBulletsFrom_blind M g.Bullets.length g ps r
  have p5 : Blind (fun (g : Game R) r => updateAsteroidsFrom M g.Asteroids.length g r) :=
    fun g ps r => updateAsteroidsFrom_blind M g.Asteroids.length g ps r
  exact Blind.comp (Blind.comp (Blind.comp (Blind.comp updateParticles_blind p2) p3) p4) p5

/-- The phases of a step from the UFO spawn on are particle-blind. -/
theorem stepFromUFOs_blind (M : MathOps R) (now : Int) :
    Blind (fun g r => stepFromUFOs M g now r) := by
  have p2 : Blind (fun (g : Game R) r => updateUFOsFrom M now g.UFOs.length g r) :=
    fun g ps r => updateUFOsFrom_blind M now g.UFOs.length g ps r
  have p3 : Blind (fun (g : Game R) r => updateUFOBulletsFrom M g.UFOBullets.length g r) :=
    fun g ps r => updateUFOBulletsFrom_blind M g.UFOBullets.length g ps r
  exact Blind.comp (Blind.comp (Blind.comp (spawnUFO_blind now) p2) p3)
    (levelProgression_blind M)

/-- A step is particle-blind. -/
theorem Update_blind (M : MathOps R) (inp : Input) (now : Int) :
    Blind (fun g r => g.Update M inp now r) := by
  have p2 : Blind (fun (g : Game R) r => (grantExtraLife g, r)) :=
    Blind.pure grantExtraLife grantExtraLife_particles
  have hplay : Blind (fun g r => playStep M g inp now r) :=
    Blind.comp (Blind.comp (stepToAsteroids_blind M inp now) p2) (stepFromUFOs_blind M now)
  intro g ps r
  have e1 : ∀ (g2 : Game R), g2.GameState = 1 →
      g2.Update M inp now r = if inp.enter = true then NewGame M now r else (g2, r) := by
    intro g2 h2
    simp only [Game.Update, if_pos h2]
  have e2 : ∀ (g2 : Game R), ¬ g2.GameState = 1 →
      g2.Update M inp now r = playStep M g2 inp now r := by
    intro g2 h2
    simp only [Game.Update, if_neg h2]
  by_cases hc : g.GameState = 1
  · by_cases he : inp.enter = true
    · refine ⟨(NewGame M now r).1.Particles, ?_⟩
      show Game.Update M { g with Particles := ps } inp now r
        = ({ (g.Update M inp now r).1 with Particles := (NewGame M now r).1.Particles },
            (g.Update M inp now r).2)
      rw [e1 g hc, e1 { g with Particles := ps } hc, if_pos he, if_pos he]
    · refine ⟨ps, ?_⟩
      show Game.Update M { g with Particles := ps } inp now r
        = ({ (g.Update M inp now r).1 with Particles := ps }, (g.Update M inp now r).2)
      rw [e1 g hc, e1 { g with Particles := ps } hc, if_neg he, if_neg he]
  · obtain ⟨ps2, e⟩ := hplay g ps r
    refine ⟨ps2, ?_⟩
    show Game.Update M { g with Particles := ps } inp now r
      = ({ (g.Update M inp now r).1 with Particles := ps2 }, (g.Update M inp now r).2)
    rw [e2 g hc, e2 { g with Particles := ps } hc]
    exact e

/-- C19. Particles have no gameplay effect. Two sessions that differ only in their
particle lists are a session `g` and `g` with its particle list replaced by any list
`ps`. One step from each, with the same key state, clock value and random source, leaves
the same random source and sessions that agree on every field other than the particle
list: ship, asteroids, bullets, UFOs, UFO bullets, score, lives, level, screen size,
game state, the two clock stamps, the extra-life threshold and the respawn timer. -/
theorem particles_no_effect (M : MathOps R) (g : Game R) (ps : List (Particle R))
    (inp : Input) (now : Int) (r : Rng R) :
    (Game.Update M { g with Particles := ps } inp now r).2 = (g.Update M inp now r).2 ∧
    (Game.Update M { g with Particles := ps } inp now r).1.Ship
      = (g.Update M inp now r).1.Ship ∧
    (Game.Update M { g with Particles := ps } inp now r).1.Asteroids
      = (g.Update M inp now r).1.Asteroids ∧
    (Game.Update M { g with Particles := ps } inp now r).1.Bullets
      = (g.Update M inp now r).1.Bullets ∧
    (Game.Update M { g with Particles := ps } inp now r).1.UFOs
      = (g.Update M inp now r).1.UFOs ∧
    (Game.Update M { g with Particles := ps } inp now r).1.UFOBullets
      = (g.Update M inp now r).1.UFOBullets ∧
    (Game.Update M { g with Particles := ps } inp now r).1.Score
      = (g.Update M inp now r).1.Score ∧
    (Game.Update M { g with Particles := ps } inp now r).1.Lives
      = (g.Update M inp now r).1.Lives ∧
    (Game.Update M { g with Particles := ps } inp now r).1.Level
      = (g.Update M inp now r).1.Level ∧
    (Game.Update M { g with Particles := ps } inp now r).1.ScreenWidth
      = (g.Update M inp now r).1.ScreenWidth ∧
    (Game.Update M { g with Particles := ps } inp now r).1.ScreenHeight
      = (g.Update M inp now r).1.ScreenHeight ∧
    (Game.Update M { g with Particles := ps } inp now r).1.GameState
      = (g.Update M inp now r).1.GameState ∧
    (Game.Update M { g with Particles := ps } inp now r).1.LastShot
      = (g.Update M inp now r).1.LastShot ∧
    (Game.Update M { g with Particles := ps } inp now r).1.LastUFOSpawn
      = (g.Update M inp now r).1.LastUFOSpawn ∧
    (Game.Update M { g with Particles := ps } inp now r).1.NextExtraLifeScore
      = (g.Update M inp now r).1.NextExtraLifeScore ∧
    (Game.Update M { g with Particles := ps } inp now r).1.RespawnTimer
      = (g.Update M inp now r).1.RespawnTimer := by
  obtain ⟨ps2, e⟩ := Update_blind M inp now g ps r
  have e2 : Game.Update M { g with Particles := ps } inp now r
      = ({ (g.Update M inp now r).1 with Particles := ps2 }, (g.Update M inp now r).2) := e
  rw [e2]
  exact ⟨rfl, rfl, rfl, rfl, rfl, rfl, rfl, rfl, rfl, rfl, rfl, rfl, rfl, rfl, rfl, rfl⟩

/-! ### The extra life at the threshold -/

/-- With the fire key up, the ship phase appends no bullet. -/
theorem updateShip_idle (M : MathOps R) (g : Game R) (inp : Input) (now : Int)
    (h : inp.space = false) : (updateShip M g inp now).Bullets = g.Bullets := by
  obtain ⟨ship, _, _, _, _, _, _, _, _, _, _, _, _, _, _, _⟩ := g
  cases ship with
  | none => rfl
  | some s => simp [updateShip, h]

/-- With the fire key up, the phases up to the ship phase leave the bullets as they
were. -/
theorem stepToShip_bullets (M : MathOps R) (g : Game R) (inp : Input) (now : Int)
    (h : inp.space = false) : (stepToShip M g inp now).Bullets = g.Bullets := by
  unfold stepToShip
  rw [updateShip_idle M _ inp now h, respawnStep_frame, updateParticlesFrom_frame]

/-- The score after the first half of a step is the score after its bullet loop, run on
the session the ship phase leaves. -/
theorem stepToAsteroids_score (M : MathOps R) (g : Game R) (inp : Input) (now : Int)
    (r : Rng R) :
    (stepToAsteroids M g inp now r).1.Score
      = (updateBulletsFrom M (stepToShip M g inp now).Bullets.length
          (stepToShip M g inp now) r).1.Score :=
  (updateAsteroidsFrom_spec M _ _ _).1.score

/-- The first half of a step with the fire key up and no bullet in flight leaves the
score as it was. -/
theorem stepToAsteroids_quiet (M : MathOps R) (g : Game R) (inp : Input) (now : Int)
    (r : Rng R) (hsp : inp.space = false) (hb : g.Bullets = []) :
    (stepToAsteroids M g inp now r).1.Score = g.Score := by
  rw [stepToAsteroids_score]
  have key : ∀ (g3 : Game R), g3 = stepToShip M g inp now →
      (updateBulletsFrom M g3.Bullets.length g3 r).1.Score = g.Score := by
    intro g3 e3
    have fb : g3.Bullets = [] := by
      rw [e3, stepToShip_bullets M g inp now hsp]
      exact hb
    have fr := stepToShip_frame M g inp now
    rw [← e3] at fr
    have fs : g3.Score = g.Score := by rw [fr]
    have hl : g3.Bullets.length = 0 := by rw [fb]; rfl
    rw [hl]
    exact fs
  exact key _ rfl

/-- The first half of a step with the fire key up and a single bullet in flight that,
after its move, is within some asteroid: the score rises by exactly 100. -/
theorem stepToAsteroids_hit (M : MathOps R) (g : Game R) (inp : Input) (now : Int)
    (r : Rng R) (b0 : Bullet R) (hsp : inp.space = false) (hb : g.Bullets = [b0])
    (hw : ∃ (j : Nat) (a : Asteroid R), g.Asteroids[j]? = some a ∧
      Within M (moveBullet g b0).Position a.Position a.Radius) :
    (stepToAsteroids M g inp now r).1.Score = g.Score + 100 := by
  rw [stepToAsteroids_score]
  have key : ∀ (g3 : Game R), g3 = stepToShip M g inp now →
      (updateBulletsFrom M g3.Bullets.length g3 r).1.Score = g.Score + 100 := by
    intro g3 e3
    have fb : g3.Bullets = [b0] := by
      rw [e3, stepToShip_bullets M g inp now hsp]
      exact hb
    have fr := stepToShip_frame M g inp now
    rw [← e3] at fr
    have fs : g3.Score = g.Score := by rw [fr]
    have fa : g3.Asteroids = g.Asteroids := by rw [fr]
    have fm : moveBullet g3 b0 = moveBullet g b0 := by rw [fr]; rfl
    have hl : g3.Bullets.length = 0 + 1 := by rw [fb]; rfl
    have h0 : g3.Bullets[0]? = some b0 := by rw [fb]; rfl
    rw [hl, (updateBulletsFrom_step M 0 g3 r).2 b0 h0]
    show (updateBullet M 0 b0 g3 r).1.Score = g.Score + 100
    obtain ⟨j0, a0, h1, w1⟩ := hw
    have hj0 : j0 < g3.Asteroids.length := by
      rw [fa]
      exact (List.getElem?_eq_some.mp h1).1
    have h1b : g3.Asteroids[j0]? = some a0 := by rw [fa]; exact h1
    have w1b : Within M (moveBullet g3 b0).Position a0.Position a0.Radius := by
      rw [fm]
      exact w1
    obtain ⟨j, _, _, _, _, _, p5⟩ := hitAsteroidFrom_hit M (moveBullet g3 b0)
      g3.Asteroids.length { g3 with Bullets := g3.Bullets.set 0 (moveBullet g3 b0) } r
      (le_refl _) ⟨j0, a0, hj0, h1b, w1b⟩
    rw [updateBullet_asteroid M 0 b0 g3 r j p5]
    show g3.Score + 100 = g.Score + 100
    rw [fs]
  exact key _ rfl

/-- The bullet `tracer` of the fixture `lastHundred` is at `(95, 100)` after its move,
within the asteroid of the fixture. -/
theorem tracer_within :
    Within ratMath (moveBullet lastHundred tracer).Position
      (rock 3 (⟨100, 100⟩ : Vector2D ℚ) ⟨0, 0⟩).Position
      (rock 3 (⟨100, 100⟩ : Vector2D ℚ) ⟨0, 0⟩).Radius := by
  have e : (moveBullet lastHundred tracer).Position = ⟨95, 100⟩ := by
    simp [moveBullet, Game.wrap, lastHundred, arena, tracer, screenWidth, screenHeight]
    norm_num
  rw [e]
  simp only [Within, ratMath, rock]
  norm_num

/-- Witness of C9, on both branches of the check. In `lastHundred`, 100 points short of
the threshold 10000, the bullet in flight hits an asteroid: the score after the bullet
and asteroid phases is 10000, the threshold is reached, and the check raises `Lives` by 1
and the threshold to 20000. In the new session `startGame` the score stays 0, below the
threshold, and the check changes nothing. -/
theorem extra_life_once_witness :
    lastHundred.GameState = 0 ∧
    (stepToAsteroids ratMath lastHundred idle 0 (zeroRng ℚ)).1.Score = 10000 ∧
    (stepToAsteroids ratMath lastHundred idle 0 (zeroRng ℚ)).1.Score
      ≥ (stepToAsteroids ratMath lastHundred idle 0 (zeroRng ℚ)).1.NextExtraLifeScore ∧
    grantExtraLife (stepToAsteroids ratMath lastHundred idle 0 (zeroRng ℚ)).1
      = { (stepToAsteroids ratMath lastHundred idle 0 (zeroRng ℚ)).1 with
          Lives := (stepToAsteroids ratMath lastHundred idle 0 (zeroRng ℚ)).1.Lives + 1
          NextExtraLifeScore :=
            (stepToAsteroids ratMath lastHundred idle 0 (zeroRng ℚ)).1.NextExtraLifeScore
              + 10000 } ∧
    (lastHundred.Update ratMath idle 0 (zeroRng ℚ)).1.NextExtraLifeScore = 20000 ∧
    (lastHundred.Update ratMath idle 0 (zeroRng ℚ)).1.Score = 10000 ∧
    startGame.GameState = 0 ∧
    (stepToAsteroids ratMath startGame idle 0 (zeroRng ℚ)).1.Score
      < (stepToAsteroids ratMath startGame idle 0 (zeroRng ℚ)).1.NextExtraLifeScore ∧
    grantExtraLife (stepToAsteroids ratMath startGame idle 0 (zeroRng ℚ)).1
      = (stepToAsteroids ratMath startGame idle 0 (zeroRng ℚ)).1 ∧
    (startGame.Update ratMath idle 0 (zeroRng ℚ)).1.NextExtraLifeScore = 10000 := by
  have hs : (stepToAsteroids ratMath lastHundred idle 0 (zeroRng ℚ)).1.Score = 10000 :=
    stepToAsteroids_hit ratMath lastHundred idle 0 (zeroRng ℚ) tracer rfl rfl
      ⟨0, _, rfl, tracer_within⟩
  have hn := (stepToAsteroids_frame ratMath lastHundred idle 0 (zeroRng ℚ)).1
  have hge : (stepToAsteroids ratMath lastHundred idle 0 (zeroRng ℚ)).1.Score
      ≥ (stepToAsteroids ratMath lastHundred idle 0 (zeroRng ℚ)).1.NextExtraLifeScore := by
    rw [hs, hn]
    decide
  have hb0 : startGame.Bullets = [] := by
    obtain ⟨new, e, _⟩ := NewGame_spec ratMath 0 (zeroRng ℚ)
    show (NewGame ratMath 0 (zeroRng ℚ)).1.Bullets = []
    rw [e]
  have hs0 : (stepToAsteroids ratMath startGame idle 0 (zeroRng ℚ)).1.Score = 0 := by
    rw [stepToAsteroids_quiet ratMath startGame idle 0 (zeroRng ℚ) rfl hb0]
    decide
  have hn0 := (stepToAsteroids_frame ratMath startGame idle 0 (zeroRng ℚ)).1
  have hlt : (stepToAsteroids ratMath startGame idle 0 (zeroRng ℚ)).1.Score
      < (stepToAsteroids ratMath startGame idle 0 (zeroRng ℚ)).1.NextExtraLifeScore := by
    rw [hs0, hn0]
    decide
  obtain ⟨_, a1, _, a3, _⟩ := extra_life_once ratMath lastHundred idle 0 (zeroRng ℚ) rfl
  obtain ⟨_, _, b2, _, _⟩ := extra_life_once ratMath startGame idle 0 (zeroRng ℚ)
    (by decide)
  exact ⟨rfl, hs, hge, (a1 hge).1, (a1 hge).2, a3.trans hs, by decide, hlt, (b2 hlt).1,
    (b2 hlt).2⟩

end Proofs

end Asteroids
